import Mathlib

/-!
# Virtual PCI configuration-space emulation (hypervisor/dm/vpci/vpci.c)

A shallow embedding of `vpci.c`.

* C pointers become handles: a `struct acrn_vpci *` / `struct acrn_vm *` is the VM id
  (`vpci2vm` is `container_of`), a `struct pci_vdev *` is a `vdev_ref` (VM id and slot index),
  nullable pointers are `Option`s.
* Dereferencing a null pointer, writing past the end of `pci_vdevs[]` and `panic()` end the
  run in a `Fault`; every function that can end so returns `Except Fault _`.
* Everything that lives outside `vpci.c` (other compilation units, hardware, the VM
  configuration) is a field of `Platform`, or is a definition whose doc comment says that it
  is modelled from the specification.
* Calls that reach hardware or another compilation unit are recorded, in program order, in
  `State.trace`.  Spin locks are recorded as trace events; the embedding is sequential.
* `ASSERT` compiles to nothing in release builds and is embedded as a no-op.
-/

namespace Vpci

/-! ## Constants -/

/-- Modelled from the spec: the address register port CF8h (`PCI_CONFIG_ADDR`, pci.h). -/
def PCI_CONFIG_ADDR : Nat := 0xCF8
/-- Modelled from the spec: the first data register port CFCh (`PCI_CONFIG_DATA`, pci.h). -/
def PCI_CONFIG_DATA : Nat := 0xCFC
/-- Modelled from the spec: the errno value behind "no such device" (`ENODEV`, errno.h). -/
def ENODEV : Int := 19
/-- Modelled from the spec: offset of the Command register (`PCIR_COMMAND`, pci.h). -/
def PCIR_COMMAND : Nat := 0x04
/-- Modelled from the spec: I/O-space enable bit of the Command register (pci.h). -/
def PCIM_CMD_PORTEN : Nat := 0x01
/-- Modelled from the spec: Memory-Space-Enable bit of the Command register (pci.h). -/
def PCIM_CMD_MEMEN : Nat := 0x02
/-- The macro `PCIM_SPACE_EN` defined inside `write_cfg_header`. -/
def PCIM_SPACE_EN : Nat := PCIM_CMD_PORTEN ||| PCIM_CMD_MEMEN
/-- Modelled from the spec: offset of the interrupt-line register (pci.h). -/
def PCIR_INTERRUPT_LINE : Nat := 0x3c
/-- Modelled from the spec: offset of the interrupt-pin register (pci.h). -/
def PCIR_INTERRUPT_PIN : Nat := 0x3d
/-- Modelled from the spec: header type of a PCI bridge (pci.h). -/
def PCIM_HDRTYPE_BRIDGE : Nat := 0x01
/-- Modelled from the spec: the standard header length (`PCI_CFG_HEADER_LENGTH`, pci.h). -/
def PCI_CFG_HEADER_LENGTH : Nat := 0x40
/-- Modelled from the spec: the direction tag of a read request (`REQUEST_READ`). -/
def REQUEST_READ : Nat := 0

/-- Truncation to `uint16_t`. -/
def u16 (x : Nat) : Nat := x % 2 ^ 16
/-- Truncation to `uint32_t`. -/
def u32 (x : Nat) : Nat := x % 2 ^ 32
/-- Truncation to `uint8_t`. -/
def u8 (x : Nat) : Nat := x % 2 ^ 8
/-- The value `~0U`. -/
def ALL_ONES : Nat := 0xFFFFFFFF

/-! ## Data model -/

/-- The fields of `struct pci_pdev` that `vpci.c` reads. -/
structure pci_pdev where
  bdf : Nat
  hdr_type : Nat
  has_pm_reset : Bool
  has_flr : Bool
  has_af_flr : Bool
deriving DecidableEq, Inhabited

/-- The three kinds of operation set a `pci_vdev` can carry: `pci_pt_dev_ops` (this file),
`vpci_bridge_ops` and an operation set supplied by the device configuration. -/
inductive pci_vdev_ops where
  | pci_pt_dev_ops
  | vpci_bridge_ops
  | custom (id : Nat)
deriving DecidableEq, Inhabited

/-- The fields of `struct acrn_vm_pci_dev_config` that `vpci.c` reads; `vdev_ops = none` is the
NULL operation set of a pass-through configuration. -/
structure acrn_vm_pci_dev_config where
  emu_type : Nat
  vbdf : Nat
  pdev : Option pci_pdev
  vdev_ops : Option Nat
deriving DecidableEq, Inhabited

/-- A `struct pci_vdev *`: the VM whose table holds the instance, and the slot. -/
structure vdev_ref where
  vm : Nat
  idx : Nat
deriving DecidableEq, Inhabited

/-- Per-BAR emulation state (`struct pci_vbar`). -/
structure pci_vbar where
  size : Nat
  base_gpa : Nat
  base_hpa : Nat
  bar_type : Nat
deriving DecidableEq, Inhabited

/-- The fields of `struct pci_msix` that `vpci.c` touches. -/
structure pci_msix where
  table_bar : Nat
  mmio_hpa : Nat
  mmio_size : Nat
deriving DecidableEq, Inhabited

/-- One PCI function visible to a VM (`struct pci_vdev`).  `pci_dev_config` and `vdev_ops` are
pointers that `vpci_init_vdev` sets to non-null values in every slot it registers; they are
embedded as values.  `caps` is the capability-private state (MSI, MSI-X, SR-IOV) that only
the external capability handlers interpret. -/
structure pci_vdev where
  vpci : Option Nat
  bdf : Nat
  pdev : Option pci_pdev
  pci_dev_config : acrn_vm_pci_dev_config
  phyfun : Option vdev_ref
  new_owner : Option vdev_ref
  vdev_ops : pci_vdev_ops
  flags : Nat
  nr_bars : Nat
  vbars : Nat → pci_vbar
  msix : pci_msix
  cfgdata : Nat → Nat
  caps : Nat

instance : Inhabited pci_vdev :=
  ⟨⟨none, 0, none, default, none, none, default, 0, 0, fun _ => default, default, fun _ => 0, 0⟩⟩

/-- Per-VM vPCI state (`struct acrn_vpci`): the latched address register, the ECAM base, the
device table and its count.  The table has `CONFIG_MAX_PCI_DEV_NUM` slots. -/
structure acrn_vpci where
  addr : Nat
  pci_mmcfg_base : Nat
  pci_vdev_cnt : Nat
  pci_vdevs : Nat → pci_vdev

/-- The fields of `struct acrn_vm` that `vpci.c` uses: the vPCI state and the IOMMU domain
(a domain handle, `none` for NULL). -/
structure acrn_vm where
  vpci : acrn_vpci
  iommu : Option Nat

/-- External functions of other compilation units that receive a `pci_vdev`. -/
inductive ext_fn where
  | init_vmsi | init_vmsix | init_vsriov | init_vdev_pt
  | deinit_vdev_pt | deinit_vmsix | deinit_vmsi
  | read_vmsi_cfg | read_vmsix_cfg | read_sriov_cap_reg
  | write_vmsi_cfg | write_vmsix_cfg | write_sriov_cap_reg
  | vdev_pt_write_vbar
  | init_vdev (ops : pci_vdev_ops)
  | deinit_vdev (ops : pci_vdev_ops)
  | read_vdev_cfg (ops : pci_vdev_ops)
  | write_vdev_cfg (ops : pci_vdev_ops)
deriving DecidableEq

/-- What the code does to the world outside the device tables, in program order. -/
inductive Event where
  | spinlock_obtain (vm : Nat)
  | spinlock_release (vm : Nat)
  | pci_pdev_read_cfg (bdf offset bytes : Nat)
  | pci_pdev_write_cfg (bdf offset bytes val : Nat)
  | pdev_restore_bar (bdf : Nat)
  | move_pt_device (from_domain to_domain : Option Nat) (bus devfun : Nat)
  | ext (f : ext_fn) (vdev : vdev_ref) (args : List Nat)
  | pr_fatal
  | pr_acrnlog
deriving DecidableEq

/-- The whole machine: every VM (indexed by VM id), the IOMMU attachment of every physical
(bus, devfun), and the trace. -/
structure State where
  vms : Nat → acrn_vm
  iommu : Nat → Nat → Option Nat
  trace : List Event

/-- How a run ends when it does not return. -/
inductive Fault where
  | panic
  | null_deref
  | out_of_bounds
deriving DecidableEq

/-- What `vpci.c` consumes from the rest of the hypervisor and from the hardware: configuration
constants and accessors, predicates of other compilation units, and the behaviour of the
external collaborators (as functions of the trace so far and of the device instance). -/
structure Platform where
  CONFIG_MAX_PCI_DEV_NUM : Nat
  sos_vm_id : Nat
  pci_devs : Nat → List acrn_vm_pci_dev_config
  is_postlaunched_vm : Nat → Bool
  get_vm_severity : Nat → Nat
  is_quirk_ptdev : pci_vdev → Bool
  has_sriov_cap : pci_vdev → Bool
  has_msix_cap : pci_vdev → Bool
  is_plat_hidden_pdev : Nat → Bool
  vbar_access : pci_vdev → Nat → Bool
  msicap_access : pci_vdev → Nat → Bool
  msixcap_access : pci_vdev → Nat → Bool
  sriovcap_access : pci_vdev → Nat → Bool
  pci_bar_index : Nat → Nat
  pci_vdev_read_vbar : pci_vdev → Nat → Nat
  pci_vdev_write_vbar : pci_vdev → Nat → Nat → (Nat → pci_vbar)
  pdev_need_bar_restore : List Event → pci_pdev → Bool
  pci_pdev_read_cfg : List Event → Nat → Nat → Nat → Nat
  move_pt_status : (Nat → Nat → Option Nat) → Option Nat → Option Nat → Nat → Nat → Int
  ext_update : ext_fn → List Event → pci_vdev → List Nat → pci_vdev
  ext_value : ext_fn → List Event → pci_vdev → List Nat → Nat
  ext_status : ext_fn → List Event → pci_vdev → List Nat → Int

/-- The fields of `struct acrn_vcpu` the port-I/O handlers use: the VM, and `value` of the
pending `pio_request`. -/
structure acrn_vcpu where
  vm : Nat
  pio_value : Nat
deriving DecidableEq

/-- The fields of `struct mmio_request`. -/
structure mmio_request where
  direction : Nat
  address : Nat
  size : Nat
  value : Nat
deriving DecidableEq

/-- The fields of `struct acrn_assign_pcidev` that `vpci.c` reads. -/
structure acrn_assign_pcidev where
  type : Nat
  virt_bdf : Nat
  phys_bdf : Nat
  intr_line : Nat
  intr_pin : Nat
  bar : Nat → Nat

/-! ## State access -/

/-- The vPCI state of a VM (`&vm->vpci`). -/
def get_vpci (s : State) (vm : Nat) : acrn_vpci := (s.vms vm).vpci

/-- Replace the vPCI state of a VM. -/
def set_vpci (s : State) (vm : Nat) (v : acrn_vpci) : State :=
  { s with vms := Function.update s.vms vm { s.vms vm with vpci := v } }

/-- Dereference a `struct pci_vdev *`. -/
def get_vdev (s : State) (h : vdev_ref) : pci_vdev := (get_vpci s h.vm).pci_vdevs h.idx

/-- Store through a `struct pci_vdev *`. -/
def set_vdev (s : State) (h : vdev_ref) (v : pci_vdev) : State :=
  set_vpci s h.vm { get_vpci s h.vm with
    pci_vdevs := Function.update (get_vpci s h.vm).pci_vdevs h.idx v }

/-- Append an event to the trace. -/
def log (s : State) (e : Event) : State := { s with trace := s.trace ++ [e] }

/-- The call `spinlock_obtain(&vpci->lock)`. -/
def spinlock_obtain (s : State) (vpci : Nat) : State := log s (Event.spinlock_obtain vpci)

/-- The call `spinlock_release(&vpci->lock)`. -/
def spinlock_release (s : State) (vpci : Nat) : State := log s (Event.spinlock_release vpci)

/-- The emulation state of `w` (BARs, MSI-X, virtual config buffer, capability state) put into
`v`: an external collaborator changes nothing else of a device instance. -/
def with_emul (v w : pci_vdev) : pci_vdev :=
  { v with nr_bars := w.nr_bars, vbars := w.vbars, msix := w.msix, cfgdata := w.cfgdata,
           caps := w.caps }

/-- A call of an external collaborator on a device instance: the instance's emulation state
becomes what the platform says, and the call is recorded. -/
def ext_call (P : Platform) (f : ext_fn) (s : State) (h : vdev_ref) (args : List Nat) : State :=
  log (set_vdev s h (with_emul (get_vdev s h) (P.ext_update f s.trace (get_vdev s h) args)))
    (Event.ext f h args)

/-! ## Helpers of other compilation units -/

/-- Modelled from the spec: `union pci_cfg_addr_reg` (pci.h) is not in src; the enable bit is
bit 31 of the address register. -/
def cfg_addr_enable (value : Nat) : Nat := (value >>> 31) % 2

/-- Modelled from the spec: `union pci_cfg_addr_reg` (pci.h) is not in src; the
bus/device/function field is bits 8-23 of the address register. -/
def cfg_addr_bdf (value : Nat) : Nat := (value >>> 8) % 2 ^ 16

/-- Modelled from the spec: `union pci_cfg_addr_reg` (pci.h) is not in src; the register
number is bits 0-7 of the address register. -/
def cfg_addr_reg_num (value : Nat) : Nat := value % 2 ^ 8

/-- Modelled from the spec: `atomic_readandclear32` (atomic.h) is not in src; the latch is
read and cleared in one step. -/
def atomic_readandclear32 (s : State) (vpci : Nat) : Nat × State :=
  ((get_vpci s vpci).addr, set_vpci s vpci { get_vpci s vpci with addr := 0 })

/-- Modelled from the spec: `pci_find_vdev` (vpci_priv.h) is not in src; it returns the first
registered instance of the given vpci's table whose virtual BDF is the one asked for. -/
def pci_find_vdev (s : State) (vpci : Nat) (bdf : Nat) : Option vdev_ref :=
  ((List.range (get_vpci s vpci).pci_vdev_cnt).find?
    (fun i => decide (((get_vpci s vpci).pci_vdevs i).bdf = bdf))).map (fun i => ⟨vpci, i⟩)

/-- Modelled from the spec: `is_own_device` (vpci_priv.h) is not in src; a VM owns a device
when the device's owning reference is that VM's vpci. -/
def is_own_device (vm : Nat) (vdev : pci_vdev) : Bool := decide (vdev.vpci = some vm)

/-- Modelled from the spec: `bitmap32_test` (bits.h) is not in src; it tests bit `nr` (taken
modulo 32) of a 32-bit mask. -/
def bitmap32_test (nr : Nat) (mask : Nat) : Bool := mask.testBit (nr % 32)

/-- Modelled from the spec: `cfg_header_access` (vpci_priv.h) is not in src; the header is the
range of offsets below the standard header length. -/
def cfg_header_access (offset : Nat) : Bool := decide (offset < PCI_CFG_HEADER_LENGTH)

/-- Modelled from the spec: `pci_vdev_read_vcfg` (vpci_priv.h) is not in src; the virtual
config buffer is read little-endian, `bytes` bytes from `offset`. -/
def pci_vdev_read_vcfg (vdev : pci_vdev) (offset bytes : Nat) : Nat :=
  ((List.range bytes).map (fun i => (vdev.cfgdata (offset + i) % 256) <<< (8 * i))).sum

/-- Modelled from the spec: `pci_vdev_write_vcfg` (vpci_priv.h) is not in src; the virtual
config buffer is written little-endian, `bytes` bytes from `offset`. -/
def pci_vdev_write_vcfg (vdev : pci_vdev) (offset bytes val : Nat) : pci_vdev :=
  { vdev with cfgdata := fun o =>
      if offset ≤ o ∧ o < offset + bytes then (val >>> (8 * (o - offset))) % 256
      else vdev.cfgdata o }

/-- Modelled from the spec: the IOMMU interface (vtd.h) is not in src; detaching a
(bus, devfun) from a domain removes the attachment if it is to that domain. -/
def iommu_detach (m : Nat → Nat → Option Nat) (dom : Option Nat) (bus devfun : Nat) :
    Nat → Nat → Option Nat :=
  match dom with
  | none => m
  | some d => fun b f => if b = bus ∧ f = devfun ∧ m b f = some d then none else m b f

/-- Modelled from the spec: the IOMMU interface (vtd.h) is not in src; attaching a
(bus, devfun) to a domain makes that domain its only attachment. -/
def iommu_attach (m : Nat → Nat → Option Nat) (dom : Option Nat) (bus devfun : Nat) :
    Nat → Nat → Option Nat :=
  match dom with
  | none => m
  | some d => fun b f => if b = bus ∧ f = devfun then some d else m b f

/-- Modelled from the spec: `move_pt_device` (ptdev/vtd) is not in src; it detaches the device
from `from_domain` (when given) and attaches it to `to_domain` (when given).  Whether it
succeeds is the platform's `move_pt_status`; on failure the attachments are left alone. -/
def move_pt_device (P : Platform) (s : State) (from_domain to_domain : Option Nat)
    (bus devfun : Nat) : Int × State :=
  let status := P.move_pt_status s.iommu from_domain to_domain bus devfun
  let s1 := log s (Event.move_pt_device from_domain to_domain bus devfun)
  if status = 0 then
    (0, { s1 with iommu :=
            iommu_attach (iommu_detach s.iommu from_domain bus devfun) to_domain bus devfun })
  else (status, s1)

/-- The hardware read `pci_pdev_read_cfg(bdf, offset, bytes)`: the value is the platform's, the
access is recorded. -/
def pci_pdev_read_cfg (P : Platform) (s : State) (bdf offset bytes : Nat) : Nat × State :=
  (u32 (P.pci_pdev_read_cfg s.trace bdf offset bytes),
   log s (Event.pci_pdev_read_cfg bdf offset bytes))

/-- The hardware write `pci_pdev_write_cfg(bdf, offset, bytes, val)`, recorded. -/
def pci_pdev_write_cfg (s : State) (bdf offset bytes val : Nat) : State :=
  log s (Event.pci_pdev_write_cfg bdf offset bytes val)

/-- The call `pdev_restore_bar(pdev)`, recorded. -/
def pdev_restore_bar (s : State) (pdev : pci_pdev) : State :=
  log s (Event.pdev_restore_bar pdev.bdf)

/-! ## Address decoder -/

/-- C function `vpci_pio_cfgaddr_read`. -/
def vpci_pio_cfgaddr_read (s : State) (vcpu : acrn_vcpu) (addr bytes : Nat) :
    Bool × acrn_vcpu × State :=
  let val := if addr = u16 PCI_CONFIG_ADDR ∧ bytes = 4 then (get_vpci s vcpu.vm).addr
             else ALL_ONES
  (true, { vcpu with pio_value := val }, s)

/-- C function `find_available_vdev`. -/
def find_available_vdev (P : Platform) (s : State) (vpci : Nat) (bdf : Nat) : Option vdev_ref :=
  match pci_find_vdev s vpci bdf with
  | none => none
  | some h =>
    if (get_vdev s h).vpci ≠ some vpci then
      match (get_vdev s h).new_owner with
      | none => none
      | some n =>
        match (get_vdev s n).vpci with
        | none => none
        | some owner =>
          if P.get_vm_severity vpci < P.get_vm_severity owner then none else some h
    else some h

/-- C function `vpci_pio_cfgaddr_write`; the mask `~0x7f000003U` is 0x80FFFFFC. -/
def vpci_pio_cfgaddr_write (P : Platform) (s : State) (vcpu : acrn_vcpu)
    (addr bytes val : Nat) : Bool × State :=
  if addr = u16 PCI_CONFIG_ADDR ∧ bytes = 4 then
    let s1 := set_vpci s vcpu.vm { get_vpci s vcpu.vm with addr := val &&& 0x80FFFFFC }
    if P.is_postlaunched_vm vcpu.vm then
      match find_available_vdev P s1 vcpu.vm (cfg_addr_bdf (get_vpci s1 vcpu.vm).addr) with
      | none => (false, s1)
      | some h => if P.is_quirk_ptdev (get_vdev s1 h) then (false, s1) else (true, s1)
    else (true, s1)
  else (true, s)

/-- C function `vpci_is_valid_access_offset`; `bytes - 1U` is computed modulo 2^32. -/
def vpci_is_valid_access_offset (offset bytes : Nat) : Bool :=
  decide (offset &&& ((bytes + 2 ^ 32 - 1) % 2 ^ 32) = 0)

/-- C function `vpci_is_valid_access_byte`. -/
def vpci_is_valid_access_byte (bytes : Nat) : Bool :=
  decide (bytes = 1) || decide (bytes = 2) || decide (bytes = 4)

/-- C function `vpci_is_valid_access`. -/
def vpci_is_valid_access (offset bytes : Nat) : Bool :=
  vpci_is_valid_access_byte bytes && vpci_is_valid_access_offset offset bytes

/-! ## Pass-through device handler -/

/-- The constant `cfg_hdr_perm.pt_mask`. -/
def cfg_hdr_perm_pt_mask : Nat := 0x0002

/-- The constant `cfg_hdr_perm.ro_mask`, `(uint16_t)~0x03f2U`. -/
def cfg_hdr_perm_ro_mask : Nat := u16 (0xFFFFFFFF - 0x03f2)

/-- C function `read_cfg_header`; the result is the new `*val` and the state. -/
def read_cfg_header (P : Platform) (s : State) (h : vdev_ref) (offset bytes : Nat) :
    Except Fault (Nat × State) :=
  let vdev := get_vdev s h
  if P.vbar_access vdev offset then
    if bytes = 4 ∧ offset &&& 0x3 = 0 then
      Except.ok (u32 (P.pci_vdev_read_vbar vdev (P.pci_bar_index offset)), s)
    else Except.ok (ALL_ONES, s)
  else if bitmap32_test (u16 offset >>> 2) cfg_hdr_perm_pt_mask then
    match vdev.pdev with
    | none => Except.error Fault.null_deref
    | some pdev =>
      let r := pci_pdev_read_cfg P s pdev.bdf offset bytes
      match vdev.phyfun with
      | some pf =>
        if offset = PCIR_COMMAND ∧ vdev.vpci ≠ (get_vdev s pf).vpci then
          Except.ok (r.1 ||| PCIM_CMD_MEMEN, r.2)
        else Except.ok r
      | none => Except.ok r
  else Except.ok (u32 (pci_vdev_read_vcfg vdev offset bytes), s)

/-- The block `if (offset == PCIR_COMMAND) { ... }` of `write_cfg_header`: on a physical
disable-to-enable transition of a device that needs it, the BARs are restored. -/
def write_cfg_header_command (P : Platform) (s : State) (h : vdev_ref) (offset val : Nat) :
    Except Fault State :=
  if offset = PCIR_COMMAND then
    match (get_vdev s h).pdev with
    | none => Except.error Fault.null_deref
    | some pdev =>
      let r := pci_pdev_read_cfg P s pdev.bdf PCIR_COMMAND 2
      let phys_cmd := u16 r.1
      if phys_cmd &&& PCIM_SPACE_EN = 0 ∧ val &&& PCIM_SPACE_EN ≠ 0 ∧
          P.pdev_need_bar_restore r.2.trace pdev = true then
        Except.ok (pdev_restore_bar r.2 pdev)
      else Except.ok r.2
  else Except.ok s

/-- C function `write_cfg_header`. -/
def write_cfg_header (P : Platform) (s : State) (h : vdev_ref) (offset bytes val : Nat) :
    Except Fault State :=
  if P.vbar_access (get_vdev s h) offset then
    if bytes = 4 ∧ offset &&& 0x3 = 0 then
      Except.ok (ext_call P ext_fn.vdev_pt_write_vbar s h [P.pci_bar_index offset, val])
    else Except.ok s
  else
    match write_cfg_header_command P s h offset val with
    | Except.error e => Except.error e
    | Except.ok s1 =>
      if !bitmap32_test (u16 offset >>> 2) cfg_hdr_perm_ro_mask then
        if bitmap32_test (u16 offset >>> 2) cfg_hdr_perm_pt_mask then
          match (get_vdev s1 h).pdev with
          | none => Except.error Fault.null_deref
          | some pdev => Except.ok (pci_pdev_write_cfg s1 pdev.bdf offset bytes val)
        else
          Except.ok (set_vdev s1 h (pci_vdev_write_vcfg (get_vdev s1 h) offset bytes val))
      else Except.ok s1

/-- C function `write_pt_dev_cfg`. -/
def write_pt_dev_cfg (P : Platform) (s : State) (h : vdev_ref) (offset bytes val : Nat) :
    Except Fault (Int × State) :=
  let vdev := get_vdev s h
  if cfg_header_access offset then
    match write_cfg_header P s h offset bytes val with
    | Except.error e => Except.error e
    | Except.ok s1 => Except.ok (0, s1)
  else if P.msicap_access vdev offset then
    Except.ok (0, ext_call P ext_fn.write_vmsi_cfg s h [offset, bytes, val])
  else if P.msixcap_access vdev offset then
    Except.ok (0, ext_call P ext_fn.write_vmsix_cfg s h [offset, bytes, val])
  else if P.sriovcap_access vdev offset then
    Except.ok (0, ext_call P ext_fn.write_sriov_cap_reg s h [offset, bytes, val])
  else if !P.is_quirk_ptdev vdev then
    match vdev.pdev with
    | none => Except.error Fault.null_deref
    | some pdev => Except.ok (0, pci_pdev_write_cfg s pdev.bdf offset bytes val)
  else Except.ok (-ENODEV, s)

/-- A read by an external collaborator (`const struct pci_vdev *`): the value is the
platform's, the call is recorded. -/
def ext_read (P : Platform) (f : ext_fn) (s : State) (h : vdev_ref) (args : List Nat) :
    Nat × State :=
  (u32 (P.ext_value f s.trace (get_vdev s h) args), log s (Event.ext f h args))

/-- C function `read_pt_dev_cfg`; `val` is the content of `*val` at the call, the result
carries its content at the return. -/
def read_pt_dev_cfg (P : Platform) (s : State) (h : vdev_ref) (offset bytes val : Nat) :
    Except Fault (Int × Nat × State) :=
  let vdev := get_vdev s h
  if cfg_header_access offset then
    match read_cfg_header P s h offset bytes with
    | Except.error e => Except.error e
    | Except.ok r => Except.ok (0, r.1, r.2)
  else if P.msicap_access vdev offset then
    let r := ext_read P ext_fn.read_vmsi_cfg s h [offset, bytes, val]
    Except.ok (0, r.1, r.2)
  else if P.msixcap_access vdev offset then
    let r := ext_read P ext_fn.read_vmsix_cfg s h [offset, bytes, val]
    Except.ok (0, r.1, r.2)
  else if P.sriovcap_access vdev offset then
    let r := ext_read P ext_fn.read_sriov_cap_reg s h [offset, bytes, val]
    Except.ok (0, r.1, r.2)
  else if !P.is_quirk_ptdev vdev then
    match vdev.pdev with
    | none => Except.error Fault.null_deref
    | some pdev =>
      let r := pci_pdev_read_cfg P s pdev.bdf offset bytes
      Except.ok (0, r.1, r.2)
  else Except.ok (-ENODEV, val, s)

/-- The indirect call `vdev->vdev_ops->read_vdev_cfg(vdev, offset, bytes, val)`:
`read_pt_dev_cfg` for `pci_pt_dev_ops`, an external collaborator otherwise. -/
def read_vdev_cfg (P : Platform) (s : State) (h : vdev_ref) (offset bytes val : Nat) :
    Except Fault (Int × Nat × State) :=
  match (get_vdev s h).vdev_ops with
  | pci_vdev_ops.pci_pt_dev_ops => read_pt_dev_cfg P s h offset bytes val
  | ops =>
    let r := ext_read P (ext_fn.read_vdev_cfg ops) s h [offset, bytes, val]
    Except.ok (P.ext_status (ext_fn.read_vdev_cfg ops) s.trace (get_vdev s h) [offset, bytes, val],
      r.1, r.2)

/-- The indirect call `vdev->vdev_ops->write_vdev_cfg(vdev, offset, bytes, val)`:
`write_pt_dev_cfg` for `pci_pt_dev_ops`, an external collaborator otherwise. -/
def write_vdev_cfg (P : Platform) (s : State) (h : vdev_ref) (offset bytes val : Nat) :
    Except Fault (Int × State) :=
  match (get_vdev s h).vdev_ops with
  | pci_vdev_ops.pci_pt_dev_ops => write_pt_dev_cfg P s h offset bytes val
  | ops =>
    Except.ok (P.ext_status (ext_fn.write_vdev_cfg ops) s.trace (get_vdev s h) [offset, bytes, val],
      ext_call P (ext_fn.write_vdev_cfg ops) s h [offset, bytes, val])

/-! ## Config-space dispatcher -/

/-- C function `vpci_read_cfg`; `val` is the content of `*val` at the call, the result
carries its content at the return. -/
def vpci_read_cfg (P : Platform) (s : State) (vpci : Nat) (bdf offset bytes val : Nat) :
    Except Fault (Int × Nat × State) :=
  let s1 := spinlock_obtain s vpci
  match find_available_vdev P s1 vpci bdf with
  | some h =>
    match read_vdev_cfg P s1 h offset bytes val with
    | Except.error e => Except.error e
    | Except.ok r => Except.ok (r.1, r.2.1, spinlock_release r.2.2 vpci)
  | none =>
    Except.ok (if P.is_postlaunched_vm vpci then -ENODEV else 0, val, spinlock_release s1 vpci)

/-- C function `vpci_write_cfg`. -/
def vpci_write_cfg (P : Platform) (s : State) (vpci : Nat) (bdf offset bytes val : Nat) :
    Except Fault (Int × State) :=
  let s1 := spinlock_obtain s vpci
  match find_available_vdev P s1 vpci bdf with
  | some h =>
    match write_vdev_cfg P s1 h offset bytes val with
    | Except.error e => Except.error e
    | Except.ok r => Except.ok (r.1, spinlock_release r.2 vpci)
  | none =>
    if !P.is_postlaunched_vm vpci then
      Except.ok (0, spinlock_release (log s1 Event.pr_acrnlog) vpci)
    else Except.ok (-ENODEV, spinlock_release s1 vpci)

/-- C function `vpci_pio_cfgdata_read`; `addr` is a `uint16_t`, `bytes` a `size_t` that the
callees receive as `uint32_t`. -/
def vpci_pio_cfgdata_read (P : Platform) (s : State) (vcpu : acrn_vcpu) (addr bytes : Nat) :
    Except Fault (Bool × acrn_vcpu × State) :=
  let offset := u16 (addr + 2 ^ 16 - PCI_CONFIG_DATA)
  let cfg_addr := atomic_readandclear32 s vcpu.vm
  if cfg_addr_enable cfg_addr.1 ≠ 0 ∧
      vpci_is_valid_access (cfg_addr_reg_num cfg_addr.1 + offset) (u32 bytes) = true then
    match vpci_read_cfg P cfg_addr.2 vcpu.vm (cfg_addr_bdf cfg_addr.1)
            (cfg_addr_reg_num cfg_addr.1 + offset) (u32 bytes) ALL_ONES with
    | Except.error e => Except.error e
    | Except.ok r => Except.ok (decide (r.1 = 0), { vcpu with pio_value := r.2.1 }, r.2.2)
  else Except.ok (true, { vcpu with pio_value := ALL_ONES }, cfg_addr.2)

/-- C function `vpci_pio_cfgdata_write`. -/
def vpci_pio_cfgdata_write (P : Platform) (s : State) (vcpu : acrn_vcpu)
    (addr bytes val : Nat) : Except Fault (Bool × State) :=
  let offset := u16 (addr + 2 ^ 16 - PCI_CONFIG_DATA)
  let cfg_addr := atomic_readandclear32 s vcpu.vm
  if cfg_addr_enable cfg_addr.1 ≠ 0 ∧
      vpci_is_valid_access (cfg_addr_reg_num cfg_addr.1 + offset) (u32 bytes) = true then
    match vpci_write_cfg P cfg_addr.2 vcpu.vm (cfg_addr_bdf cfg_addr.1)
            (cfg_addr_reg_num cfg_addr.1 + offset) (u32 bytes) val with
    | Except.error e => Except.error e
    | Except.ok r => Except.ok (decide (r.1 = 0), r.2)
  else Except.ok (true, cfg_addr.2)

/-- The register number of `vpci_mmio_cfg_access`, `(uint32_t)(address & 0xfffUL)`. -/
def mmio_reg_num (address : Nat) : Nat := u32 (address &&& 0xfff)

/-- The BDF of `vpci_mmio_cfg_access`, `(uint16_t)((address - pci_mmcofg_base) >> 12U)`, the
subtraction being one of `uint64_t`. -/
def mmio_bdf (pci_mmcofg_base address : Nat) : Nat :=
  u16 (((address + 2 ^ 64 - pci_mmcofg_base) % 2 ^ 64) >>> 12)

/-- C function `vpci_mmio_cfg_access`; `private_data` is the vpci.  A read stores through
`(uint32_t *)&mmio->value`, the low half of the 64-bit value field. -/
def vpci_mmio_cfg_access (P : Platform) (s : State) (mmio : mmio_request) (vpci : Nat) :
    Except Fault (Int × mmio_request × State) :=
  let pci_mmcofg_base := (get_vpci s vpci).pci_mmcfg_base
  let address := mmio.address
  let reg_num := mmio_reg_num address
  let bdf := mmio_bdf pci_mmcofg_base address
  if mmio.direction = REQUEST_READ then
    if !P.is_plat_hidden_pdev bdf then
      match vpci_read_cfg P s vpci bdf reg_num (u32 mmio.size) (u32 mmio.value) with
      | Except.error e => Except.error e
      | Except.ok r =>
        Except.ok (r.1, { mmio with value := mmio.value / 2 ^ 32 * 2 ^ 32 + u32 r.2.1 }, r.2.2)
    else
      let r := pci_pdev_read_cfg P s bdf reg_num (u32 mmio.size)
      Except.ok (0, { mmio with value := r.1 }, r.2)
  else
    if !P.is_plat_hidden_pdev bdf then
      match vpci_write_cfg P s vpci bdf reg_num (u32 mmio.size) (u32 mmio.value) with
      | Except.error e => Except.error e
      | Except.ok r => Except.ok (r.1, mmio, r.2)
    else
      Except.ok (0, mmio, pci_pdev_write_cfg s bdf reg_num (u32 mmio.size) (u32 mmio.value))

/-! ## IOMMU domain of a pass-through device -/

/-- C function `assign_vdev_pt_iommu_domain`. -/
def assign_vdev_pt_iommu_domain (P : Platform) (s : State) (h : vdev_ref) : Except Fault State :=
  match (get_vdev s h).vpci, (get_vdev s h).pdev with
  | some vm, some pdev =>
    let r := move_pt_device P s none (s.vms vm).iommu (u8 (pdev.bdf >>> 8)) (u8 (pdev.bdf &&& 0xFF))
    if r.1 ≠ 0 then Except.error Fault.panic else Except.ok r.2
  | _, _ => Except.error Fault.null_deref

/-- C function `remove_vdev_pt_iommu_domain`. -/
def remove_vdev_pt_iommu_domain (P : Platform) (s : State) (h : vdev_ref) : Except Fault State :=
  match (get_vdev s h).vpci, (get_vdev s h).pdev with
  | some vm, some pdev =>
    let r := move_pt_device P s (s.vms vm).iommu none (u8 (pdev.bdf >>> 8)) (u8 (pdev.bdf &&& 0xFF))
    if r.1 ≠ 0 then Except.error Fault.panic else Except.ok r.2
  | _, _ => Except.error Fault.null_deref

/-- C function `vpci_init_pt_dev`. -/
def vpci_init_pt_dev (P : Platform) (s : State) (h : vdev_ref) : Except Fault State :=
  let s1 := ext_call P ext_fn.init_vmsi s h []
  let s2 := ext_call P ext_fn.init_vmsix s1 h []
  let s3 := ext_call P ext_fn.init_vsriov s2 h []
  let s4 := ext_call P ext_fn.init_vdev_pt s3 h [0]
  assign_vdev_pt_iommu_domain P s4 h

/-- C function `vpci_deinit_pt_dev`. -/
def vpci_deinit_pt_dev (P : Platform) (s : State) (h : vdev_ref) : Except Fault State :=
  let s1 := ext_call P ext_fn.deinit_vdev_pt s h []
  match remove_vdev_pt_iommu_domain P s1 h with
  | Except.error e => Except.error e
  | Except.ok s2 =>
    let s3 := ext_call P ext_fn.deinit_vmsix s2 h []
    Except.ok (ext_call P ext_fn.deinit_vmsi s3 h [])

/-- The indirect call `vdev->vdev_ops->init_vdev(vdev)`: `vpci_init_pt_dev` for
`pci_pt_dev_ops`, an external collaborator otherwise. -/
def init_vdev (P : Platform) (s : State) (h : vdev_ref) : Except Fault State :=
  match (get_vdev s h).vdev_ops with
  | pci_vdev_ops.pci_pt_dev_ops => vpci_init_pt_dev P s h
  | ops => Except.ok (ext_call P (ext_fn.init_vdev ops) s h [])

/-! ## Device registry -/

/-- The operation set `vpci_init_vdev` installs: the configured one if there is one, else
`vpci_bridge_ops` for a bridge and `pci_pt_dev_ops` otherwise (read from `vdev->pdev`). -/
def select_vdev_ops (dev_config : acrn_vm_pci_dev_config) (pdev : Option pci_pdev) :
    Except Fault pci_vdev_ops :=
  match dev_config.vdev_ops with
  | some id => Except.ok (pci_vdev_ops.custom id)
  | none =>
    match pdev with
    | none => Except.error Fault.null_deref
    | some pdev =>
      if pdev.hdr_type = PCIM_HDRTYPE_BRIDGE then Except.ok pci_vdev_ops.vpci_bridge_ops
      else Except.ok pci_vdev_ops.pci_pt_dev_ops

/-- C function `vpci_init_vdev`.  The slot written is `pci_vdevs[pci_vdev_cnt]`; the array has
`CONFIG_MAX_PCI_DEV_NUM` elements, so the store faults when the count has reached that. -/
def vpci_init_vdev (P : Platform) (s : State) (vpci : Nat)
    (dev_config : acrn_vm_pci_dev_config) (parent_pf_vdev : Option vdev_ref) :
    Except Fault (vdev_ref × State) :=
  let vdev : vdev_ref := ⟨vpci, (get_vpci s vpci).pci_vdev_cnt⟩
  if vdev.idx < P.CONFIG_MAX_PCI_DEV_NUM then
    let s1 := set_vpci s vpci { get_vpci s vpci with
      pci_vdev_cnt := (get_vpci s vpci).pci_vdev_cnt + 1 }
    let s2 := set_vdev s1 vdev { get_vdev s1 vdev with
      vpci := some vpci, bdf := u16 dev_config.vbdf, pdev := dev_config.pdev,
      pci_dev_config := dev_config, phyfun := parent_pf_vdev }
    match select_vdev_ops dev_config (get_vdev s2 vdev).pdev with
    | Except.error e => Except.error e
    | Except.ok ops =>
      let s3 := set_vdev s2 vdev { get_vdev s2 vdev with vdev_ops := ops }
      match init_vdev P s3 vdev with
      | Except.error e => Except.error e
      | Except.ok s4 => Except.ok (vdev, s4)
  else Except.error Fault.out_of_bounds

/-- The loop of C function `vpci_init_vdevs` over the VM's configured devices. -/
def vpci_init_vdevs_loop (P : Platform) (vm : Nat) :
    List acrn_vm_pci_dev_config → State → Except Fault State
  | [], s => Except.ok s
  | c :: cs, s =>
    match vpci_init_vdev P s vm c none with
    | Except.error e => Except.error e
    | Except.ok r => vpci_init_vdevs_loop P vm cs r.2

/-- C function `vpci_init_vdevs`. -/
def vpci_init_vdevs (P : Platform) (s : State) (vm : Nat) : Except Fault State :=
  vpci_init_vdevs_loop P vm (P.pci_devs vm) s

/-! ## Ownership transfer -/

/-- One iteration, at index `idx`, of the per-BAR loop of `vpci_assign_pcidev`. -/
def assign_bar (P : Platform) (pcidev : acrn_assign_pcidev) (vdev_in_sos vdev : vdev_ref)
    (s : State) (idx : Nat) : State :=
  let s1 :=
    if (get_vdev s vdev).phyfun ≠ none then
      let v1 := { get_vdev s vdev with
        vbars := Function.update (get_vdev s vdev).vbars idx ((get_vdev s vdev_in_sos).vbars idx) }
      if P.has_msix_cap v1 = true ∧ idx = v1.msix.table_bar then
        set_vdev s vdev { v1 with msix := { v1.msix with
          mmio_hpa := (v1.vbars idx).base_hpa, mmio_size := (v1.vbars idx).size } }
      else set_vdev s vdev v1
    else s
  set_vdev s1 vdev { get_vdev s1 vdev with
    vbars := P.pci_vdev_write_vbar (get_vdev s1 vdev) idx (u32 (pcidev.bar idx)) }

/-- The statements of `vpci_assign_pcidev` between `vpci_init_vdev` and the release of the
target's lock: the new instance `vdev` gets the interrupt line and pin, its BARs, the device
type flags and the virtual BDF of the request. -/
def assign_configure (P : Platform) (s : State) (pcidev : acrn_assign_pcidev)
    (vdev_in_sos vdev : vdev_ref) : State :=
  let s3 := set_vdev s vdev
    (pci_vdev_write_vcfg (get_vdev s vdev) PCIR_INTERRUPT_LINE 1 (u8 pcidev.intr_line))
  let s4 := set_vdev s3 vdev
    (pci_vdev_write_vcfg (get_vdev s3 vdev) PCIR_INTERRUPT_PIN 1 (u8 pcidev.intr_pin))
  let s5 := (List.range (get_vdev s4 vdev).nr_bars).foldl
    (assign_bar P pcidev vdev_in_sos vdev) s4
  let s6 := set_vdev s5 vdev { get_vdev s5 vdev with
    flags := u32 ((get_vdev s5 vdev).flags ||| pcidev.type) }
  set_vdev s6 vdev { get_vdev s6 vdev with bdf := u16 pcidev.virt_bdf }

/-- The part of `vpci_assign_pcidev` under `if (ret == 0)`: the hand-over of the instance
`vdev_in_sos` to `tgt_vm`. -/
def assign_transfer (P : Platform) (s : State) (tgt_vm : Nat) (pcidev : acrn_assign_pcidev)
    (vdev_in_sos : vdev_ref) : Except Fault State :=
  let s1 := set_vdev s vdev_in_sos { get_vdev s vdev_in_sos with vpci := some tgt_vm }
  let s2 := spinlock_obtain s1 tgt_vm
  match vpci_init_vdev P s2 tgt_vm (get_vdev s2 vdev_in_sos).pci_dev_config
          (get_vdev s2 vdev_in_sos).phyfun with
  | Except.error e => Except.error e
  | Except.ok r =>
    let s7 := assign_configure P r.2 pcidev vdev_in_sos r.1
    let s8 := spinlock_release s7 tgt_vm
    Except.ok (set_vdev s8 vdev_in_sos { get_vdev s8 vdev_in_sos with new_owner := some r.1 })

/-- The reset check of `vpci_assign_pcidev`: a device with none of PM reset, FLR and AF-FLR
gets a `pr_fatal` message, any other device gets its BARs restored. -/
def assign_reset_check (s : State) (pdev : pci_pdev) : State :=
  if (!pdev.has_pm_reset && !pdev.has_flr && !pdev.has_af_flr) = true then
    log s Event.pr_fatal
  else pdev_restore_bar s pdev

/-- C function `vpci_assign_pcidev`. -/
def vpci_assign_pcidev (P : Platform) (s : State) (tgt_vm : Nat) (pcidev : acrn_assign_pcidev) :
    Except Fault (Int × State) :=
  let ret : Int := 0
  let bdf := u16 pcidev.phys_bdf
  let sos_vm := P.sos_vm_id
  let s1 := spinlock_obtain s sos_vm
  let not_found : Except Fault (Int × State) :=
    Except.ok (-ENODEV, spinlock_release (log s1 Event.pr_fatal) sos_vm)
  match pci_find_vdev s1 sos_vm bdf with
  | none => not_found
  | some vdev_in_sos =>
    match (get_vdev s1 vdev_in_sos).pdev with
    | none => not_found
    | some pdev =>
      if is_own_device sos_vm (get_vdev s1 vdev_in_sos) = true ∧
          P.has_sriov_cap (get_vdev s1 vdev_in_sos) = false then
        match remove_vdev_pt_iommu_domain P (assign_reset_check s1 pdev) vdev_in_sos with
        | Except.error e => Except.error e
        | Except.ok s3 =>
          if ret = 0 then
            match assign_transfer P s3 tgt_vm pcidev vdev_in_sos with
            | Except.error e => Except.error e
            | Except.ok s4 => Except.ok (ret, spinlock_release s4 sos_vm)
          else Except.ok (ret, spinlock_release s3 sos_vm)
      else not_found

/-- The block `if (vdev != NULL) { ... }` of `vpci_deassign_pcidev`: the physical device goes
back to the service VM's IOMMU domain and the new owner's MSI/MSI-X state is torn down. -/
def deassign_reclaim (P : Platform) (s : State) (tgt_vm : Nat) (pcidev : acrn_assign_pcidev)
    (vdev : Option vdev_ref) : Except Fault State :=
  match vdev with
  | none => Except.ok s
  | some vdev =>
    let r := move_pt_device P s (s.vms tgt_vm).iommu (s.vms P.sos_vm_id).iommu
      (u8 (u16 pcidev.phys_bdf >>> 8)) (u8 (u16 pcidev.phys_bdf &&& 0xff))
    if r.1 ≠ 0 then Except.error Fault.panic
    else Except.ok
      (ext_call P ext_fn.deinit_vmsix (ext_call P ext_fn.deinit_vmsi r.2 vdev []) vdev [])

/-- C function `vpci_deassign_pcidev`. -/
def vpci_deassign_pcidev (P : Platform) (s : State) (tgt_vm : Nat)
    (pcidev : acrn_assign_pcidev) : Except Fault (Int × State) :=
  let bdf := u16 pcidev.phys_bdf
  let sos_vm := P.sos_vm_id
  let s1 := spinlock_obtain s sos_vm
  match pci_find_vdev s1 sos_vm bdf with
  | none => Except.ok (-ENODEV, spinlock_release (log s1 Event.pr_fatal) sos_vm)
  | some vdev_in_sos =>
    if is_own_device tgt_vm (get_vdev s1 vdev_in_sos) = true ∧
        (get_vdev s1 vdev_in_sos).pdev ≠ none then
      let vdev := (get_vdev s1 vdev_in_sos).new_owner
      let s2 := spinlock_obtain s1 tgt_vm
      match deassign_reclaim P s2 tgt_vm pcidev vdev with
      | Except.error e => Except.error e
      | Except.ok s3 =>
        let s4 := spinlock_release s3 tgt_vm
        let s5 := set_vdev s4 vdev_in_sos { get_vdev s4 vdev_in_sos with vpci := some sos_vm }
        let s6 := set_vdev s5 vdev_in_sos { get_vdev s5 vdev_in_sos with new_owner := none }
        Except.ok (0, spinlock_release s6 sos_vm)
    else Except.ok (-ENODEV, spinlock_release (log s1 Event.pr_fatal) sos_vm)

/-! ## Lifecycle -/

/-- One iteration, at index `i`, of the loop of `deinit_postlaunched_vm_vpci`. -/
def deinit_postlaunched_step (P : Platform) (vm : Nat) (s : State) (i : Nat) :
    Except Fault State :=
  let sos_vm := P.sos_vm_id
  let vdev : vdev_ref := ⟨sos_vm, i⟩
  if is_own_device vm (get_vdev s vdev) = true then
    let s1 := spinlock_obtain s vm
    match (get_vdev s1 vdev).new_owner with
    | none => Except.error Fault.null_deref
    | some target_vdev =>
      match (get_vdev s1 target_vdev).pdev with
      | none => Except.error Fault.null_deref
      | some pdev =>
        let r := move_pt_device P s1 (s1.vms vm).iommu (s1.vms sos_vm).iommu
          (u8 (pdev.bdf >>> 8)) (u8 (pdev.bdf &&& 0xFF))
        if r.1 ≠ 0 then Except.error Fault.panic
        else
          let s2 := ext_call P ext_fn.deinit_vmsi r.2 target_vdev []
          let s3 := ext_call P ext_fn.deinit_vmsix s2 target_vdev []
          let s4 := set_vdev s3 vdev { get_vdev s3 vdev with vpci := some sos_vm }
          let s5 := set_vdev s4 vdev { get_vdev s4 vdev with new_owner := none }
          Except.ok (spinlock_release s5 vm)
  else Except.ok s

/-- The loop of `deinit_postlaunched_vm_vpci` over the indices still to visit. -/
def deinit_postlaunched_loop (P : Platform) (vm : Nat) : List Nat → State → Except Fault State
  | [], s => Except.ok s
  | i :: is, s =>
    match deinit_postlaunched_step P vm s i with
    | Except.error e => Except.error e
    | Except.ok s1 => deinit_postlaunched_loop P vm is s1

/-- C function `deinit_postlaunched_vm_vpci`. -/
def deinit_postlaunched_vm_vpci (P : Platform) (s : State) (vm : Nat) : Except Fault State :=
  let sos_vm := P.sos_vm_id
  let s1 := spinlock_obtain s sos_vm
  match deinit_postlaunched_loop P vm (List.range (get_vpci s1 sos_vm).pci_vdev_cnt) s1 with
  | Except.error e => Except.error e
  | Except.ok s2 => Except.ok (spinlock_release s2 sos_vm)

/-! ## Predicates on states -/

/-- Two states have the same per-VM registers: latch, ECAM base, device count and IOMMU domain
of every VM (they may differ in device instances, IOMMU attachments and trace). -/
def same_regs (s s2 : State) : Prop :=
  ∀ vm, (get_vpci s2 vm).addr = (get_vpci s vm).addr ∧
    (get_vpci s2 vm).pci_mmcfg_base = (get_vpci s vm).pci_mmcfg_base ∧
    (get_vpci s2 vm).pci_vdev_cnt = (get_vpci s vm).pci_vdev_cnt ∧
    (s2.vms vm).iommu = (s.vms vm).iommu

/-- `s2` differs from `s` at most in the device instance `n`, in the IOMMU attachments and in
the trace. -/
def only_vdev (n : vdev_ref) (s s2 : State) : Prop :=
  same_regs s s2 ∧ ∀ k, k ≠ n → get_vdev s2 k = get_vdev s k

/-- The instance `w` has the identity of `v`: owner, address, physical device, configuration,
physical function, new-owner link, operation set and flags. -/
def same_identity (v w : pci_vdev) : Prop :=
  w.vpci = v.vpci ∧ w.bdf = v.bdf ∧ w.pdev = v.pdev ∧ w.pci_dev_config = v.pci_dev_config ∧
  w.phyfun = v.phyfun ∧ w.new_owner = v.new_owner ∧ w.vdev_ops = v.vdev_ops ∧ w.flags = v.flags

/-! ## Concrete configurations -/

/-- A platform with a table of two slots per VM: VM 0 is the service VM (severity 0x20), every
other VM is post-launched (severity 0x10); no capability, no quirk, no hidden device; the
IOMMU never refuses; BARs occupy the offsets from 0x10. -/
def P0 : Platform where
  CONFIG_MAX_PCI_DEV_NUM := 2
  sos_vm_id := 0
  pci_devs := fun _ => []
  is_postlaunched_vm := fun vm => decide (vm ≠ 0)
  get_vm_severity := fun vm => if vm = 0 then 0x20 else 0x10
  is_quirk_ptdev := fun _ => false
  has_sriov_cap := fun _ => false
  has_msix_cap := fun _ => false
  is_plat_hidden_pdev := fun _ => false
  vbar_access := fun v o => decide (0x10 ≤ o ∧ o < 0x10 + 4 * v.nr_bars)
  msicap_access := fun _ _ => false
  msixcap_access := fun _ _ => false
  sriovcap_access := fun _ _ => false
  pci_bar_index := fun o => (o - 0x10) / 4
  pci_vdev_read_vbar := fun v i => (v.vbars i).base_gpa
  pci_vdev_write_vbar := fun v i val => Function.update v.vbars i { v.vbars i with base_gpa := val }
  pdev_need_bar_restore := fun _ _ => false
  pci_pdev_read_cfg := fun _ _ _ _ => 0
  move_pt_status := fun _ _ _ _ _ => 0
  ext_update := fun _ _ v _ => v
  ext_value := fun _ _ _ _ => 0
  ext_status := fun _ _ _ _ => 0

/-- A physical function at 01:00.0 that supports function-level reset. -/
def pdev0 : pci_pdev := ⟨0x100, 0, false, true, false⟩

/-- The pass-through configuration of `pdev0`. -/
def cfg0 : acrn_vm_pci_dev_config := ⟨0, 0x100, some pdev0, none⟩

/-- The instance of `pdev0` in the service VM's table, owned by the service VM. -/
def vdev0 : pci_vdev :=
  { (default : pci_vdev) with vpci := some 0, bdf := 0x100, pdev := some pdev0,
                              pci_dev_config := cfg0 }

/-- A VM with an empty table; its IOMMU domain handle is `d`. -/
def vm_empty (d : Nat) : acrn_vm := ⟨⟨0, 0xE0000000, 0, fun _ => default⟩, some d⟩

/-- The service VM (VM 0) holds `vdev0`, attached to its IOMMU domain; the other VMs are
empty. -/
def s0 : State where
  vms := fun vm =>
    if vm = 0 then ⟨⟨0, 0xE0000000, 1, fun i => if i = 0 then vdev0 else default⟩, some 0⟩
    else vm_empty vm
  iommu := fun b f => if b = 1 ∧ f = 0 then some 0 else none
  trace := []

/-- The request of the target VM 1 for the device 01:00.0: virtual address 00:03.0,
interrupt line 10, pin 1. -/
def pc0 : acrn_assign_pcidev := ⟨0, 0x18, 0x100, 10, 1, fun _ => 0⟩

/-- The state `s0` after `vdev0` has been assigned to VM 1. -/
def s0_assigned : State :=
  match vpci_assign_pcidev P0 s0 1 pc0 with
  | Except.ok r => r.2
  | Except.error _ => s0

/-- The platform `P0` with the same severity for every VM. -/
def P0_same_severity : Platform := { P0 with get_vm_severity := fun _ => 0x20 }

/-- The state `s0` with the latch of the service VM enabled at 01:00.0, register 4. -/
def s0_latched : State := set_vpci s0 0 { get_vpci s0 0 with addr := 0x80010004 }

/-- The state `s0` with the ECAM base of the service VM at 0x800 and the instance of `pdev0`
at the virtual address 00:00.0. -/
def s0_unaligned : State :=
  set_vpci s0 0 { get_vpci s0 0 with pci_mmcfg_base := 0x800,
                                     pci_vdevs := fun _ => { vdev0 with bdf := 0 } }

/-- A physical function at 01:00.0 with none of PM reset, FLR and AF-FLR. -/
def pdev_noreset : pci_pdev := ⟨0x100, 0, false, false, false⟩

/-- The state `s0` with `pdev_noreset` in the place of `pdev0`. -/
def s0_noreset : State where
  vms := fun vm =>
    if vm = 0 then
      ⟨⟨0, 0xE0000000, 1, fun i =>
        if i = 0 then
          { vdev0 with pdev := some pdev_noreset,
                       pci_dev_config := ⟨0, 0x100, some pdev_noreset, none⟩ }
        else default⟩, some 0⟩
    else vm_empty vm
  iommu := fun b f => if b = 1 ∧ f = 0 then some 0 else none
  trace := []

/-- The platform `P0` with a device table of one slot per VM. -/
def P0_one_slot : Platform := { P0 with CONFIG_MAX_PCI_DEV_NUM := 1 }

/-- The state `s0_assigned` after the service VM's instance of `pdev0` has lost its owning
reference (a zombie instance), its new-owner link still naming VM 1's instance. -/
def s0_orphan : State :=
  set_vdev s0_assigned ⟨0, 0⟩ { get_vdev s0_assigned ⟨0, 0⟩ with vpci := none }

/-- The state `s0` with six BARs on the service VM's instance of `pdev0`. -/
def s0_bars : State := set_vdev s0 ⟨0, 0⟩ { vdev0 with nr_bars := 6 }

/-- The state `s0` with the vendor/device ID word 0x12348086 in the virtual config buffer of
the service VM's instance of `pdev0`. -/
def s0_ids : State :=
  set_vdev s0 ⟨0, 0⟩ { vdev0 with
    cfgdata := fun o => if o = 0 then 0x86 else if o = 1 then 0x80 else if o = 2 then 0x34
                        else if o = 3 then 0x12 else 0 }

/-- The platform `P0` whose physical devices all answer 0x56788086 to a config read. -/
def P0_phys_ids : Platform := { P0 with pci_pdev_read_cfg := fun _ _ _ _ => 0x56788086 }

/-- The platform `P0` on which every pass-through device is a quirk device. -/
def P0_quirk : Platform := { P0 with is_quirk_ptdev := fun _ => true }

/-- The platform `P0` on which the IOMMU refuses every move. -/
def P0_iommu_fails : Platform := { P0 with move_pt_status := fun _ _ _ _ _ => -1 }

/-- The platform `P0` on which the IOMMU accepts every detachment and refuses every attachment
to a domain. -/
def P0_attach_fails : Platform :=
  { P0 with move_pt_status := fun _ _ t _ _ => if t = none then 0 else -1 }

/-- The state `s0` with a virtual function of `pdev0` in slot 0 of VM 1's table: it is owned
by VM 1 and its physical function is the service VM's instance, owned by the service VM. -/
def s0_vf : State :=
  set_vdev s0 ⟨1, 0⟩ { vdev0 with vpci := some 1, phyfun := some ⟨0, 0⟩ }

/-! ## Lock order -/

/-- An operation on the vpci lock of a VM: acquire or release. -/
inductive lock_op where
  | obtain (vm : Nat)
  | release (vm : Nat)
deriving DecidableEq

/-- The lock operations among the events of a trace, in order. -/
def lock_ops : List Event → List lock_op
  | [] => []
  | Event.spinlock_obtain vm :: es => lock_op.obtain vm :: lock_ops es
  | Event.spinlock_release vm :: es => lock_op.release vm :: lock_ops es
  | _ :: es => lock_ops es

/-- The lock order of cross-VM operations, checked along a sequence of lock operations from
the list `held` of locks held: no lock is acquired twice, a lock other than the service VM's
is acquired only while the service VM's is held, only held locks are released, and the service
VM's lock is released only when it is the one lock held.  The result is the locks held at the
end, `none` if the sequence breaks the order. -/
def lock_order_run (sos : Nat) : List lock_op → List Nat → Option (List Nat)
  | [], held => some held
  | lock_op.obtain vm :: ops, held =>
    if vm ∈ held then none
    else if vm ≠ sos ∧ sos ∉ held then none
    else lock_order_run sos ops (vm :: held)
  | lock_op.release vm :: ops, held =>
    if vm ∉ held then none
    else if vm = sos ∧ held ≠ [sos] then none
    else lock_order_run sos ops (held.erase vm)

/-- From `s` to `s2` the trace has grown by events whose lock operations are `lo`. -/
def performs (s s2 : State) (lo : List lock_op) : Prop :=
  ∃ evs, s2.trace = s.trace ++ evs ∧ lock_ops evs = lo

/-- The lock operations of `k` acquire/release rounds on the lock of `vm`. -/
def lock_pairs (vm : Nat) : Nat → List lock_op
  | 0 => []
  | k + 1 => lock_op.obtain vm :: lock_op.release vm :: lock_pairs vm k

/-! ## Boot-time configuration -/

/-- The platform `P0` whose service VM is configured with the pass-through device `cfg0`. -/
def P0_boot : Platform := { P0 with pci_devs := fun vm => if vm = 0 then [cfg0] else [] }

/-- The state before any `init_vpci`: every table is empty and zeroed, nothing is attached. -/
def s_boot : State := ⟨fun vm => vm_empty vm, fun _ _ => none, []⟩

/-! ## Ownership links -/

/-- The ownership-link invariant of the service VM's table: for every registered entry, the
new-owner link is set exactly when the entry is not owned by the service VM, and the instance
the link names is then owned by the entry's owner and has the entry's physical device. -/
def link_inv (P : Platform) (s : State) : Prop :=
  ∀ i, i < (get_vpci s P.sos_vm_id).pci_vdev_cnt →
    ((get_vdev s ⟨P.sos_vm_id, i⟩).new_owner ≠ none ↔
      (get_vdev s ⟨P.sos_vm_id, i⟩).vpci ≠ some P.sos_vm_id) ∧
    ∀ t, (get_vdev s ⟨P.sos_vm_id, i⟩).new_owner = some t →
      (get_vdev s t).vpci = (get_vdev s ⟨P.sos_vm_id, i⟩).vpci ∧
      (get_vdev s t).pdev = (get_vdev s ⟨P.sos_vm_id, i⟩).pdev

/-- What the registry and the assignment keep true of the service VM's table besides the
ownership links: every registered entry's physical device is the one of its configuration
(`vpci_init_vdev` sets both); a new-owner link names a registered instance of another VM's
table; an entry with a link has a physical device. -/
def table_wf (P : Platform) (s : State) : Prop :=
  ∀ i, i < (get_vpci s P.sos_vm_id).pci_vdev_cnt →
    (get_vdev s ⟨P.sos_vm_id, i⟩).pci_dev_config.pdev = (get_vdev s ⟨P.sos_vm_id, i⟩).pdev ∧
    ∀ t, (get_vdev s ⟨P.sos_vm_id, i⟩).new_owner = some t →
      t.vm ≠ P.sos_vm_id ∧ t.idx < (get_vpci s t.vm).pci_vdev_cnt ∧
      (get_vdev s ⟨P.sos_vm_id, i⟩).pdev ≠ none

/-- The state `s2` is `s` after entries of the service VM's table owned by `vm` have been
given back to the service VM: the per-VM registers are the same, every entry of the service
VM's table is as before or was owned by `vm` and now has the service VM as owner and no
new-owner link, and the instances of the other tables keep their identity. -/
def reclaimed (P : Platform) (vm : Nat) (s s2 : State) : Prop :=
  same_regs s s2 ∧
  (∀ i, get_vdev s2 ⟨P.sos_vm_id, i⟩ = get_vdev s ⟨P.sos_vm_id, i⟩ ∨
    ((get_vdev s ⟨P.sos_vm_id, i⟩).vpci = some vm ∧
      get_vdev s2 ⟨P.sos_vm_id, i⟩ =
        { get_vdev s ⟨P.sos_vm_id, i⟩ with vpci := some P.sos_vm_id, new_owner := none })) ∧
  (∀ k, k.vm ≠ P.sos_vm_id → same_identity (get_vdev s k) (get_vdev s2 k))

/-! ## A device whose BDF in the service VM differs from its physical BDF -/

@[simp] theorem get_vpci_set_vpci (s : State) (vm vm2 : Nat) (v : acrn_vpci) :
    get_vpci (set_vpci s vm v) vm2 = if vm2 = vm then v else get_vpci s vm2 := by
  unfold get_vpci set_vpci
  by_cases h : vm2 = vm
  · subst h; simp
  · simp [Function.update_apply, h]

@[simp] theorem get_vpci_log (s : State) (e : Event) (vm : Nat) :
    get_vpci (log s e) vm = get_vpci s vm := rfl

@[simp] theorem vms_log (s : State) (e : Event) : (log s e).vms = s.vms := rfl

@[simp] theorem iommu_log (s : State) (e : Event) : (log s e).iommu = s.iommu := rfl

@[simp] theorem trace_log (s : State) (e : Event) : (log s e).trace = s.trace ++ [e] := rfl

@[simp] theorem iommu_set_vpci (s : State) (vm : Nat) (v : acrn_vpci) :
    (set_vpci s vm v).iommu = s.iommu := rfl

@[simp] theorem trace_set_vpci (s : State) (vm : Nat) (v : acrn_vpci) :
    (set_vpci s vm v).trace = s.trace := rfl

@[simp] theorem vm_iommu_set_vpci (s : State) (vm vm2 : Nat) (v : acrn_vpci) :
    ((set_vpci s vm v).vms vm2).iommu = (s.vms vm2).iommu := by
  unfold set_vpci
  by_cases h : vm2 = vm
  · subst h; simp
  · simp [Function.update_apply, h]

@[simp] theorem get_vdev_log (s : State) (e : Event) (h : vdev_ref) :
    get_vdev (log s e) h = get_vdev s h := rfl

theorem get_vdev_set_vdev (s : State) (h h2 : vdev_ref) (v : pci_vdev) :
    get_vdev (set_vdev s h v) h2 = if h2 = h then v else get_vdev s h2 := by
  obtain ⟨vm, i⟩ := h
  obtain ⟨vm2, i2⟩ := h2
  unfold get_vdev set_vdev
  by_cases hv : vm2 = vm
  · subst hv
    by_cases hi : i2 = i
    · subst hi; simp
    · simp [Function.update_apply, hi]
  · simp [hv]

@[simp] theorem get_vdev_set_vdev_same (s : State) (h : vdev_ref) (v : pci_vdev) :
    get_vdev (set_vdev s h v) h = v := by
  simp [get_vdev_set_vdev]

@[simp] theorem trace_set_vdev (s : State) (h : vdev_ref) (v : pci_vdev) :
    (set_vdev s h v).trace = s.trace := rfl

@[simp] theorem vm_iommu_set_vdev (s : State) (h : vdev_ref) (v : pci_vdev) (vm : Nat) :
    ((set_vdev s h v).vms vm).iommu = (s.vms vm).iommu := by
  unfold set_vdev; simp

@[simp] theorem cnt_set_vdev (s : State) (h : vdev_ref) (v : pci_vdev) (vm : Nat) :
    (get_vpci (set_vdev s h v) vm).pci_vdev_cnt = (get_vpci s vm).pci_vdev_cnt := by
  unfold set_vdev
  by_cases hv : vm = h.vm
  · subst hv; simp
  · simp [hv]

@[simp] theorem addr_set_vdev (s : State) (h : vdev_ref) (v : pci_vdev) (vm : Nat) :
    (get_vpci (set_vdev s h v) vm).addr = (get_vpci s vm).addr := by
  unfold set_vdev
  by_cases hv : vm = h.vm
  · subst hv; simp
  · simp [hv]

theorem set_vpci_self (s : State) (vm : Nat) : set_vpci s vm (get_vpci s vm) = s := by
  unfold set_vpci get_vpci
  have : Function.update s.vms vm { s.vms vm with vpci := (s.vms vm).vpci } = s.vms := by
    exact Function.update_eq_self vm s.vms
  simp [this]

theorem pci_find_vdev_congr (s s2 : State) (vpci bdf : Nat)
    (hc : (get_vpci s2 vpci).pci_vdev_cnt = (get_vpci s vpci).pci_vdev_cnt)
    (hb : ∀ i, ((get_vpci s2 vpci).pci_vdevs i).bdf = ((get_vpci s vpci).pci_vdevs i).bdf) :
    pci_find_vdev s2 vpci bdf = pci_find_vdev s vpci bdf := by
  unfold pci_find_vdev
  rw [hc]
  have : (fun i => decide (((get_vpci s2 vpci).pci_vdevs i).bdf = bdf)) =
      (fun i => decide (((get_vpci s vpci).pci_vdevs i).bdf = bdf)) := by
    funext i; rw [hb]
  rw [this]

@[simp] theorem pci_find_vdev_log (s : State) (e : Event) (vpci bdf : Nat) :
    pci_find_vdev (log s e) vpci bdf = pci_find_vdev s vpci bdf := rfl

@[simp] theorem find_available_vdev_log (P : Platform) (s : State) (e : Event) (vpci bdf : Nat) :
    find_available_vdev P (log s e) vpci bdf = find_available_vdev P s vpci bdf := rfl

theorem get_vdev_set_addr (s : State) (vm x : Nat) (h : vdev_ref) :
    get_vdev (set_vpci s vm { get_vpci s vm with addr := x }) h = get_vdev s h := by
  unfold get_vdev
  by_cases hv : h.vm = vm
  · simp [hv]
  · simp [hv]

theorem pci_find_vdev_set_addr (s : State) (vm x vpci bdf : Nat) :
    pci_find_vdev (set_vpci s vm { get_vpci s vm with addr := x }) vpci bdf =
      pci_find_vdev s vpci bdf := by
  apply pci_find_vdev_congr
  · by_cases hv : vpci = vm
    · simp [hv]
    · simp [hv]
  · intro i
    by_cases hv : vpci = vm
    · simp [hv]
    · simp [hv]

theorem find_available_vdev_set_addr (P : Platform) (s : State) (vm x vpci bdf : Nat) :
    find_available_vdev P (set_vpci s vm { get_vpci s vm with addr := x }) vpci bdf =
      find_available_vdev P s vpci bdf := by
  unfold find_available_vdev
  simp only [pci_find_vdev_set_addr, get_vdev_set_addr]

theorem mask_testBit (i : Nat) :
    (0x80FFFFFC : Nat).testBit i = decide (i = 31 ∨ (2 ≤ i ∧ i < 24)) := by
  by_cases h : i < 32
  · interval_cases i <;> decide
  · have : (0x80FFFFFC : Nat) < 2 ^ i := by
      calc (0x80FFFFFC : Nat) < 2 ^ 32 := by norm_num
        _ ≤ 2 ^ i := Nat.pow_le_pow_right (by norm_num) (by omega)
    rw [Nat.testBit_lt_two_pow this]
    simp; omega

theorem vpci_is_valid_access_eq (offset bytes : Nat) :
    vpci_is_valid_access offset bytes =
      decide ((bytes = 1 ∨ bytes = 2 ∨ bytes = 4) ∧ offset % bytes = 0) := by
  unfold vpci_is_valid_access vpci_is_valid_access_byte vpci_is_valid_access_offset
  by_cases h1 : bytes = 1
  · subst h1; simp [Nat.mod_one]
  · by_cases h2 : bytes = 2
    · subst h2
      have := Nat.and_pow_two_sub_one_eq_mod offset 1
      simp at this
      simp [this]
    · by_cases h4 : bytes = 4
      · subst h4
        have := Nat.and_pow_two_sub_one_eq_mod offset 2
        simp at this
        simp [this]
      · simp [h1, h2, h4]

theorem cfg_addr_enable_ne_zero (x : Nat) : cfg_addr_enable x ≠ 0 ↔ x.testBit 31 = true := by
  unfold cfg_addr_enable
  rw [Nat.testBit_to_div_mod, Nat.shiftRight_eq_div_pow]
  simp

theorem data_port_offset (k : Nat) (hk : k < 4) :
    u16 (PCI_CONFIG_DATA + k + 2 ^ 16 - PCI_CONFIG_DATA) = k := by
  unfold u16 PCI_CONFIG_DATA
  omega

theorem same_regs_refl (s : State) : same_regs s s := fun _ => ⟨rfl, rfl, rfl, rfl⟩

theorem same_regs_trans {s s2 s3 : State} (h1 : same_regs s s2) (h2 : same_regs s2 s3) :
    same_regs s s3 := fun vm =>
  ⟨(h2 vm).1.trans (h1 vm).1, (h2 vm).2.1.trans (h1 vm).2.1,
   (h2 vm).2.2.1.trans (h1 vm).2.2.1, (h2 vm).2.2.2.trans (h1 vm).2.2.2⟩

theorem same_regs_log (s : State) (e : Event) : same_regs s (log s e) :=
  fun _ => ⟨rfl, rfl, rfl, rfl⟩

theorem same_regs_set_vdev (s : State) (h : vdev_ref) (v : pci_vdev) :
    same_regs s (set_vdev s h v) := by
  intro vm
  refine ⟨by simp, ?_, by simp, by simp⟩
  unfold set_vdev
  by_cases hv : vm = h.vm
  · subst hv; simp
  · simp [hv]

theorem same_regs_ext_call (P : Platform) (f : ext_fn) (s : State) (h : vdev_ref)
    (args : List Nat) : same_regs s (ext_call P f s h args) :=
  same_regs_trans (same_regs_set_vdev _ _ _) (same_regs_log _ _)

theorem read_cfg_header_same_regs (P : Platform) (s : State) (h : vdev_ref) (offset bytes : Nat)
    (r : Nat × State) (hr : read_cfg_header P s h offset bytes = Except.ok r) :
    same_regs s r.2 := by
  unfold read_cfg_header at hr
  simp only [pci_pdev_read_cfg] at hr
  repeat' split at hr
  all_goals
    cases hr <;> exact same_regs_refl _

theorem write_cfg_header_command_same_regs (P : Platform) (s : State) (h : vdev_ref)
    (offset val : Nat) (r : State)
    (hr : write_cfg_header_command P s h offset val = Except.ok r) : same_regs s r := by
  unfold write_cfg_header_command at hr
  simp only [pci_pdev_read_cfg, pdev_restore_bar] at hr
  repeat' split at hr
  all_goals
    cases hr <;> exact same_regs_refl _

theorem write_cfg_header_same_regs (P : Platform) (s : State) (h : vdev_ref)
    (offset bytes val : Nat) (r : State)
    (hr : write_cfg_header P s h offset bytes val = Except.ok r) : same_regs s r := by
  unfold write_cfg_header at hr
  simp only [pci_pdev_write_cfg] at hr
  repeat' split at hr
  all_goals
    cases hr <;> first
      | exact same_regs_refl _
      | exact same_regs_ext_call _ _ _ _ _
      | exact write_cfg_header_command_same_regs _ _ _ _ _ _ (by assumption)
      | exact same_regs_trans (write_cfg_header_command_same_regs _ _ _ _ _ _ (by assumption))
          (same_regs_log _ _)
      | exact same_regs_trans (write_cfg_header_command_same_regs _ _ _ _ _ _ (by assumption))
          (same_regs_set_vdev _ _ _)

theorem read_pt_dev_cfg_same_regs (P : Platform) (s : State) (h : vdev_ref)
    (offset bytes val : Nat) (r : Int × Nat × State)
    (hr : read_pt_dev_cfg P s h offset bytes val = Except.ok r) : same_regs s r.2.2 := by
  unfold read_pt_dev_cfg at hr
  simp only [pci_pdev_read_cfg, ext_read] at hr
  repeat' split at hr
  all_goals
    cases hr <;> first
      | exact same_regs_refl _
      | exact same_regs_log _ _
      | exact read_cfg_header_same_regs _ _ _ _ _ _ (by assumption)

theorem write_pt_dev_cfg_same_regs (P : Platform) (s : State) (h : vdev_ref)
    (offset bytes val : Nat) (r : Int × State)
    (hr : write_pt_dev_cfg P s h offset bytes val = Except.ok r) : same_regs s r.2 := by
  unfold write_pt_dev_cfg at hr
  simp only [pci_pdev_write_cfg] at hr
  repeat' split at hr
  all_goals
    cases hr <;> first
      | exact same_regs_refl _
      | exact same_regs_log _ _
      | exact same_regs_ext_call _ _ _ _ _
      | exact write_cfg_header_same_regs _ _ _ _ _ _ _ (by assumption)

theorem read_vdev_cfg_same_regs (P : Platform) (s : State) (h : vdev_ref)
    (offset bytes val : Nat) (r : Int × Nat × State)
    (hr : read_vdev_cfg P s h offset bytes val = Except.ok r) : same_regs s r.2.2 := by
  unfold read_vdev_cfg at hr
  simp only [ext_read] at hr
  split at hr
  · exact read_pt_dev_cfg_same_regs _ _ _ _ _ _ _ hr
  · cases hr; exact same_regs_log _ _

theorem write_vdev_cfg_same_regs (P : Platform) (s : State) (h : vdev_ref)
    (offset bytes val : Nat) (r : Int × State)
    (hr : write_vdev_cfg P s h offset bytes val = Except.ok r) : same_regs s r.2 := by
  unfold write_vdev_cfg at hr
  split at hr
  · exact write_pt_dev_cfg_same_regs _ _ _ _ _ _ _ hr
  · cases hr; exact same_regs_ext_call _ _ _ _ _

theorem vpci_read_cfg_same_regs (P : Platform) (s : State) (vpci bdf offset bytes val : Nat)
    (r : Int × Nat × State)
    (hr : vpci_read_cfg P s vpci bdf offset bytes val = Except.ok r) : same_regs s r.2.2 := by
  unfold vpci_read_cfg spinlock_obtain spinlock_release at hr
  simp only [find_available_vdev_log] at hr
  cases hfa : find_available_vdev P s vpci bdf with
  | none =>
    rw [hfa] at hr
    cases hr
    exact same_regs_trans (same_regs_log _ _) (same_regs_log _ _)
  | some h =>
    rw [hfa] at hr
    simp only at hr
    split at hr
    · cases hr
    · cases hr
      exact same_regs_trans (same_regs_trans (same_regs_log _ _)
        (read_vdev_cfg_same_regs _ _ _ _ _ _ _ (by assumption))) (same_regs_log _ _)

theorem vpci_write_cfg_same_regs (P : Platform) (s : State) (vpci bdf offset bytes val : Nat)
    (r : Int × State)
    (hr : vpci_write_cfg P s vpci bdf offset bytes val = Except.ok r) : same_regs s r.2 := by
  unfold vpci_write_cfg spinlock_obtain spinlock_release at hr
  simp only [find_available_vdev_log] at hr
  cases hfa : find_available_vdev P s vpci bdf with
  | none =>
    rw [hfa] at hr
    simp only at hr
    split at hr
    · cases hr
      exact same_regs_trans (same_regs_trans (same_regs_log _ _) (same_regs_log _ _))
        (same_regs_log _ _)
    · cases hr
      exact same_regs_trans (same_regs_log _ _) (same_regs_log _ _)
  | some h =>
    rw [hfa] at hr
    simp only at hr
    split at hr
    · cases hr
    · cases hr
      exact same_regs_trans (same_regs_trans (same_regs_log _ _)
        (write_vdev_cfg_same_regs _ _ _ _ _ _ _ (by assumption))) (same_regs_log _ _)


theorem read_cfg_header_returns (P : Platform) (s : State) (h : vdev_ref) (offset bytes : Nat)
    (hp : (get_vdev s h).pdev ≠ none) : ∃ r, read_cfg_header P s h offset bytes = Except.ok r := by
  unfold read_cfg_header
  obtain ⟨pdev, hpd⟩ := Option.ne_none_iff_exists'.mp hp
  simp only [hpd]
  repeat' split
  all_goals exact ⟨_, rfl⟩

theorem write_cfg_header_command_vdevs (P : Platform) (s : State) (h : vdev_ref)
    (offset val : Nat) (r : State)
    (hr : write_cfg_header_command P s h offset val = Except.ok r) : r.vms = s.vms := by
  unfold write_cfg_header_command at hr
  simp only [pci_pdev_read_cfg, pdev_restore_bar] at hr
  repeat' split at hr
  all_goals cases hr <;> rfl

theorem write_cfg_header_command_returns (P : Platform) (s : State) (h : vdev_ref)
    (offset val : Nat) (hp : (get_vdev s h).pdev ≠ none) :
    ∃ r, write_cfg_header_command P s h offset val = Except.ok r := by
  unfold write_cfg_header_command
  obtain ⟨pdev, hpd⟩ := Option.ne_none_iff_exists'.mp hp
  simp only [hpd]
  repeat' split
  all_goals exact ⟨_, rfl⟩

theorem write_cfg_header_returns (P : Platform) (s : State) (h : vdev_ref)
    (offset bytes val : Nat) (hp : (get_vdev s h).pdev ≠ none) :
    ∃ r, write_cfg_header P s h offset bytes val = Except.ok r := by
  obtain ⟨s1, hs1⟩ := write_cfg_header_command_returns P s h offset val hp
  have hv : get_vdev s1 h = get_vdev s h := by
    unfold get_vdev get_vpci
    rw [write_cfg_header_command_vdevs P s h offset val s1 hs1]
  obtain ⟨pdev, hpd⟩ := Option.ne_none_iff_exists'.mp hp
  unfold write_cfg_header
  simp only [hs1, hv, hpd]
  repeat' split
  all_goals exact ⟨_, rfl⟩

theorem read_vdev_cfg_returns (P : Platform) (s : State) (h : vdev_ref)
    (offset bytes val : Nat)
    (hp : (get_vdev s h).vdev_ops = pci_vdev_ops.pci_pt_dev_ops → (get_vdev s h).pdev ≠ none) :
    ∃ r, read_vdev_cfg P s h offset bytes val = Except.ok r := by
  unfold read_vdev_cfg
  split
  · rename_i hops
    obtain ⟨r, hr⟩ := read_cfg_header_returns P s h offset bytes (hp hops)
    obtain ⟨pdev, hpd⟩ := Option.ne_none_iff_exists'.mp (hp hops)
    unfold read_pt_dev_cfg
    simp only [hr, hpd]
    repeat' split
    all_goals exact ⟨_, rfl⟩
  · exact ⟨_, rfl⟩

theorem write_vdev_cfg_returns (P : Platform) (s : State) (h : vdev_ref)
    (offset bytes val : Nat)
    (hp : (get_vdev s h).vdev_ops = pci_vdev_ops.pci_pt_dev_ops → (get_vdev s h).pdev ≠ none) :
    ∃ r, write_vdev_cfg P s h offset bytes val = Except.ok r := by
  unfold write_vdev_cfg
  split
  · rename_i hops
    obtain ⟨r, hr⟩ := write_cfg_header_returns P s h offset bytes val (hp hops)
    obtain ⟨pdev, hpd⟩ := Option.ne_none_iff_exists'.mp (hp hops)
    unfold write_pt_dev_cfg
    simp only [hr, hpd]
    repeat' split
    all_goals exact ⟨_, rfl⟩
  · exact ⟨_, rfl⟩

theorem vpci_read_cfg_returns (P : Platform) (s : State) (vpci bdf offset bytes val : Nat)
    (hp : ∀ h, find_available_vdev P s vpci bdf = some h →
      (get_vdev s h).vdev_ops = pci_vdev_ops.pci_pt_dev_ops → (get_vdev s h).pdev ≠ none) :
    ∃ r, vpci_read_cfg P s vpci bdf offset bytes val = Except.ok r := by
  unfold vpci_read_cfg spinlock_obtain
  simp only [find_available_vdev_log]
  cases hfa : find_available_vdev P s vpci bdf with
  | none => exact ⟨_, rfl⟩
  | some h =>
    obtain ⟨r, hr⟩ := read_vdev_cfg_returns P (log s (Event.spinlock_obtain vpci)) h offset bytes
      val (hp h hfa)
    simp only [hr]
    exact ⟨_, rfl⟩

theorem vpci_write_cfg_returns (P : Platform) (s : State) (vpci bdf offset bytes val : Nat)
    (hp : ∀ h, find_available_vdev P s vpci bdf = some h →
      (get_vdev s h).vdev_ops = pci_vdev_ops.pci_pt_dev_ops → (get_vdev s h).pdev ≠ none) :
    ∃ r, vpci_write_cfg P s vpci bdf offset bytes val = Except.ok r := by
  unfold vpci_write_cfg spinlock_obtain
  simp only [find_available_vdev_log]
  cases hfa : find_available_vdev P s vpci bdf with
  | none =>
    simp only
    split <;> exact ⟨_, rfl⟩
  | some h =>
    obtain ⟨r, hr⟩ := write_vdev_cfg_returns P (log s (Event.spinlock_obtain vpci)) h offset bytes
      val (hp h hfa)
    simp only [hr]
    exact ⟨_, rfl⟩

theorem set_vpci_set_vpci (s : State) (vm : Nat) (a b : acrn_vpci) :
    set_vpci (set_vpci s vm a) vm b = set_vpci s vm b := by
  unfold set_vpci
  simp

theorem clear_latch_of_zero (s : State) (vm : Nat) (h0 : (get_vpci s vm).addr = 0) :
    set_vpci s vm { get_vpci s vm with addr := 0 } = s := by
  have : ({ get_vpci s vm with addr := 0 } : acrn_vpci) = get_vpci s vm := by
    cases hv : get_vpci s vm with
    | mk a b c d =>
      rw [hv] at h0
      simp only at h0
      subst h0
      rfl
  rw [this, set_vpci_self]

theorem cfgdata_read_latch_zero (P : Platform) (s : State) (vcpu : acrn_vcpu) (addr bytes : Nat)
    (h0 : (get_vpci s vcpu.vm).addr = 0) :
    vpci_pio_cfgdata_read P s vcpu addr bytes =
      Except.ok (true, { vcpu with pio_value := 0xFFFFFFFF }, s) := by
  unfold vpci_pio_cfgdata_read atomic_readandclear32
  simp only [h0]
  have he : ¬ (cfg_addr_enable 0 ≠ 0 ∧ vpci_is_valid_access (cfg_addr_reg_num 0 +
      u16 (addr + 2 ^ 16 - PCI_CONFIG_DATA)) (u32 bytes) = true) := by
    intro h; exact h.1 (by decide)
  rw [if_neg he]
  exact congrArg (fun x => Except.ok (true, ({ vcpu with pio_value := ALL_ONES } : acrn_vcpu), x))
    (clear_latch_of_zero s vcpu.vm h0)

theorem get_vdev_clear_latch (s : State) (vm : Nat) (h : vdev_ref) :
    get_vdev (atomic_readandclear32 s vm).2 h = get_vdev s h := by
  unfold atomic_readandclear32
  exact get_vdev_set_addr s vm 0 h

theorem masked_mod_four (v : Nat) : (v &&& 0x80FFFFFC) % 256 % 4 = 0 := by
  have h1 : (v &&& 0x80FFFFFC) % 256 % 4 = (v &&& 0x80FFFFFC) % 4 := by omega
  have h2 := Nat.and_pow_two_sub_one_eq_mod (v &&& 0x80FFFFFC) 2
  rw [h1, ← h2, Nat.land_assoc]
  have h3 : (2164260860 : Nat) &&& (2 ^ 2 - 1) = 0 := by decide
  rw [h3, Nat.and_zero]

theorem pci_find_vdev_some (s : State) (vpci bdf : Nat) (h : vdev_ref)
    (hf : pci_find_vdev s vpci bdf = some h) :
    h.vm = vpci ∧ h.idx < (get_vpci s vpci).pci_vdev_cnt ∧ (get_vdev s h).bdf = bdf := by
  unfold pci_find_vdev at hf
  obtain ⟨i, hi, rfl⟩ := Option.map_eq_some'.mp hf
  have h1 := List.mem_of_find?_eq_some hi
  have h2 := List.find?_some hi
  simp only [decide_eq_true_eq] at h2
  exact ⟨rfl, List.mem_range.mp h1, h2⟩

theorem find_available_vdev_some (P : Platform) (s : State) (vpci bdf : Nat) (h : vdev_ref)
    (hf : find_available_vdev P s vpci bdf = some h) : pci_find_vdev s vpci bdf = some h := by
  unfold find_available_vdev at hf
  repeat' split at hf
  all_goals (cases hf <;> assumption)

theorem find_available_vdev_clear_latch (P : Platform) (s : State) (vm vpci bdf : Nat) :
    find_available_vdev P (atomic_readandclear32 s vm).2 vpci bdf =
      find_available_vdev P s vpci bdf := by
  unfold atomic_readandclear32
  exact find_available_vdev_set_addr P s vm 0 vpci bdf

theorem find_available_vdev_other_owner (P : Platform) (s : State) (vpci bdf owner : Nat)
    (h n : vdev_ref) (hf : pci_find_vdev s vpci bdf = some h)
    (hne : (get_vdev s h).vpci ≠ some vpci) (hn : (get_vdev s h).new_owner = some n)
    (ho : (get_vdev s n).vpci = some owner) :
    find_available_vdev P s vpci bdf = some h ↔
      P.get_vm_severity owner ≤ P.get_vm_severity vpci := by
  unfold find_available_vdev
  simp only [hf, hne, hn, ho, ne_eq, not_false_eq_true, if_true]
  by_cases hs : P.get_vm_severity vpci < P.get_vm_severity owner
  · simp only [hs, if_true]
    constructor
    · intro hc; cases hc
    · intro hc; omega
  · simp only [hs, if_false, true_iff]
    omega

theorem vpci_init_vdev_full (P : Platform) (s : State) (vpci : Nat)
    (cfg : acrn_vm_pci_dev_config) (pf : Option vdev_ref)
    (hfull : P.CONFIG_MAX_PCI_DEV_NUM ≤ (get_vpci s vpci).pci_vdev_cnt) :
    vpci_init_vdev P s vpci cfg pf = Except.error Fault.out_of_bounds := by
  unfold vpci_init_vdev
  dsimp only
  rw [if_neg (by omega)]

/-! ## Address decoder: claims -/

/-- C5: single-shot latch.  A data-register read or write (any port, any width) returns
whenever every pass-through instance it can be dispatched to has its physical device; when it
returns, the latched address is 0, and a data-register read that follows (any port, any
width) reports handled, returns all-ones and leaves the state as it is, trace included: the
dispatcher, which records its lock, is not invoked.  After a 4-byte write to CF8h of a value
with bit 31 set, the first 4-byte read of CFCh is the dispatcher's read at the latched bdf and
register. -/
theorem C5_single_shot_latch (P : Platform) (s : State) (vcpu : acrn_vcpu)
    (addr bytes val : Nat) :
    ((∀ bdf h, find_available_vdev P s vcpu.vm bdf = some h →
        (get_vdev s h).vdev_ops = pci_vdev_ops.pci_pt_dev_ops → (get_vdev s h).pdev ≠ none) →
      (∃ r, vpci_pio_cfgdata_read P s vcpu addr bytes = Except.ok r) ∧
      (∃ r, vpci_pio_cfgdata_write P s vcpu addr bytes val = Except.ok r)) ∧
    (∀ r, vpci_pio_cfgdata_read P s vcpu addr bytes = Except.ok r →
      (get_vpci r.2.2 vcpu.vm).addr = 0 ∧
      ∀ addr2 bytes2, vpci_pio_cfgdata_read P r.2.2 r.2.1 addr2 bytes2 =
        Except.ok (true, { r.2.1 with pio_value := 0xFFFFFFFF }, r.2.2)) ∧
    (∀ r, vpci_pio_cfgdata_write P s vcpu addr bytes val = Except.ok r →
      (get_vpci r.2 vcpu.vm).addr = 0 ∧
      ∀ addr2 bytes2, vpci_pio_cfgdata_read P r.2 vcpu addr2 bytes2 =
        Except.ok (true, { vcpu with pio_value := 0xFFFFFFFF }, r.2)) ∧
    (∀ v : Nat, v.testBit 31 = true →
      vpci_pio_cfgdata_read P (vpci_pio_cfgaddr_write P s vcpu PCI_CONFIG_ADDR 4 v).2 vcpu
          PCI_CONFIG_DATA 4 =
        (match vpci_read_cfg P (set_vpci s vcpu.vm { get_vpci s vcpu.vm with addr := 0 }) vcpu.vm
            ((v &&& (0xFFFFFFFF - 0x7f000003)) / 2 ^ 8 % 2 ^ 16)
            ((v &&& (0xFFFFFFFF - 0x7f000003)) % 256) 4 0xFFFFFFFF with
         | Except.error e => Except.error e
         | Except.ok r => Except.ok (decide (r.1 = 0), { vcpu with pio_value := r.2.1 }, r.2.2))) := by
  have hclr : ((get_vpci (atomic_readandclear32 s vcpu.vm).2 vcpu.vm).addr = 0) := by
    unfold atomic_readandclear32; simp
  refine ⟨?_, ?_, ?_, ?_⟩
  · intro hp
    have hp2 : ∀ bdf h, find_available_vdev P (atomic_readandclear32 s vcpu.vm).2 vcpu.vm bdf =
        some h → (get_vdev (atomic_readandclear32 s vcpu.vm).2 h).vdev_ops =
        pci_vdev_ops.pci_pt_dev_ops → (get_vdev (atomic_readandclear32 s vcpu.vm).2 h).pdev ≠ none := by
      intro bdf h
      rw [get_vdev_clear_latch]
      unfold atomic_readandclear32
      rw [find_available_vdev_set_addr]
      exact hp bdf h
    constructor
    · unfold vpci_pio_cfgdata_read
      simp only
      split
      · obtain ⟨r, hr⟩ := vpci_read_cfg_returns P (atomic_readandclear32 s vcpu.vm).2 vcpu.vm
          (cfg_addr_bdf (atomic_readandclear32 s vcpu.vm).1)
          (cfg_addr_reg_num (atomic_readandclear32 s vcpu.vm).1 + u16 (addr + 2 ^ 16 - PCI_CONFIG_DATA))
          (u32 bytes) ALL_ONES (hp2 _)
        rw [hr]; exact ⟨_, rfl⟩
      · exact ⟨_, rfl⟩
    · unfold vpci_pio_cfgdata_write
      simp only
      split
      · obtain ⟨r, hr⟩ := vpci_write_cfg_returns P (atomic_readandclear32 s vcpu.vm).2 vcpu.vm
          (cfg_addr_bdf (atomic_readandclear32 s vcpu.vm).1)
          (cfg_addr_reg_num (atomic_readandclear32 s vcpu.vm).1 + u16 (addr + 2 ^ 16 - PCI_CONFIG_DATA))
          (u32 bytes) val (hp2 _)
        rw [hr]; exact ⟨_, rfl⟩
      · exact ⟨_, rfl⟩
  · intro r hr
    have h0 : (get_vpci r.2.2 vcpu.vm).addr = 0 ∧ r.2.1.vm = vcpu.vm := by
      unfold vpci_pio_cfgdata_read at hr
      simp only at hr
      split at hr
      · split at hr
        · cases hr
        · rename_i r2 hr2
          cases hr
          exact ⟨((vpci_read_cfg_same_regs _ _ _ _ _ _ _ _ hr2) vcpu.vm).1.trans hclr, rfl⟩
      · cases hr
        exact ⟨hclr, rfl⟩
    refine ⟨h0.1, fun addr2 bytes2 => ?_⟩
    exact cfgdata_read_latch_zero P r.2.2 r.2.1 addr2 bytes2 (by rw [h0.2]; exact h0.1)
  · intro r hr
    have h0 : (get_vpci r.2 vcpu.vm).addr = 0 := by
      unfold vpci_pio_cfgdata_write at hr
      simp only at hr
      split at hr
      · split at hr
        · cases hr
        · rename_i r2 hr2
          cases hr
          exact ((vpci_write_cfg_same_regs _ _ _ _ _ _ _ _ hr2) vcpu.vm).1.trans hclr
      · cases hr
        exact hclr
    exact ⟨h0, fun addr2 bytes2 => cfgdata_read_latch_zero P r.2 vcpu addr2 bytes2 h0⟩
  · intro v hv
    have hp : u16 PCI_CONFIG_ADDR = PCI_CONFIG_ADDR := by decide
    have hw : (vpci_pio_cfgaddr_write P s vcpu PCI_CONFIG_ADDR 4 v).2 =
        set_vpci s vcpu.vm { get_vpci s vcpu.vm with addr := v &&& 0x80FFFFFC } := by
      unfold vpci_pio_cfgaddr_write
      simp only [hp, and_self, if_true]
      by_cases hpl : P.is_postlaunched_vm vcpu.vm = true
      · simp only [hpl, if_true]
        split <;> [skip; split] <;> rfl
      · simp [hpl]
    have hm : v &&& (0xFFFFFFFF - 0x7f000003) = v &&& 0x80FFFFFC := rfl
    rw [hw, hm]
    unfold vpci_pio_cfgdata_read atomic_readandclear32
    simp only [get_vpci_set_vpci, if_true, set_vpci_set_vpci]
    have h31 : (v &&& 0x80FFFFFC).testBit 31 = true := by
      rw [Nat.testBit_and, hv]; decide
    have hoff : u16 (PCI_CONFIG_DATA + 2 ^ 16 - PCI_CONFIG_DATA) = 0 := by decide
    have hg : cfg_addr_enable (v &&& 0x80FFFFFC) ≠ 0 ∧
        vpci_is_valid_access (cfg_addr_reg_num (v &&& 0x80FFFFFC) +
          u16 (PCI_CONFIG_DATA + 2 ^ 16 - PCI_CONFIG_DATA)) (u32 4) = true := by
      refine ⟨(cfg_addr_enable_ne_zero _).mpr h31, ?_⟩
      rw [vpci_is_valid_access_eq, hoff]
      have := masked_mod_four v
      simp [cfg_addr_reg_num, u32, this]
    rw [if_pos hg]
    simp only [cfg_addr_bdf, cfg_addr_reg_num, Nat.shiftRight_eq_div_pow, hoff, u32, ALL_ONES,
      Nat.add_zero]
    rfl


/-- C6: a 4-byte write of `v` to port CF8h followed by a 4-byte read of port CF8h: the read
reports handled and returns `v & ~0x7f000003` (as a 32-bit complement), that is, bit `i` of
the value read is bit `i` of `v` for `i = 31` and for `2 ≤ i < 24` and is zero for every
other `i` (bits 0-1, bits 24-30); the read leaves the state, the latch included, as the
write left it. -/
theorem C6_cfgaddr_reserved_bits (P : Platform) (s : State) (vcpu : acrn_vcpu) (v : Nat) :
    let w := vpci_pio_cfgaddr_write P s vcpu PCI_CONFIG_ADDR 4 v
    let r := vpci_pio_cfgaddr_read w.2 vcpu PCI_CONFIG_ADDR 4
    r.1 = true ∧
    r.2.1.pio_value = v &&& (0xFFFFFFFF - 0x7f000003) ∧
    (∀ i, r.2.1.pio_value.testBit i = (v.testBit i && decide (i = 31 ∨ (2 ≤ i ∧ i < 24)))) ∧
    r.2.2 = w.2 ∧
    (get_vpci r.2.2 vcpu.vm).addr = (get_vpci w.2 vcpu.vm).addr := by
  have hval : (vpci_pio_cfgaddr_read (vpci_pio_cfgaddr_write P s vcpu PCI_CONFIG_ADDR 4 v).2
      vcpu PCI_CONFIG_ADDR 4).2.1.pio_value = v &&& 0x80FFFFFC := by
    unfold vpci_pio_cfgaddr_read vpci_pio_cfgaddr_write
    have hp : PCI_CONFIG_ADDR = u16 PCI_CONFIG_ADDR := by decide
    simp only [← hp, and_self, if_true]
    by_cases hpl : P.is_postlaunched_vm vcpu.vm = true
    · simp only [hpl, if_true]
      split <;> [skip; split] <;> simp
    · simp [hpl]
  refine ⟨rfl, ?_, ?_, rfl, rfl⟩
  · rw [hval]
  · intro i
    rw [hval, Nat.testBit_and, mask_testBit]

/-- C7: data-register gating.  `vpci_is_valid_access offset bytes` holds exactly when `bytes`
is 1, 2 or 4 and `offset mod bytes = 0` (for every offset and width, `bytes = 0` included).
For a data port CFCh+k (k < 4) and a 32-bit width `w`: if bit 31 of the latch is set, `w` is
1, 2 or 4 and `(reg_num + k) mod w = 0`, the read and the write are the dispatcher's
`vpci_read_cfg` / `vpci_write_cfg` at bdf = bits 8-23 of the latch and offset `reg_num + k`
(run on the state whose latch has been cleared), and the handler reports whether the
dispatcher returned 0; otherwise the read returns all-ones, the write changes nothing but the
cleared latch, and both report handled. -/
theorem C7_data_register_gating (P : Platform) (s : State) (vcpu : acrn_vcpu) (k w val : Nat)
    (hk : k < 4) (hw : w < 2 ^ 32) :
    let latch := (get_vpci s vcpu.vm).addr
    let s1 := set_vpci s vcpu.vm { get_vpci s vcpu.vm with addr := 0 }
    let forwarded := latch.testBit 31 = true ∧ (w = 1 ∨ w = 2 ∨ w = 4) ∧ (latch % 256 + k) % w = 0
    (∀ offset bytes, vpci_is_valid_access offset bytes =
        decide ((bytes = 1 ∨ bytes = 2 ∨ bytes = 4) ∧ offset % bytes = 0)) ∧
    (forwarded →
      vpci_pio_cfgdata_read P s vcpu (PCI_CONFIG_DATA + k) w =
        (match vpci_read_cfg P s1 vcpu.vm (latch / 2 ^ 8 % 2 ^ 16) (latch % 256 + k) w ALL_ONES with
         | Except.error e => Except.error e
         | Except.ok r => Except.ok (decide (r.1 = 0), { vcpu with pio_value := r.2.1 }, r.2.2)) ∧
      vpci_pio_cfgdata_write P s vcpu (PCI_CONFIG_DATA + k) w val =
        (match vpci_write_cfg P s1 vcpu.vm (latch / 2 ^ 8 % 2 ^ 16) (latch % 256 + k) w val with
         | Except.error e => Except.error e
         | Except.ok r => Except.ok (decide (r.1 = 0), r.2))) ∧
    (¬ forwarded →
      vpci_pio_cfgdata_read P s vcpu (PCI_CONFIG_DATA + k) w =
        Except.ok (true, { vcpu with pio_value := 0xFFFFFFFF }, s1) ∧
      vpci_pio_cfgdata_write P s vcpu (PCI_CONFIG_DATA + k) w val = Except.ok (true, s1)) := by
  intro latch s1 forwarded
  have hu : u32 w = w := Nat.mod_eq_of_lt hw
  have hgate : (cfg_addr_enable latch ≠ 0 ∧
      vpci_is_valid_access (cfg_addr_reg_num latch + k) w = true) ↔ forwarded := by
    rw [cfg_addr_enable_ne_zero, vpci_is_valid_access_eq]
    simp [forwarded, cfg_addr_reg_num]
  refine ⟨vpci_is_valid_access_eq, ?_, ?_⟩
  · intro hf
    have hg := hgate.mpr hf
    constructor
    · unfold vpci_pio_cfgdata_read atomic_readandclear32
      simp only [data_port_offset k hk, hu]
      rw [if_pos hg]
      simp [cfg_addr_bdf, cfg_addr_reg_num, Nat.shiftRight_eq_div_pow, latch, s1]
    · unfold vpci_pio_cfgdata_write atomic_readandclear32
      simp only [data_port_offset k hk, hu]
      rw [if_pos hg]
      simp [cfg_addr_bdf, cfg_addr_reg_num, Nat.shiftRight_eq_div_pow, latch, s1]
  · intro hf
    have hg : ¬ (cfg_addr_enable latch ≠ 0 ∧
        vpci_is_valid_access (cfg_addr_reg_num latch + k) w = true) := fun h => hf (hgate.mp h)
    constructor
    · unfold vpci_pio_cfgdata_read atomic_readandclear32
      simp only [data_port_offset k hk, hu]
      rw [if_neg hg]
      simp [ALL_ONES, s1]
    · unfold vpci_pio_cfgdata_write atomic_readandclear32
      simp only [data_port_offset k hk, hu]
      rw [if_neg hg]

/-- C7 (witness): a 2-byte write at port CFEh with the latch 0x80000005 (enabled, register 5)
on the service VM of `s0`: offset 7 is not 2-byte aligned, the write is not forwarded and
only clears the latch; offset 6 would be valid. -/
theorem C7_data_register_gating_witness :
    vpci_is_valid_access 6 2 = true ∧
    vpci_pio_cfgdata_write P0 (set_vpci s0 0 { get_vpci s0 0 with addr := 0x80000005 }) ⟨0, 0⟩
      (PCI_CONFIG_DATA + 2) 2 7 =
      Except.ok (true, set_vpci (set_vpci s0 0 { get_vpci s0 0 with addr := 0x80000005 }) 0
        { get_vpci (set_vpci s0 0 { get_vpci s0 0 with addr := 0x80000005 }) 0 with addr := 0 }) :=
  ⟨by decide,
   ((C7_data_register_gating P0 (set_vpci s0 0 { get_vpci s0 0 with addr := 0x80000005 }) ⟨0, 0⟩
      2 2 7 (by decide) (by decide)).2.2 (by decide)).2⟩

/-- C8: result of the address-register write.  For a 4-byte write to port CF8h on a
post-launched VM, the handler returns false exactly when `find_available_vdev` finds no
device at bits 8-23 of the masked value or finds a quirk pass-through device; on any other
VM it returns true; the latch then holds the masked value.  A write at another port or width
returns true and changes nothing. -/
theorem C8_cfgaddr_write_result (P : Platform) (s : State) (vcpu : acrn_vcpu)
    (addr bytes val : Nat) :
    let masked := val &&& (0xFFFFFFFF - 0x7f000003)
    let bdf := masked / 2 ^ 8 % 2 ^ 16
    (P.is_postlaunched_vm vcpu.vm = true →
      ((vpci_pio_cfgaddr_write P s vcpu PCI_CONFIG_ADDR 4 val).1 = false ↔
        (find_available_vdev P s vcpu.vm bdf = none ∨
          ∃ h, find_available_vdev P s vcpu.vm bdf = some h ∧
            P.is_quirk_ptdev (get_vdev s h) = true))) ∧
    (P.is_postlaunched_vm vcpu.vm = false →
      (vpci_pio_cfgaddr_write P s vcpu PCI_CONFIG_ADDR 4 val).1 = true) ∧
    (vpci_pio_cfgaddr_write P s vcpu PCI_CONFIG_ADDR 4 val).2 =
      set_vpci s vcpu.vm { get_vpci s vcpu.vm with addr := masked } ∧
    (¬ (addr = PCI_CONFIG_ADDR ∧ bytes = 4) →
      vpci_pio_cfgaddr_write P s vcpu addr bytes val = (true, s)) := by
  intro masked bdf
  have hp : u16 PCI_CONFIG_ADDR = PCI_CONFIG_ADDR := by decide
  have hm : masked = val &&& 0x80FFFFFC := rfl
  have hb : cfg_addr_bdf (val &&& 0x80FFFFFC) = bdf := by
    simp [cfg_addr_bdf, Nat.shiftRight_eq_div_pow, bdf, hm]
  refine ⟨?_, ?_, ?_, ?_⟩
  · intro hpl
    unfold vpci_pio_cfgaddr_write
    simp only [hp, and_self, if_true, hpl, get_vpci_set_vpci, find_available_vdev_set_addr,
      get_vdev_set_addr, hb]
    cases hfa : find_available_vdev P s vcpu.vm bdf with
    | none => simp
    | some h =>
      by_cases hq : P.is_quirk_ptdev (get_vdev s h) = true
      · simp [hq]
      · simp [hq]
  · intro hpl
    unfold vpci_pio_cfgaddr_write
    simp [hp, hpl]
  · unfold vpci_pio_cfgaddr_write
    simp only [hp, and_self, if_true]
    by_cases hpl : P.is_postlaunched_vm vcpu.vm = true
    · simp only [hpl, if_true]
      split <;> [skip; split] <;> simp [hm]
    · simp [hpl, hm]
  · intro hne
    unfold vpci_pio_cfgaddr_write
    rw [hp, if_neg hne]

/-- C8 (witness): on the post-launched VM 1 of `s0`, whose table is empty, the write of an
enabled address is not handled; on the service VM it is. -/
theorem C8_cfgaddr_write_result_witness :
    (vpci_pio_cfgaddr_write P0 s0 ⟨1, 0⟩ PCI_CONFIG_ADDR 4 0x80010000).1 = false ∧
    (vpci_pio_cfgaddr_write P0 s0 ⟨0, 0⟩ PCI_CONFIG_ADDR 4 0x80010000).1 = true :=
  ⟨((C8_cfgaddr_write_result P0 s0 ⟨1, 0⟩ 0 0 0x80010000).1 (by decide)).mpr
      (Or.inl (by decide)),
   (C8_cfgaddr_write_result P0 s0 ⟨0, 0⟩ 0 0 0x80010000).2.1 (by decide)⟩


/-- C5 (witness): on the service VM of `s0_latched` (latch enabled at 01:00.0, register 4) the
data-register read returns; on `s0` (latch 0) a data-register write is not forwarded, and the
read that follows returns all-ones without touching the state. -/
theorem C5_single_shot_latch_witness :
    (∃ r, vpci_pio_cfgdata_read P0 s0_latched ⟨0, 0⟩ PCI_CONFIG_DATA 4 = Except.ok r) ∧
    (get_vpci (set_vpci s0 0 { get_vpci s0 0 with addr := 0 }) 0).addr = 0 ∧
    vpci_pio_cfgdata_read P0 (set_vpci s0 0 { get_vpci s0 0 with addr := 0 }) ⟨0, 0⟩
        (PCI_CONFIG_DATA + 1) 2 =
      Except.ok (true, ⟨0, 0xFFFFFFFF⟩, set_vpci s0 0 { get_vpci s0 0 with addr := 0 }) :=
  ⟨((C5_single_shot_latch P0 s0_latched ⟨0, 0⟩ PCI_CONFIG_DATA 4 0).1 (by
      intro bdf h hfa _
      have h1 := pci_find_vdev_some _ _ _ _ (find_available_vdev_some _ _ _ _ _ hfa)
      have hc : (get_vpci s0_latched 0).pci_vdev_cnt = 1 := by decide
      obtain ⟨hvm, hi, _⟩ := h1
      change h.idx < (get_vpci s0_latched 0).pci_vdev_cnt at hi
      rw [hc] at hi
      obtain ⟨vm, i⟩ := h
      simp only at hvm hi
      subst hvm
      have hi0 : i = 0 := by omega
      subst hi0
      decide)).1,
   ((C5_single_shot_latch P0 s0 ⟨0, 0⟩ PCI_CONFIG_DATA 4 7).2.2.1
      (true, set_vpci s0 0 { get_vpci s0 0 with addr := 0 }) rfl).1,
   ((C5_single_shot_latch P0 s0 ⟨0, 0⟩ PCI_CONFIG_DATA 4 7).2.2.1
      (true, set_vpci s0 0 { get_vpci s0 0 with addr := 0 }) rfl).2 (PCI_CONFIG_DATA + 1) 2⟩

/-- C9 (as amended): for an MMIO access at address `a` with `B ≤ a < B + 256 MiB`, `B` the
VM's ECAM base, `vpci_mmio_cfg_access` uses bdf = `((a - B) >> 12) mod 2^16`, that is bus =
bits 27:20, device = bits 19:15 and function = bits 14:12 of the offset `a - B`, and the
register offset `a mod 4096`, the low 12 bits of the absolute address `a`; this is the low 12
bits of the offset `a - B` whenever `B` is 4 KiB-aligned.  With those two values a read goes
to `vpci_read_cfg` and a write to `vpci_write_cfg`, unless the bdf is a platform-hidden
device. -/
theorem C9_ecam_decode (P : Platform) (s : State) (mmio : mmio_request) (vpci : Nat)
    (hB : (get_vpci s vpci).pci_mmcfg_base ≤ mmio.address)
    (ha : mmio.address < (get_vpci s vpci).pci_mmcfg_base + 2 ^ 28) :
    let off := mmio.address - (get_vpci s vpci).pci_mmcfg_base
    let bdf := mmio_bdf (get_vpci s vpci).pci_mmcfg_base mmio.address
    let reg := mmio_reg_num mmio.address
    bdf = off / 2 ^ 12 % 2 ^ 16 ∧
    bdf / 2 ^ 8 = off / 2 ^ 20 % 2 ^ 8 ∧
    bdf / 2 ^ 3 % 2 ^ 5 = off / 2 ^ 15 % 2 ^ 5 ∧
    bdf % 2 ^ 3 = off / 2 ^ 12 % 2 ^ 3 ∧
    reg = mmio.address % 2 ^ 12 ∧
    ((get_vpci s vpci).pci_mmcfg_base % 2 ^ 12 = 0 → reg = off % 2 ^ 12) ∧
    (P.is_plat_hidden_pdev bdf = false →
      (mmio.direction = REQUEST_READ →
        vpci_mmio_cfg_access P s mmio vpci =
          (match vpci_read_cfg P s vpci bdf reg (u32 mmio.size) (u32 mmio.value) with
           | Except.error e => Except.error e
           | Except.ok r => Except.ok (r.1,
               { mmio with value := mmio.value / 2 ^ 32 * 2 ^ 32 + u32 r.2.1 }, r.2.2))) ∧
      (mmio.direction ≠ REQUEST_READ →
        vpci_mmio_cfg_access P s mmio vpci =
          (match vpci_write_cfg P s vpci bdf reg (u32 mmio.size) (u32 mmio.value) with
           | Except.error e => Except.error e
           | Except.ok r => Except.ok (r.1, mmio, r.2)))) := by
  intro off bdf reg
  have hbdf : bdf = off / 2 ^ 12 % 2 ^ 16 := by
    simp only [bdf, off, mmio_bdf, u16, Nat.shiftRight_eq_div_pow]
    have : (mmio.address + 2 ^ 64 - (get_vpci s vpci).pci_mmcfg_base) % 2 ^ 64 =
        mmio.address - (get_vpci s vpci).pci_mmcfg_base := by omega
    rw [this]
  have hreg : reg = mmio.address % 2 ^ 12 := by
    simp only [reg, mmio_reg_num, u32]
    have := Nat.and_pow_two_sub_one_eq_mod mmio.address 12
    norm_num at this
    rw [this]
    omega
  have hoff : off < 2 ^ 28 := by simp only [off]; omega
  refine ⟨hbdf, ?_, ?_, ?_, hreg, ?_, ?_⟩
  · rw [hbdf]; omega
  · rw [hbdf]; omega
  · rw [hbdf]; omega
  · intro hal
    rw [hreg]
    simp only [off]
    omega
  · intro hh
    constructor
    · intro hd
      unfold vpci_mmio_cfg_access
      simp only [hd, if_true]
      have : P.is_plat_hidden_pdev (mmio_bdf (get_vpci s vpci).pci_mmcfg_base mmio.address)
          = false := hh
      simp [this, bdf, reg]
    · intro hd
      unfold vpci_mmio_cfg_access
      simp only [hd, if_false]
      have : P.is_plat_hidden_pdev (mmio_bdf (get_vpci s vpci).pci_mmcfg_base mmio.address)
          = false := hh
      simp [this, bdf, reg]

/-- C9 (counterexample to the claim as stated): with the ECAM base at 0x800 and an access at
0x1004, the offset is 0x804, whose low 12 bits are 0x804, but the register offset the code
uses is 4: the 4-byte read reaches the Command register of the device at 00:00.0, as the
physical read at offset 4 in the trace shows. -/
theorem C9_unaligned_base_counterexample :
    (get_vpci s0_unaligned 0).pci_mmcfg_base ≤ 0x1004 ∧
    0x1004 < (get_vpci s0_unaligned 0).pci_mmcfg_base + 2 ^ 28 ∧
    (0x1004 - (get_vpci s0_unaligned 0).pci_mmcfg_base) % 2 ^ 12 = 0x804 ∧
    mmio_reg_num 0x1004 = 4 ∧
    (match vpci_mmio_cfg_access P0 s0_unaligned ⟨REQUEST_READ, 0x1004, 4, 0⟩ 0 with
      | Except.ok r => r.2.2.trace
      | Except.error _ => []) =
      [Event.spinlock_obtain 0, Event.pci_pdev_read_cfg 0x100 4 4, Event.spinlock_release 0] := by
  decide

/-- C9 (witness): the access at 0xE0101004 with the base 0xE0000000 of `s0` decodes to bdf
01:01.0 and register 4. -/
theorem C9_ecam_decode_witness :
    mmio_bdf (get_vpci s0 0).pci_mmcfg_base 0xE0101004 =
      (0xE0101004 - (get_vpci s0 0).pci_mmcfg_base) / 2 ^ 12 % 2 ^ 16 ∧
    mmio_reg_num 0xE0101004 = (0xE0101004 - (get_vpci s0 0).pci_mmcfg_base) % 2 ^ 12 :=
  ⟨(C9_ecam_decode P0 s0 ⟨REQUEST_READ, 0xE0101004, 4, 0⟩ 0 (by decide) (by decide)).1,
   (C9_ecam_decode P0 s0 ⟨REQUEST_READ, 0xE0101004, 4, 0⟩ 0 (by decide) (by decide)).2.2.2.2.2.1
     (by decide)⟩

/-! ## Config-space dispatcher: claims -/

/-- C10: guest miss.  For a post-launched VM and a bdf at which `find_available_vdev` finds
nothing, `vpci_read_cfg` and `vpci_write_cfg` return `-ENODEV`; the state they leave is the
one they got with only the lock taken and released in the trace (no handler called, no VM
changed, `*val` untouched).  Consequently a forwarded data-register read or write returns
false, leaving every device instance as it was, and the ECAM handler returns the non-zero
`-ENODEV` for a bdf that is not platform-hidden.  On a hit the dispatcher's result is that of
the device's own read/write handler, run with the lock taken, which is then released. -/
theorem C10_guest_miss (P : Platform) (s : State) (vpci bdf offset bytes val : Nat) :
    (P.is_postlaunched_vm vpci = true → find_available_vdev P s vpci bdf = none →
      vpci_read_cfg P s vpci bdf offset bytes val =
        Except.ok (-ENODEV, val, spinlock_release (spinlock_obtain s vpci) vpci) ∧
      vpci_write_cfg P s vpci bdf offset bytes val =
        Except.ok (-ENODEV, spinlock_release (spinlock_obtain s vpci) vpci) ∧
      (spinlock_release (spinlock_obtain s vpci) vpci).vms = s.vms ∧
      (spinlock_release (spinlock_obtain s vpci) vpci).trace =
        s.trace ++ [Event.spinlock_obtain vpci, Event.spinlock_release vpci] ∧
      (∀ (vcpu : acrn_vcpu) (addr : Nat), vcpu.vm = vpci →
        (get_vpci s vpci).addr.testBit 31 = true →
        bdf = (get_vpci s vpci).addr / 2 ^ 8 % 2 ^ 16 →
        vpci_is_valid_access (cfg_addr_reg_num (get_vpci s vpci).addr +
          u16 (addr + 2 ^ 16 - PCI_CONFIG_DATA)) (u32 bytes) = true →
        (∃ st, vpci_pio_cfgdata_read P s vcpu addr bytes =
            Except.ok (false, { vcpu with pio_value := 0xFFFFFFFF }, st) ∧
          (∀ h, get_vdev st h = get_vdev s h)) ∧
        (∃ st, vpci_pio_cfgdata_write P s vcpu addr bytes val = Except.ok (false, st) ∧
          (∀ h, get_vdev st h = get_vdev s h))) ∧
      (∀ mmio : mmio_request, P.is_plat_hidden_pdev bdf = false →
        mmio_bdf (get_vpci s vpci).pci_mmcfg_base mmio.address = bdf →
        ∃ m st, vpci_mmio_cfg_access P s mmio vpci = Except.ok (-ENODEV, m, st) ∧
          -ENODEV ≠ 0 ∧ st.vms = s.vms)) ∧
    (∀ h, find_available_vdev P s vpci bdf = some h →
      vpci_read_cfg P s vpci bdf offset bytes val =
        (match read_vdev_cfg P (spinlock_obtain s vpci) h offset bytes val with
         | Except.error e => Except.error e
         | Except.ok r => Except.ok (r.1, r.2.1, spinlock_release r.2.2 vpci)) ∧
      vpci_write_cfg P s vpci bdf offset bytes val =
        (match write_vdev_cfg P (spinlock_obtain s vpci) h offset bytes val with
         | Except.error e => Except.error e
         | Except.ok r => Except.ok (r.1, spinlock_release r.2 vpci))) := by
  have hrd : ∀ (st : State) (o b v : Nat), P.is_postlaunched_vm vpci = true →
      find_available_vdev P st vpci bdf = none →
      vpci_read_cfg P st vpci bdf o b v =
        Except.ok (-ENODEV, v, spinlock_release (spinlock_obtain st vpci) vpci) := by
    intro st o b v hpl hfa
    unfold vpci_read_cfg
    simp only [spinlock_obtain, find_available_vdev_log, hfa, hpl, if_true]
  have hwr : ∀ (st : State) (o b v : Nat), P.is_postlaunched_vm vpci = true →
      find_available_vdev P st vpci bdf = none →
      vpci_write_cfg P st vpci bdf o b v =
        Except.ok (-ENODEV, spinlock_release (spinlock_obtain st vpci) vpci) := by
    intro st o b v hpl hfa
    unfold vpci_write_cfg
    simp [spinlock_obtain, find_available_vdev_log, hfa, hpl]
  constructor
  · intro hpl hfa
    refine ⟨hrd s _ _ _ hpl hfa, hwr s _ _ _ hpl hfa, rfl, ?_, ?_, ?_⟩
    · simp [spinlock_release, spinlock_obtain]
    · intro vcpu addr hvm h31 hbdf hva
      subst hvm
      have hg : cfg_addr_enable (atomic_readandclear32 s vcpu.vm).1 ≠ 0 ∧
          vpci_is_valid_access (cfg_addr_reg_num (atomic_readandclear32 s vcpu.vm).1 +
            u16 (addr + 2 ^ 16 - PCI_CONFIG_DATA)) (u32 bytes) = true :=
        ⟨(cfg_addr_enable_ne_zero _).mpr h31, hva⟩
      have hb : cfg_addr_bdf (atomic_readandclear32 s vcpu.vm).1 = bdf := by
        rw [hbdf]; simp [cfg_addr_bdf, atomic_readandclear32, Nat.shiftRight_eq_div_pow]
      have hfa2 : find_available_vdev P (atomic_readandclear32 s vcpu.vm).2 vcpu.vm bdf = none := by
        rw [find_available_vdev_clear_latch]; exact hfa
      have hv : ∀ h, get_vdev (spinlock_release (spinlock_obtain
          (atomic_readandclear32 s vcpu.vm).2 vcpu.vm) vcpu.vm) h = get_vdev s h := by
        intro h
        simp only [spinlock_release, spinlock_obtain, get_vdev_log]
        unfold atomic_readandclear32
        exact get_vdev_set_addr s vcpu.vm 0 h
      constructor
      · refine ⟨_, ?_, hv⟩
        unfold vpci_pio_cfgdata_read
        simp only
        rw [if_pos hg, hb, hrd _ _ _ _ hpl hfa2]
        simp [ENODEV, ALL_ONES]
      · refine ⟨_, ?_, hv⟩
        unfold vpci_pio_cfgdata_write
        simp only
        rw [if_pos hg, hb, hwr _ _ _ _ hpl hfa2]
        simp [ENODEV]
    · intro mmio hh hb
      unfold vpci_mmio_cfg_access
      simp only [hb, hh]
      by_cases hd : mmio.direction = REQUEST_READ
      · simp only [hd, if_true, Bool.not_false, hrd _ _ _ _ hpl hfa]
        exact ⟨_, _, rfl, by decide, rfl⟩
      · simp only [hd, if_false, Bool.not_false, if_true, hwr _ _ _ _ hpl hfa]
        exact ⟨_, _, rfl, by decide, rfl⟩
  · intro h hfa
    constructor
    · unfold vpci_read_cfg
      simp only [spinlock_obtain, find_available_vdev_log, hfa]
    · unfold vpci_write_cfg
      simp only [spinlock_obtain, find_available_vdev_log, hfa]

/-- C10 (witness): the post-launched VM 1 of `s0` has no device at 01:00.0, so its read
returns `-ENODEV`; the service VM has one, so its read is the handler's. -/
theorem C10_guest_miss_witness :
    vpci_read_cfg P0 s0 1 0x100 0 4 7 =
      Except.ok (-ENODEV, 7, spinlock_release (spinlock_obtain s0 1) 1) ∧
    vpci_read_cfg P0 s0 0 0x100 0 4 7 =
      (match read_vdev_cfg P0 (spinlock_obtain s0 0) ⟨0, 0⟩ 0 4 7 with
       | Except.error e => Except.error e
       | Except.ok r => Except.ok (r.1, r.2.1, spinlock_release r.2.2 0)) :=
  ⟨((C10_guest_miss P0 s0 1 0x100 0 4 7).1 (by decide) (by decide)).1,
   ((C10_guest_miss P0 s0 0 0x100 0 4 7).2 ⟨0, 0⟩ (by decide)).1⟩

/-! ## Device registry: claims -/

/-- C2 (the code at the failing input): in `s0_assigned` the instance at 01:00.0 of the service
VM's table is owned by VM 1 and its new-owner link is VM 1's instance; when the service VM and
VM 1 have the same severity, the querying severity is not strictly higher than the new
owner's, and `find_available_vdev` still returns the device to the service VM. -/
theorem C2_equal_severity_is_returned :
    pci_find_vdev s0_assigned 0 0x100 = some ⟨0, 0⟩ ∧
    (get_vdev s0_assigned ⟨0, 0⟩).vpci = some 1 ∧
    (get_vdev s0_assigned ⟨0, 0⟩).new_owner = some ⟨1, 0⟩ ∧
    (get_vdev s0_assigned ⟨1, 0⟩).vpci = some 1 ∧
    P0_same_severity.get_vm_severity 0 = P0_same_severity.get_vm_severity 1 ∧
    find_available_vdev P0_same_severity s0_assigned 0 0x100 = some ⟨0, 0⟩ := by
  decide


/-! ## Ownership transfer: lemmas -/

theorem only_vdev_refl (n : vdev_ref) (s : State) : only_vdev n s s :=
  ⟨same_regs_refl s, fun _ _ => rfl⟩

theorem only_vdev_trans {n : vdev_ref} {s s2 s3 : State} (h1 : only_vdev n s s2)
    (h2 : only_vdev n s2 s3) : only_vdev n s s3 :=
  ⟨same_regs_trans h1.1 h2.1, fun k hk => (h2.2 k hk).trans (h1.2 k hk)⟩

theorem only_vdev_log (n : vdev_ref) (s : State) (e : Event) : only_vdev n s (log s e) :=
  ⟨same_regs_log s e, fun _ _ => rfl⟩

theorem only_vdev_set_vdev (n : vdev_ref) (s : State) (v : pci_vdev) :
    only_vdev n s (set_vdev s n v) :=
  ⟨same_regs_set_vdev s n v, fun k hk => by rw [get_vdev_set_vdev, if_neg hk]⟩

theorem only_vdev_ext_call (P : Platform) (f : ext_fn) (s : State) (n : vdev_ref)
    (args : List Nat) : only_vdev n s (ext_call P f s n args) :=
  only_vdev_trans (only_vdev_set_vdev _ _ _) (only_vdev_log _ _ _)

theorem same_identity_refl (v : pci_vdev) : same_identity v v :=
  ⟨rfl, rfl, rfl, rfl, rfl, rfl, rfl, rfl⟩

theorem same_identity_trans {u v w : pci_vdev} (h1 : same_identity u v)
    (h2 : same_identity v w) : same_identity u w := by
  obtain ⟨a1, a2, a3, a4, a5, a6, a7, a8⟩ := h1
  obtain ⟨b1, b2, b3, b4, b5, b6, b7, b8⟩ := h2
  exact ⟨b1.trans a1, b2.trans a2, b3.trans a3, b4.trans a4, b5.trans a5, b6.trans a6,
    b7.trans a7, b8.trans a8⟩

theorem same_identity_ext_call (P : Platform) (f : ext_fn) (s : State) (n : vdev_ref)
    (args : List Nat) : same_identity (get_vdev s n) (get_vdev (ext_call P f s n args) n) := by
  unfold ext_call
  rw [get_vdev_log, get_vdev_set_vdev_same]
  exact ⟨rfl, rfl, rfl, rfl, rfl, rfl, rfl, rfl⟩

theorem move_pt_device_vms (P : Platform) (s : State) (f t : Option Nat) (b d : Nat) :
    (move_pt_device P s f t b d).2.vms = s.vms := by
  unfold move_pt_device
  simp only
  split <;> rfl

theorem get_vdev_of_vms {s s2 : State} (h : s2.vms = s.vms) (k : vdev_ref) :
    get_vdev s2 k = get_vdev s k := by
  unfold get_vdev get_vpci
  rw [h]

theorem same_regs_of_vms {s s2 : State} (h : s2.vms = s.vms) : same_regs s s2 := by
  intro vm
  unfold get_vpci
  rw [h]
  exact ⟨rfl, rfl, rfl, rfl⟩

theorem only_vdev_of_vms (n : vdev_ref) {s s2 : State} (h : s2.vms = s.vms) : only_vdev n s s2 :=
  ⟨same_regs_of_vms h, fun k _ => get_vdev_of_vms h k⟩

theorem assign_vdev_pt_iommu_domain_vms (P : Platform) (s s2 : State) (n : vdev_ref)
    (h : assign_vdev_pt_iommu_domain P s n = Except.ok s2) : s2.vms = s.vms := by
  unfold assign_vdev_pt_iommu_domain at h
  split at h
  · dsimp only at h
    split at h
    · cases h
    · cases h
      exact move_pt_device_vms _ _ _ _ _ _
  · cases h

theorem remove_vdev_pt_iommu_domain_vms (P : Platform) (s s2 : State) (n : vdev_ref)
    (h : remove_vdev_pt_iommu_domain P s n = Except.ok s2) : s2.vms = s.vms := by
  unfold remove_vdev_pt_iommu_domain at h
  split at h
  · dsimp only at h
    split at h
    · cases h
    · cases h
      exact move_pt_device_vms _ _ _ _ _ _
  · cases h

theorem init_vdev_only (P : Platform) (s s2 : State) (n : vdev_ref)
    (h : init_vdev P s n = Except.ok s2) :
    only_vdev n s s2 ∧ same_identity (get_vdev s n) (get_vdev s2 n) := by
  unfold init_vdev at h
  split at h
  · unfold vpci_init_pt_dev at h
    simp only at h
    have hv := assign_vdev_pt_iommu_domain_vms _ _ _ _ h
    constructor
    · exact only_vdev_trans (only_vdev_trans (only_vdev_trans (only_vdev_trans
        (only_vdev_ext_call _ _ _ _ _) (only_vdev_ext_call _ _ _ _ _))
        (only_vdev_ext_call _ _ _ _ _)) (only_vdev_ext_call _ _ _ _ _)) (only_vdev_of_vms n hv)
    · rw [get_vdev_of_vms hv]
      exact same_identity_trans (same_identity_trans (same_identity_trans
        (same_identity_ext_call _ _ _ _ _) (same_identity_ext_call _ _ _ _ _))
        (same_identity_ext_call _ _ _ _ _)) (same_identity_ext_call _ _ _ _ _)
  · cases h
    exact ⟨only_vdev_ext_call _ _ _ _ _, same_identity_ext_call _ _ _ _ _⟩


theorem get_vdev_set_cnt (s : State) (vm x : Nat) (h : vdev_ref) :
    get_vdev (set_vpci s vm { get_vpci s vm with pci_vdev_cnt := x }) h = get_vdev s h := by
  unfold get_vdev
  by_cases hv : h.vm = vm
  · simp [hv]
  · simp [hv]

theorem vpci_init_vdev_ok (P : Platform) (s s2 : State) (vpci : Nat)
    (cfg : acrn_vm_pci_dev_config) (pf : Option vdev_ref) (n : vdev_ref)
    (h : vpci_init_vdev P s vpci cfg pf = Except.ok (n, s2)) :
    n = ⟨vpci, (get_vpci s vpci).pci_vdev_cnt⟩ ∧
    (get_vpci s vpci).pci_vdev_cnt < P.CONFIG_MAX_PCI_DEV_NUM ∧
    (∀ vm, (get_vpci s2 vm).pci_vdev_cnt =
      if vm = vpci then (get_vpci s vm).pci_vdev_cnt + 1 else (get_vpci s vm).pci_vdev_cnt) ∧
    (∀ vm, (s2.vms vm).iommu = (s.vms vm).iommu) ∧
    (∀ k, k ≠ n → get_vdev s2 k = get_vdev s k) ∧
    (get_vdev s2 n).vpci = some vpci ∧ (get_vdev s2 n).bdf = u16 cfg.vbdf ∧
    (get_vdev s2 n).pdev = cfg.pdev ∧ (get_vdev s2 n).pci_dev_config = cfg ∧
    (get_vdev s2 n).phyfun = pf := by
  unfold vpci_init_vdev at h
  dsimp only at h
  split at h
  · rename_i hlt
    split at h
    · cases h
    · rename_i ops hops
      split at h
      · cases h
      · rename_i s4 hinit
        cases h
        obtain ⟨⟨hregs, hfr⟩, hid⟩ := init_vdev_only _ _ _ _ hinit
        refine ⟨rfl, hlt, ?_, ?_, ?_, ?_, ?_, ?_, ?_, ?_⟩
        · intro vm
          rw [(hregs vm).2.2.1]
          simp only [cnt_set_vdev, get_vpci_set_vpci]
          by_cases hv : vm = vpci
          · simp [hv]
          · simp [hv]
        · intro vm
          rw [(hregs vm).2.2.2]
          simp
        · intro k hk
          rw [hfr k hk, get_vdev_set_vdev, if_neg hk, get_vdev_set_vdev, if_neg hk,
            get_vdev_set_cnt]
        · rw [hid.1]; simp
        · rw [hid.2.1]; simp
        · rw [hid.2.2.1]; simp
        · rw [hid.2.2.2.1]; simp
        · rw [hid.2.2.2.2.1]; simp
  · cases h

theorem assign_bar_only (P : Platform) (pcidev : acrn_assign_pcidev) (h n : vdev_ref)
    (s : State) (idx : Nat) :
    only_vdev n s (assign_bar P pcidev h n s idx) ∧
    same_identity (get_vdev s n) (get_vdev (assign_bar P pcidev h n s idx) n) := by
  unfold assign_bar
  dsimp only
  split
  · split
    · refine ⟨only_vdev_trans (only_vdev_set_vdev _ _ _) (only_vdev_set_vdev _ _ _), ?_⟩
      simp only [get_vdev_set_vdev_same]
      exact ⟨rfl, rfl, rfl, rfl, rfl, rfl, rfl, rfl⟩
    · refine ⟨only_vdev_trans (only_vdev_set_vdev _ _ _) (only_vdev_set_vdev _ _ _), ?_⟩
      simp only [get_vdev_set_vdev_same]
      exact ⟨rfl, rfl, rfl, rfl, rfl, rfl, rfl, rfl⟩
  · refine ⟨only_vdev_set_vdev _ _ _, ?_⟩
    simp only [get_vdev_set_vdev_same]
    exact ⟨rfl, rfl, rfl, rfl, rfl, rfl, rfl, rfl⟩

theorem assign_bar_foldl_only (P : Platform) (pcidev : acrn_assign_pcidev) (h n : vdev_ref)
    (l : List Nat) (s : State) :
    only_vdev n s (l.foldl (assign_bar P pcidev h n) s) ∧
    same_identity (get_vdev s n) (get_vdev (l.foldl (assign_bar P pcidev h n) s) n) := by
  induction l generalizing s with
  | nil => exact ⟨only_vdev_refl _ _, same_identity_refl _⟩
  | cons i l ih =>
    simp only [List.foldl_cons]
    obtain ⟨h1, h2⟩ := assign_bar_only P pcidev h n s i
    obtain ⟨h3, h4⟩ := ih (assign_bar P pcidev h n s i)
    exact ⟨only_vdev_trans h1 h3, same_identity_trans h2 h4⟩

theorem assign_configure_only (P : Platform) (s : State) (pcidev : acrn_assign_pcidev)
    (h n : vdev_ref) : only_vdev n s (assign_configure P s pcidev h n) := by
  unfold assign_configure
  dsimp only
  exact only_vdev_trans (only_vdev_trans (only_vdev_trans (only_vdev_trans
    (only_vdev_set_vdev _ _ _) (only_vdev_set_vdev _ _ _)) (assign_bar_foldl_only _ _ _ _ _ _).1)
    (only_vdev_set_vdev _ _ _)) (only_vdev_set_vdev _ _ _)

theorem assign_transfer_ok (P : Platform) (s s2 : State) (tgt_vm : Nat)
    (pcidev : acrn_assign_pcidev) (h : vdev_ref)
    (hne : h ≠ ⟨tgt_vm, (get_vpci s tgt_vm).pci_vdev_cnt⟩)
    (ht : assign_transfer P s tgt_vm pcidev h = Except.ok s2) :
    (get_vpci s tgt_vm).pci_vdev_cnt < P.CONFIG_MAX_PCI_DEV_NUM ∧
    get_vdev s2 h = { get_vdev s h with
      vpci := some tgt_vm, new_owner := some ⟨tgt_vm, (get_vpci s tgt_vm).pci_vdev_cnt⟩ } ∧
    (∀ k, k ≠ h → k ≠ ⟨tgt_vm, (get_vpci s tgt_vm).pci_vdev_cnt⟩ → get_vdev s2 k = get_vdev s k) ∧
    (∀ vm, (get_vpci s2 vm).pci_vdev_cnt =
      if vm = tgt_vm then (get_vpci s vm).pci_vdev_cnt + 1 else (get_vpci s vm).pci_vdev_cnt) ∧
    (∀ vm, (s2.vms vm).iommu = (s.vms vm).iommu) := by
  unfold assign_transfer at ht
  dsimp only at ht
  split at ht
  · cases ht
  · rename_i r hr
    obtain ⟨n, s3⟩ := r
    cases ht
    obtain ⟨hn, hlt, hcnt, hdom, hfr, -⟩ := vpci_init_vdev_ok _ _ _ _ _ _ _ hr
    simp only [spinlock_obtain, get_vpci_log, cnt_set_vdev, vms_log, vm_iommu_set_vdev,
      get_vdev_log] at hn hlt hcnt hdom hfr
    subst hn
    obtain ⟨hregs, hfr2⟩ := assign_configure_only P s3 pcidev h
      ⟨tgt_vm, (get_vpci s tgt_vm).pci_vdev_cnt⟩
    have hh : get_vdev (assign_configure P s3 pcidev h
        ⟨tgt_vm, (get_vpci s tgt_vm).pci_vdev_cnt⟩) h =
        { get_vdev s h with vpci := some tgt_vm } := by
      rw [hfr2 h hne, hfr h hne, get_vdev_set_vdev_same]
    refine ⟨hlt, ?_, ?_, ?_, ?_⟩
    · simp only [spinlock_release, get_vdev_log, get_vdev_set_vdev_same, hh]
    · intro k hk1 hk2
      simp only [spinlock_release, get_vdev_log]
      rw [get_vdev_set_vdev, if_neg hk1, get_vdev_log, hfr2 k hk2, hfr k hk2, get_vdev_set_vdev,
        if_neg hk1]
    · intro vm
      simp only [spinlock_release, get_vpci_log, cnt_set_vdev]
      rw [(hregs vm).2.2.1, hcnt vm]
    · intro vm
      simp only [spinlock_release, vms_log, vm_iommu_set_vdev]
      rw [(hregs vm).2.2.2, hdom vm]


theorem move_pt_device_ok (P : Platform) (s : State) (f t : Option Nat) (b d : Nat)
    (hst : P.move_pt_status s.iommu f t b d = 0) :
    move_pt_device P s f t b d =
      (0, { log s (Event.move_pt_device f t b d) with
        iommu := iommu_attach (iommu_detach s.iommu f b d) t b d }) := by
  unfold move_pt_device
  simp only [hst, if_true]

theorem assign_vdev_pt_iommu_domain_returns (P : Platform) (s : State) (n : vdev_ref)
    (vm : Nat) (pd : pci_pdev) (hv : (get_vdev s n).vpci = some vm)
    (hp : (get_vdev s n).pdev = some pd)
    (hmove : ∀ m f t b d, P.move_pt_status m f t b d = 0) :
    ∃ s2, assign_vdev_pt_iommu_domain P s n = Except.ok s2 := by
  unfold assign_vdev_pt_iommu_domain
  rw [hv, hp]
  dsimp only
  rw [move_pt_device_ok _ _ _ _ _ _ (hmove _ _ _ _ _)]
  exact ⟨_, rfl⟩

theorem init_vdev_returns (P : Platform) (s : State) (n : vdev_ref)
    (hp : (get_vdev s n).vdev_ops = pci_vdev_ops.pci_pt_dev_ops →
      (get_vdev s n).vpci ≠ none ∧ (get_vdev s n).pdev ≠ none)
    (hmove : ∀ m f t b d, P.move_pt_status m f t b d = 0) :
    ∃ s2, init_vdev P s n = Except.ok s2 := by
  unfold init_vdev
  split
  · rename_i hops
    obtain ⟨h1, h2⟩ := hp hops
    obtain ⟨vm, hvm⟩ := Option.ne_none_iff_exists'.mp h1
    obtain ⟨pd, hpd⟩ := Option.ne_none_iff_exists'.mp h2
    unfold vpci_init_pt_dev
    dsimp only
    have hid := same_identity_trans (same_identity_trans (same_identity_trans
        (same_identity_ext_call P ext_fn.init_vmsi s n []) (same_identity_ext_call P ext_fn.init_vmsix _ n []))
        (same_identity_ext_call P ext_fn.init_vsriov _ n [])) (same_identity_ext_call P ext_fn.init_vdev_pt _ n [0])
    exact assign_vdev_pt_iommu_domain_returns P _ n vm pd (hid.1.trans hvm)
      (hid.2.2.1.trans hpd) hmove
  · exact ⟨_, rfl⟩

theorem init_vdev_no_fault (P : Platform) (s : State) (n : vdev_ref)
    (hp : (get_vdev s n).vdev_ops = pci_vdev_ops.pci_pt_dev_ops →
      (get_vdev s n).vpci ≠ none ∧ (get_vdev s n).pdev ≠ none)
    (hmove : ∀ m f t b d, P.move_pt_status m f t b d = 0) (e : Fault) :
    init_vdev P s n ≠ Except.error e := by
  obtain ⟨s2, hs2⟩ := init_vdev_returns P s n hp hmove
  rw [hs2]
  exact fun h => by cases h

theorem vpci_init_vdev_returns (P : Platform) (s : State) (vpci : Nat)
    (cfg : acrn_vm_pci_dev_config) (pf : Option vdev_ref)
    (hroom : (get_vpci s vpci).pci_vdev_cnt < P.CONFIG_MAX_PCI_DEV_NUM)
    (hcfg : cfg.vdev_ops ≠ none ∨ cfg.pdev ≠ none)
    (hmove : ∀ m f t b d, P.move_pt_status m f t b d = 0) :
    ∃ r, vpci_init_vdev P s vpci cfg pf = Except.ok r := by
  unfold vpci_init_vdev
  dsimp only
  rw [if_pos hroom]
  simp only [get_vdev_set_vdev_same]
  have hsel : ∃ o, select_vdev_ops cfg cfg.pdev = Except.ok o ∧
      (o = pci_vdev_ops.pci_pt_dev_ops → cfg.pdev ≠ none) := by
    unfold select_vdev_ops
    cases hops : cfg.vdev_ops with
    | some id => exact ⟨_, rfl, fun h => by cases h⟩
    | none =>
      cases hpd : cfg.pdev with
      | none => rw [hops, hpd] at hcfg; simp at hcfg
      | some pd =>
        dsimp only
        split
        · exact ⟨_, rfl, fun h => by cases h⟩
        · exact ⟨_, rfl, fun _ => by simp⟩
  obtain ⟨o, ho, hopt⟩ := hsel
  rw [ho]
  dsimp only
  split
  · rename_i e heq
    refine absurd heq (init_vdev_no_fault P _ _ ?_ hmove e)
    intro hpt
    rw [get_vdev_set_vdev_same] at hpt ⊢
    exact ⟨by simp, hopt hpt⟩
  · exact ⟨_, rfl⟩

theorem assign_transfer_returns (P : Platform) (s : State) (tgt_vm : Nat)
    (pcidev : acrn_assign_pcidev) (h : vdev_ref)
    (hroom : (get_vpci s tgt_vm).pci_vdev_cnt < P.CONFIG_MAX_PCI_DEV_NUM)
    (hcfg : (get_vdev s h).pci_dev_config.vdev_ops ≠ none ∨
      (get_vdev s h).pci_dev_config.pdev ≠ none)
    (hmove : ∀ m f t b d, P.move_pt_status m f t b d = 0) :
    ∃ s2, assign_transfer P s tgt_vm pcidev h = Except.ok s2 := by
  unfold assign_transfer
  dsimp only
  obtain ⟨r, hr⟩ := vpci_init_vdev_returns P
    (spinlock_obtain (set_vdev s h { get_vdev s h with vpci := some tgt_vm }) tgt_vm) tgt_vm
    (get_vdev (spinlock_obtain (set_vdev s h { get_vdev s h with vpci := some tgt_vm }) tgt_vm)
      h).pci_dev_config
    (get_vdev (spinlock_obtain (set_vdev s h { get_vdev s h with vpci := some tgt_vm }) tgt_vm)
      h).phyfun
    (by simpa [spinlock_obtain] using hroom)
    (by simpa [spinlock_obtain] using hcfg) hmove
  rw [hr]
  exact ⟨_, rfl⟩

theorem remove_vdev_pt_iommu_domain_returns (P : Platform) (s : State) (n : vdev_ref)
    (vm : Nat) (pd : pci_pdev) (hv : (get_vdev s n).vpci = some vm)
    (hp : (get_vdev s n).pdev = some pd)
    (hmove : ∀ m f t b d, P.move_pt_status m f t b d = 0) :
    ∃ s2, remove_vdev_pt_iommu_domain P s n = Except.ok s2 := by
  unfold remove_vdev_pt_iommu_domain
  rw [hv, hp]
  dsimp only
  rw [move_pt_device_ok _ _ _ _ _ _ (hmove _ _ _ _ _)]
  exact ⟨_, rfl⟩

theorem vpci_assign_pcidev_found (P : Platform) (s : State) (tgt_vm : Nat)
    (pcidev : acrn_assign_pcidev) (h : vdev_ref) (pdev : pci_pdev)
    (hfind : pci_find_vdev s P.sos_vm_id (u16 pcidev.phys_bdf) = some h)
    (hown : (get_vdev s h).vpci = some P.sos_vm_id)
    (hpdev : (get_vdev s h).pdev = some pdev)
    (hsriov : P.has_sriov_cap (get_vdev s h) = false) :
    vpci_assign_pcidev P s tgt_vm pcidev =
      (match remove_vdev_pt_iommu_domain P
          (assign_reset_check (spinlock_obtain s P.sos_vm_id) pdev) h with
       | Except.error e => Except.error e
       | Except.ok s3 =>
         match assign_transfer P s3 tgt_vm pcidev h with
         | Except.error e => Except.error e
         | Except.ok s4 => Except.ok (0, spinlock_release s4 P.sos_vm_id)) := by
  unfold vpci_assign_pcidev
  simp only [spinlock_obtain, pci_find_vdev_log, get_vdev_log, hfind, hpdev, is_own_device,
    hown, hsriov, decide_True, and_self, if_true]

theorem vpci_assign_pcidev_zero (P : Platform) (s s1 : State) (tgt_vm : Nat)
    (pcidev : acrn_assign_pcidev)
    (ha : vpci_assign_pcidev P s tgt_vm pcidev = Except.ok (0, s1)) :
    ∃ h pdev, pci_find_vdev s P.sos_vm_id (u16 pcidev.phys_bdf) = some h ∧
      (get_vdev s h).vpci = some P.sos_vm_id ∧ (get_vdev s h).pdev = some pdev ∧
      P.has_sriov_cap (get_vdev s h) = false := by
  unfold vpci_assign_pcidev at ha
  simp only [spinlock_obtain, pci_find_vdev_log, get_vdev_log] at ha
  have hne : (-ENODEV : Int) ≠ 0 := by decide
  cases hfind : pci_find_vdev s P.sos_vm_id (u16 pcidev.phys_bdf) with
  | none =>
    rw [hfind] at ha
    simp only [Except.ok.injEq, Prod.mk.injEq] at ha
    exact absurd ha.1 hne
  | some h =>
    rw [hfind] at ha
    dsimp only at ha
    cases hpd : (get_vdev s h).pdev with
    | none =>
      rw [hpd] at ha
      simp only [Except.ok.injEq, Prod.mk.injEq] at ha
      exact absurd ha.1 hne
    | some pdev =>
      rw [hpd] at ha
      dsimp only at ha
      split at ha
      · rename_i hc
        refine ⟨h, pdev, rfl, ?_, hpd, hc.2⟩
        simpa [is_own_device] using hc.1
      · simp only [Except.ok.injEq, Prod.mk.injEq] at ha
        exact absurd ha.1 hne


theorem assign_reset_check_vms (s : State) (pdev : pci_pdev) :
    (assign_reset_check s pdev).vms = s.vms := by
  unfold assign_reset_check
  split <;> rfl

theorem found_ne_new (s : State) (vpci bdf tgt_vm : Nat) (h : vdev_ref)
    (hfind : pci_find_vdev s vpci bdf = some h) :
    h ≠ ⟨tgt_vm, (get_vpci s tgt_vm).pci_vdev_cnt⟩ := by
  obtain ⟨hvm, hidx, -⟩ := pci_find_vdev_some s vpci bdf h hfind
  intro heq
  rw [heq] at hvm hidx
  simp only at hvm hidx
  subst hvm
  exact Nat.lt_irrefl _ hidx

theorem vpci_assign_pcidev_ok (P : Platform) (s s1 : State) (tgt_vm : Nat)
    (pcidev : acrn_assign_pcidev)
    (ha : vpci_assign_pcidev P s tgt_vm pcidev = Except.ok (0, s1)) :
    ∃ h pdev, pci_find_vdev s P.sos_vm_id (u16 pcidev.phys_bdf) = some h ∧
      (get_vdev s h).vpci = some P.sos_vm_id ∧ (get_vdev s h).pdev = some pdev ∧
      P.has_sriov_cap (get_vdev s h) = false ∧
      (get_vpci s tgt_vm).pci_vdev_cnt < P.CONFIG_MAX_PCI_DEV_NUM ∧
      get_vdev s1 h = { get_vdev s h with
        vpci := some tgt_vm, new_owner := some ⟨tgt_vm, (get_vpci s tgt_vm).pci_vdev_cnt⟩ } ∧
      (∀ k, k ≠ h → k ≠ ⟨tgt_vm, (get_vpci s tgt_vm).pci_vdev_cnt⟩ →
        get_vdev s1 k = get_vdev s k) ∧
      (∀ vm, (get_vpci s1 vm).pci_vdev_cnt =
        if vm = tgt_vm then (get_vpci s vm).pci_vdev_cnt + 1 else (get_vpci s vm).pci_vdev_cnt) ∧
      (∀ vm, (s1.vms vm).iommu = (s.vms vm).iommu) := by
  obtain ⟨h, pdev, hfind, hown, hpdev, hsriov⟩ := vpci_assign_pcidev_zero P s s1 tgt_vm pcidev ha
  rw [vpci_assign_pcidev_found P s tgt_vm pcidev h pdev hfind hown hpdev hsriov] at ha
  split at ha
  · cases ha
  · rename_i s3 hs3
    split at ha
    · cases ha
    · rename_i s4 hs4
      simp only [Except.ok.injEq, Prod.mk.injEq, true_and] at ha
      subst ha
      have hv3 : s3.vms = s.vms := by
        rw [remove_vdev_pt_iommu_domain_vms P _ s3 h hs3, assign_reset_check_vms]
        rfl
      have hg3 : ∀ k, get_vdev s3 k = get_vdev s k := fun k => get_vdev_of_vms hv3 k
      have hc3 : ∀ vm, get_vpci s3 vm = get_vpci s vm := by
        intro vm; unfold get_vpci; rw [hv3]
      have hne := found_ne_new s P.sos_vm_id (u16 pcidev.phys_bdf) tgt_vm h hfind
      obtain ⟨hlt, hh, hfr, hcnt, hdom⟩ := assign_transfer_ok P s3 s4 tgt_vm pcidev h
        (by rw [hc3]; exact hne) hs4
      simp only [hc3, hg3, hv3] at hlt hh hfr hcnt hdom
      exact ⟨h, pdev, hfind, hown, hpdev, hsriov, hlt, hh, hfr, hcnt, hdom⟩

theorem vpci_assign_pcidev_returns (P : Platform) (s : State) (tgt_vm : Nat)
    (pcidev : acrn_assign_pcidev) (h : vdev_ref) (pdev : pci_pdev)
    (hfind : pci_find_vdev s P.sos_vm_id (u16 pcidev.phys_bdf) = some h)
    (hown : (get_vdev s h).vpci = some P.sos_vm_id)
    (hpdev : (get_vdev s h).pdev = some pdev)
    (hsriov : P.has_sriov_cap (get_vdev s h) = false)
    (hroom : (get_vpci s tgt_vm).pci_vdev_cnt < P.CONFIG_MAX_PCI_DEV_NUM)
    (hcfg : (get_vdev s h).pci_dev_config.vdev_ops ≠ none ∨
      (get_vdev s h).pci_dev_config.pdev ≠ none)
    (hmove : ∀ m f t b d, P.move_pt_status m f t b d = 0) :
    ∃ s1, vpci_assign_pcidev P s tgt_vm pcidev = Except.ok (0, s1) := by
  rw [vpci_assign_pcidev_found P s tgt_vm pcidev h pdev hfind hown hpdev hsriov]
  have hvA : (assign_reset_check (spinlock_obtain s P.sos_vm_id) pdev).vms = s.vms := by
    rw [assign_reset_check_vms]; rfl
  obtain ⟨s3, hs3⟩ := remove_vdev_pt_iommu_domain_returns P
    (assign_reset_check (spinlock_obtain s P.sos_vm_id) pdev) h P.sos_vm_id pdev
    (by rw [get_vdev_of_vms hvA]; exact hown) (by rw [get_vdev_of_vms hvA]; exact hpdev) hmove
  rw [hs3]
  have hv3 : s3.vms = s.vms := by
    rw [remove_vdev_pt_iommu_domain_vms P _ s3 h hs3, hvA]
  have hc3 : ∀ vm, get_vpci s3 vm = get_vpci s vm := by
    intro vm; unfold get_vpci; rw [hv3]
  obtain ⟨s4, hs4⟩ := assign_transfer_returns P s3 tgt_vm pcidev h
    (by rw [hc3]; exact hroom) (by rw [get_vdev_of_vms hv3]; exact hcfg) hmove
  simp only [hs4]
  exact ⟨_, rfl⟩

/-- C1 (as amended): `vpci_assign_pcidev` on a device that is found in the privileged VM's
table, is owned by the privileged VM, has a physical device and no SR-IOV capability, but
whose physical device reports none of PM reset, FLR and AF-FLR, only logs a fatal message in
the place of the BAR restore and then performs the assignment: when the target's table has
room, the instance's configuration names a physical device or an operation set, and the IOMMU
moves succeed, it returns 0, the target VM's device count has grown by one, the source
instance's owning reference is the target VM's vpci and its new-owner link is the new entry of
the target's table. -/
theorem C1_no_reset_still_assigns (P : Platform) (s : State) (tgt_vm : Nat)
    (pcidev : acrn_assign_pcidev) (h : vdev_ref) (pdev : pci_pdev)
    (hfind : pci_find_vdev s P.sos_vm_id (u16 pcidev.phys_bdf) = some h)
    (hown : (get_vdev s h).vpci = some P.sos_vm_id)
    (hpdev : (get_vdev s h).pdev = some pdev)
    (hsriov : P.has_sriov_cap (get_vdev s h) = false)
    (hnoreset : pdev.has_pm_reset = false ∧ pdev.has_flr = false ∧ pdev.has_af_flr = false)
    (hroom : (get_vpci s tgt_vm).pci_vdev_cnt < P.CONFIG_MAX_PCI_DEV_NUM)
    (hcfg : (get_vdev s h).pci_dev_config.vdev_ops ≠ none ∨
      (get_vdev s h).pci_dev_config.pdev ≠ none)
    (hmove : ∀ m f t b d, P.move_pt_status m f t b d = 0) :
    assign_reset_check (spinlock_obtain s P.sos_vm_id) pdev =
      log (spinlock_obtain s P.sos_vm_id) Event.pr_fatal ∧
    ∃ s1, vpci_assign_pcidev P s tgt_vm pcidev = Except.ok (0, s1) ∧
      (get_vpci s1 tgt_vm).pci_vdev_cnt = (get_vpci s tgt_vm).pci_vdev_cnt + 1 ∧
      (get_vdev s1 h).vpci = some tgt_vm ∧
      (get_vdev s1 h).new_owner = some ⟨tgt_vm, (get_vpci s tgt_vm).pci_vdev_cnt⟩ := by
  constructor
  · unfold assign_reset_check
    simp [hnoreset.1, hnoreset.2.1, hnoreset.2.2]
  · obtain ⟨s1, hs1⟩ := vpci_assign_pcidev_returns P s tgt_vm pcidev h pdev hfind hown hpdev
      hsriov hroom hcfg hmove
    obtain ⟨h2, pdev2, hfind2, -, -, -, -, hh, -, hcnt, -⟩ :=
      vpci_assign_pcidev_ok P s s1 tgt_vm pcidev hs1
    have heq : h2 = h := by
      rw [hfind] at hfind2
      exact (Option.some.inj hfind2).symm
    subst heq
    refine ⟨s1, hs1, ?_, ?_, ?_⟩
    · rw [hcnt tgt_vm, if_pos rfl]
    · rw [hh]
    · rw [hh]

/-- C1 (counterexample to the claim as stated): in `s0_noreset` the device 01:00.0 is in the
service VM's table, owned by it, with a physical device that has no reset capability and no
SR-IOV capability; `vpci_assign_pcidev` to VM 1 returns 0, VM 1's count goes from 0 to 1, and
the source instance's owning reference and new-owner link change to VM 1 and its new entry. -/
theorem C1_no_reset_counterexample :
    pci_find_vdev s0_noreset P0.sos_vm_id (u16 pc0.phys_bdf) = some ⟨0, 0⟩ ∧
    (get_vdev s0_noreset ⟨0, 0⟩).vpci = some P0.sos_vm_id ∧
    (get_vdev s0_noreset ⟨0, 0⟩).new_owner = none ∧
    (get_vdev s0_noreset ⟨0, 0⟩).pdev = some pdev_noreset ∧
    P0.has_sriov_cap (get_vdev s0_noreset ⟨0, 0⟩) = false ∧
    pdev_noreset.has_pm_reset = false ∧ pdev_noreset.has_flr = false ∧
    pdev_noreset.has_af_flr = false ∧
    (get_vpci s0_noreset 1).pci_vdev_cnt = 0 ∧
    (match vpci_assign_pcidev P0 s0_noreset 1 pc0 with
     | Except.ok r => (r.1, (get_vpci r.2 1).pci_vdev_cnt, (get_vdev r.2 ⟨0, 0⟩).vpci,
         (get_vdev r.2 ⟨0, 0⟩).new_owner)
     | Except.error _ => (1, 0, none, none)) = (0, 1, some 1, some ⟨1, 0⟩) := by
  decide

/-- C1 (witness): the amended statement at `s0_noreset`, target VM 1. -/
theorem C1_no_reset_still_assigns_witness :
    ∃ s1, vpci_assign_pcidev P0 s0_noreset 1 pc0 = Except.ok (0, s1) ∧
      (get_vpci s1 1).pci_vdev_cnt = (get_vpci s0_noreset 1).pci_vdev_cnt + 1 ∧
      (get_vdev s1 ⟨0, 0⟩).vpci = some 1 ∧
      (get_vdev s1 ⟨0, 0⟩).new_owner = some ⟨1, (get_vpci s0_noreset 1).pci_vdev_cnt⟩ :=
  (C1_no_reset_still_assigns P0 s0_noreset 1 pc0 ⟨0, 0⟩ pdev_noreset (by decide) (by decide)
    (by decide) (by decide) (by decide) (by decide) (by decide) (fun _ _ _ _ _ => rfl)).2

/-- C4 (the code at the failing input): with a table of one slot per VM, the service VM's table
of `s0` is full; its count satisfies the documented precondition `pci_vdev_cnt <=
CONFIG_MAX_PCI_DEV_NUM`, and `vpci_init_vdev` stores to the slot at index 1, past the end of
the table.  Starting from `s0`, `vpci_assign_pcidev` and `vpci_deassign_pcidev` of 01:00.0
for VM 1 both return 0 and leave VM 1's count at 1, for the deassignment does not remove
the entry; the next `vpci_assign_pcidev` then stores past the end of VM 1's table. -/
theorem C4_full_table_store_out_of_bounds :
    (get_vpci s0 0).pci_vdev_cnt ≤ P0_one_slot.CONFIG_MAX_PCI_DEV_NUM ∧
    vpci_init_vdev P0_one_slot s0 0 cfg0 none = Except.error Fault.out_of_bounds ∧
    (match vpci_assign_pcidev P0_one_slot s0 1 pc0 with
     | Except.ok ra =>
       match vpci_deassign_pcidev P0_one_slot ra.2 1 pc0 with
       | Except.ok rb =>
         (some (ra.1, rb.1, (get_vpci rb.2 1).pci_vdev_cnt),
          match vpci_assign_pcidev P0_one_slot rb.2 1 pc0 with
          | Except.ok _ => none
          | Except.error e => some e)
       | Except.error _ => (none, none)
     | Except.error _ => (none, none)) = (some (0, 0, 1), some Fault.out_of_bounds) :=
  ⟨by decide, rfl, by decide⟩


/-! ## Pass-through device handler: lemmas -/

theorem u32_u32 (x : Nat) : u32 (u32 x) = u32 x := by
  unfold u32
  exact Nat.mod_mod _ _

theorem and_three_eq_mod (offset : Nat) : offset &&& 0x3 = offset % 4 :=
  Nat.and_pow_two_sub_one_eq_mod offset 2

theorem slot_eq (offset : Nat) (h : offset < PCI_CFG_HEADER_LENGTH) :
    u16 offset >>> 2 = offset / 4 := by
  unfold PCI_CFG_HEADER_LENGTH at h
  unfold u16
  rw [Nat.shiftRight_eq_div_pow, Nat.mod_eq_of_lt (by omega)]

theorem bitmap32_test_slot (offset mask : Nat) (h : offset < PCI_CFG_HEADER_LENGTH) :
    bitmap32_test (u16 offset >>> 2) mask = mask.testBit (offset / 4) := by
  unfold bitmap32_test
  rw [slot_eq offset h]
  unfold PCI_CFG_HEADER_LENGTH at h
  rw [Nat.mod_eq_of_lt (by omega)]

theorem read_vcfg_four (v : pci_vdev) (offset : Nat) :
    pci_vdev_read_vcfg v offset 4 =
      v.cfgdata offset % 256 + (v.cfgdata (offset + 1) % 256) * 2 ^ 8 +
      (v.cfgdata (offset + 2) % 256) * 2 ^ 16 + (v.cfgdata (offset + 3) % 256) * 2 ^ 24 := by
  unfold pci_vdev_read_vcfg
  simp [List.range_succ, Nat.shiftLeft_eq]
  omega

theorem vpci_read_cfg_hit (P : Platform) (s : State) (vpci bdf offset bytes val : Nat)
    (h : vdev_ref) (hfa : find_available_vdev P s vpci bdf = some h) :
    vpci_read_cfg P s vpci bdf offset bytes val =
      (match read_vdev_cfg P (spinlock_obtain s vpci) h offset bytes val with
       | Except.error e => Except.error e
       | Except.ok r => Except.ok (r.1, r.2.1, spinlock_release r.2.2 vpci)) := by
  unfold vpci_read_cfg
  simp only [spinlock_obtain, find_available_vdev_log, hfa]

theorem pt_mask_slots (k : Nat) (hk : k < 16) :
    cfg_hdr_perm_pt_mask.testBit k = decide (k = 1) := by
  interval_cases k <;> decide

theorem vpci_read_cfg_miss (P : Platform) (s : State) (vpci bdf offset bytes val : Nat)
    (hfa : find_available_vdev P s vpci bdf = none) :
    vpci_read_cfg P s vpci bdf offset bytes val =
      Except.ok (if P.is_postlaunched_vm vpci then -ENODEV else 0, val,
        spinlock_release (spinlock_obtain s vpci) vpci) := by
  unfold vpci_read_cfg
  simp only [spinlock_obtain, find_available_vdev_log, hfa]

/-! ## Config-space dispatcher and pass-through device handler: claims -/

/-- C11 (the code at the failing input): on the service VM of `s0` there is no device at
02:00.0.  A 4-byte ECAM read of that function, with the request's value field at 0, returns
status 0 and leaves the value at 0: `vpci_read_cfg` does not store to `*val` on a miss and
`vpci_mmio_cfg_access` passes the request's own value field.  The port-I/O data-register read
of the same function returns all-ones, because `vpci_pio_cfgdata_read` starts from `~0U`. -/
theorem C11_ecam_read_miss_keeps_value :
    P0.is_postlaunched_vm 0 = false ∧
    mmio_bdf (get_vpci s0 0).pci_mmcfg_base 0xE0200000 = 0x200 ∧
    find_available_vdev P0 s0 0 0x200 = none ∧
    (match vpci_mmio_cfg_access P0 s0 ⟨REQUEST_READ, 0xE0200000, 4, 0⟩ 0 with
     | Except.ok r => some (r.1, r.2.1.value)
     | Except.error _ => none) = some (0, 0) ∧
    (match vpci_pio_cfgdata_read P0 (set_vpci s0 0 { get_vpci s0 0 with addr := 0x80020000 })
        ⟨0, 0⟩ PCI_CONFIG_DATA 4 with
     | Except.ok r => some (r.1, r.2.1.pio_value)
     | Except.error _ => none) = some (true, 0xFFFFFFFF) := by
  decide

/-- C12: BAR access rule.  At an offset that is a BAR access, a read or write whose width is
not 4 or whose offset is not a multiple of 4 leaves the whole state as it is (emulated BARs,
virtual config buffer, trace of physical accesses); the read returns all-ones.  With width 4
and an aligned offset the read returns the emulated BAR value of index
`pci_bar_index(offset)`, the state unchanged, and the write is the call of
`vdev_pt_write_vbar` for that index. -/
theorem C12_bar_access_rule (P : Platform) (s : State) (h : vdev_ref) (offset bytes val : Nat)
    (hbar : P.vbar_access (get_vdev s h) offset = true) :
    (¬ (bytes = 4 ∧ offset % 4 = 0) →
      read_cfg_header P s h offset bytes = Except.ok (0xFFFFFFFF, s) ∧
      write_cfg_header P s h offset bytes val = Except.ok s) ∧
    ((bytes = 4 ∧ offset % 4 = 0) →
      read_cfg_header P s h offset bytes =
        Except.ok (u32 (P.pci_vdev_read_vbar (get_vdev s h) (P.pci_bar_index offset)), s) ∧
      write_cfg_header P s h offset bytes val =
        Except.ok (ext_call P ext_fn.vdev_pt_write_vbar s h [P.pci_bar_index offset, val])) := by
  constructor
  · intro hn
    have hn2 : ¬ (bytes = 4 ∧ offset &&& 0x3 = 0) := by rw [and_three_eq_mod]; exact hn
    constructor
    · unfold read_cfg_header
      simp only [hbar, if_true]
      rw [if_neg hn2]
      rfl
    · unfold write_cfg_header
      simp only [hbar, if_true]
      rw [if_neg hn2]
  · intro hy
    have hy2 : bytes = 4 ∧ offset &&& 0x3 = 0 := by rw [and_three_eq_mod]; exact hy
    constructor
    · unfold read_cfg_header
      simp only [hbar, if_true]
      rw [if_pos hy2]
    · unfold write_cfg_header
      simp only [hbar, if_true]
      rw [if_pos hy2]

/-- C12 (witness): the 4-byte access at offset 0x11 of the instance with six BARs in
`s0_bars`. -/
theorem C12_bar_access_rule_witness :
    read_cfg_header P0 s0_bars ⟨0, 0⟩ 0x11 4 = Except.ok (0xFFFFFFFF, s0_bars) ∧
    write_cfg_header P0 s0_bars ⟨0, 0⟩ 0x11 4 7 = Except.ok s0_bars :=
  (C12_bar_access_rule P0 s0_bars ⟨0, 0⟩ 0x11 4 7 (by decide)).1 (by decide)

/-- C16 (as amended): a 4-byte config read at register offset 0x00 of a pass-through device
that is visible to the reading VM (through `vpci_read_cfg`, `read_pt_dev_cfg` and
`read_cfg_header`, and through ECAM at `mmcfg_base + (bdf << 12) + 0x00` for a 4 KiB-aligned
base) returns, with status 0, the word that the device's virtual config buffer holds at
offsets 0x00..0x03 (little-endian); the physical device's config space is not read: the trace
gains only the lock and its release.  Offset 0x00 is not a BAR. -/
theorem C16_vendor_device_id_read (P : Platform) (s : State) (vpci bdf val : Nat) (h : vdev_ref)
    (hfa : find_available_vdev P s vpci bdf = some h)
    (hops : (get_vdev s h).vdev_ops = pci_vdev_ops.pci_pt_dev_ops)
    (hnb : P.vbar_access (get_vdev s h) 0 = false) :
    vpci_read_cfg P s vpci bdf 0 4 val =
      Except.ok (0, u32 (pci_vdev_read_vcfg (get_vdev s h) 0 4),
        spinlock_release (spinlock_obtain s vpci) vpci) ∧
    pci_vdev_read_vcfg (get_vdev s h) 0 4 =
      (get_vdev s h).cfgdata 0 % 256 + ((get_vdev s h).cfgdata 1 % 256) * 2 ^ 8 +
      ((get_vdev s h).cfgdata 2 % 256) * 2 ^ 16 + ((get_vdev s h).cfgdata 3 % 256) * 2 ^ 24 ∧
    (spinlock_release (spinlock_obtain s vpci) vpci).trace =
      s.trace ++ [Event.spinlock_obtain vpci, Event.spinlock_release vpci] ∧
    (∀ mmio : mmio_request, mmio.direction = REQUEST_READ → mmio.size = 4 →
      bdf < 2 ^ 16 → (get_vpci s vpci).pci_mmcfg_base % 2 ^ 12 = 0 →
      mmio.address = (get_vpci s vpci).pci_mmcfg_base + bdf * 2 ^ 12 + 0x00 →
      P.is_plat_hidden_pdev bdf = false →
      vpci_mmio_cfg_access P s mmio vpci =
        Except.ok (0, { mmio with value :=
            mmio.value / 2 ^ 32 * 2 ^ 32 + u32 (pci_vdev_read_vcfg (get_vdev s h) 0 4) },
          spinlock_release (spinlock_obtain s vpci) vpci)) := by
  have hrd : ∀ v, vpci_read_cfg P s vpci bdf 0 4 v =
      Except.ok (0, u32 (pci_vdev_read_vcfg (get_vdev s h) 0 4),
        spinlock_release (spinlock_obtain s vpci) vpci) := by
    intro v
    rw [vpci_read_cfg_hit P s vpci bdf 0 4 v h hfa]
    have h1 : read_vdev_cfg P (spinlock_obtain s vpci) h 0 4 v =
        Except.ok (0, u32 (pci_vdev_read_vcfg (get_vdev s h) 0 4), spinlock_obtain s vpci) := by
      unfold read_vdev_cfg
      simp only [spinlock_obtain, get_vdev_log, hops]
      unfold read_pt_dev_cfg
      have hh : cfg_header_access 0 = true := by decide
      simp only [hh, if_true]
      unfold read_cfg_header
      have hb : bitmap32_test (u16 0 >>> 2) cfg_hdr_perm_pt_mask = false := by decide
      simp only [get_vdev_log, hnb, hb, Bool.false_eq_true, if_false]
    rw [h1]
  refine ⟨hrd val, ?_, ?_, ?_⟩
  · have := read_vcfg_four (get_vdev s h) 0
    simpa using this
  · simp [spinlock_release, spinlock_obtain]
  · intro mmio hd hsz hb hbase haddr hhid
    have hbdf : mmio_bdf (get_vpci s vpci).pci_mmcfg_base mmio.address = bdf := by
      unfold mmio_bdf u16
      rw [haddr, Nat.shiftRight_eq_div_pow]
      have : ((get_vpci s vpci).pci_mmcfg_base + bdf * 2 ^ 12 + 0x00 + 2 ^ 64 -
          (get_vpci s vpci).pci_mmcfg_base) % 2 ^ 64 = bdf * 2 ^ 12 := by omega
      rw [this]
      omega
    have hreg : mmio_reg_num mmio.address = 0 := by
      unfold mmio_reg_num u32
      have := Nat.and_pow_two_sub_one_eq_mod mmio.address 12
      norm_num at this
      rw [this, haddr]
      omega
    unfold vpci_mmio_cfg_access
    simp only [hd, if_true, hbdf, hreg, hhid, Bool.not_false, hsz]
    have h4 : u32 4 = 4 := by decide
    rw [h4, hrd]
    dsimp only
    rw [u32_u32]

/-- C16 (counterexample to the claim as stated): the virtual config buffer of the instance in
`s0_ids` holds 0x12348086 at offset 0x00 while the physical device would answer 0x56788086;
the 4-byte ECAM read at `0xE0000000 + (0x100 << 12)` returns 0x12348086 with status 0 and
performs no physical read. -/
theorem C16_virtual_buffer_counterexample :
    find_available_vdev P0_phys_ids s0_ids 0 0x100 = some ⟨0, 0⟩ ∧
    (get_vdev s0_ids ⟨0, 0⟩).vdev_ops = pci_vdev_ops.pci_pt_dev_ops ∧
    u32 (P0_phys_ids.pci_pdev_read_cfg [] 0x100 0 4) = 0x56788086 ∧
    (match vpci_mmio_cfg_access P0_phys_ids s0_ids
        ⟨REQUEST_READ, 0xE0000000 + 0x100 * 2 ^ 12 + 0x00, 4, 0⟩ 0 with
     | Except.ok r => some (r.1, r.2.1.value, r.2.2.trace)
     | Except.error _ => none) =
      some (0, 0x12348086, [Event.spinlock_obtain 0, Event.spinlock_release 0]) := by
  decide

/-- C16 (witness): the read at offset 0x00 of 01:00.0 on the service VM of `s0_ids`. -/
theorem C16_vendor_device_id_read_witness :
    vpci_read_cfg P0_phys_ids s0_ids 0 0x100 0 4 7 =
      Except.ok (0, u32 (pci_vdev_read_vcfg (get_vdev s0_ids ⟨0, 0⟩) 0 4),
        spinlock_release (spinlock_obtain s0_ids 0) 0) :=
  (C16_vendor_device_id_read P0_phys_ids s0_ids 0 0x100 7 ⟨0, 0⟩ (by decide) (by decide)
    (by decide)).1

/-- C17 (the code at the failing input): in `s0_orphan` the instance at 01:00.0 of the service
VM's table has a NULL owning vpci, and a new-owner link to VM 1's instance, which is owned by
VM 1, of lower severity than the service VM; `find_available_vdev` returns the orphan
instance to the service VM. -/
theorem C17_orphan_is_returned :
    pci_find_vdev s0_orphan 0 0x100 = some ⟨0, 0⟩ ∧
    (get_vdev s0_orphan ⟨0, 0⟩).vpci = none ∧
    (get_vdev s0_orphan ⟨0, 0⟩).new_owner = some ⟨1, 0⟩ ∧
    (get_vdev s0_orphan ⟨1, 0⟩).vpci = some 1 ∧
    P0.get_vm_severity 1 < P0.get_vm_severity 0 ∧
    find_available_vdev P0 s0_orphan 0 0x100 = some ⟨0, 0⟩ := by
  decide

/-- C19: beyond-header routing.  At an offset outside the standard header and outside the MSI,
MSI-X and SR-IOV capability ranges, a read or write of a non-quirk device (with its physical
device) is the physical config access at the same offset and width and returns 0; a read or
write of a quirk device returns `-ENODEV` and leaves the state, trace included, and `*val`
as they are.  Whenever `read_pt_dev_cfg` or `write_pt_dev_cfg` returns, it returns 0 or
`-ENODEV`, and `-ENODEV` only for a quirk device at such an offset. -/
theorem C19_beyond_header_routing (P : Platform) (s : State) (h : vdev_ref)
    (offset bytes val : Nat) :
    let vdev := get_vdev s h
    let beyond := cfg_header_access offset = false ∧ P.msicap_access vdev offset = false ∧
      P.msixcap_access vdev offset = false ∧ P.sriovcap_access vdev offset = false
    (beyond → P.is_quirk_ptdev vdev = false → ∀ pd, vdev.pdev = some pd →
      read_pt_dev_cfg P s h offset bytes val =
        Except.ok (0, u32 (P.pci_pdev_read_cfg s.trace pd.bdf offset bytes),
          log s (Event.pci_pdev_read_cfg pd.bdf offset bytes)) ∧
      write_pt_dev_cfg P s h offset bytes val =
        Except.ok (0, log s (Event.pci_pdev_write_cfg pd.bdf offset bytes val))) ∧
    (beyond → P.is_quirk_ptdev vdev = true →
      read_pt_dev_cfg P s h offset bytes val = Except.ok (-ENODEV, val, s) ∧
      write_pt_dev_cfg P s h offset bytes val = Except.ok (-ENODEV, s)) ∧
    (∀ r, read_pt_dev_cfg P s h offset bytes val = Except.ok r →
      (r.1 = 0 ∨ r.1 = -ENODEV) ∧
      (r.1 = -ENODEV → beyond ∧ P.is_quirk_ptdev vdev = true)) ∧
    (∀ r, write_pt_dev_cfg P s h offset bytes val = Except.ok r →
      (r.1 = 0 ∨ r.1 = -ENODEV) ∧
      (r.1 = -ENODEV → beyond ∧ P.is_quirk_ptdev vdev = true)) := by
  intro vdev beyond
  have hne : (0 : Int) ≠ -ENODEV := by decide
  refine ⟨?_, ?_, ?_, ?_⟩
  · rintro ⟨h1, h2, h3, h4⟩ hq pd hpd
    constructor
    · unfold read_pt_dev_cfg
      simp [vdev] at h2 h3 h4 hq hpd
      simp [h1, h2, h3, h4, hq, hpd, pci_pdev_read_cfg]
    · unfold write_pt_dev_cfg
      simp [vdev] at h2 h3 h4 hq hpd
      simp [h1, h2, h3, h4, hq, hpd, pci_pdev_write_cfg]
  · rintro ⟨h1, h2, h3, h4⟩ hq
    simp [vdev] at h2 h3 h4 hq
    constructor
    · unfold read_pt_dev_cfg
      simp [h1, h2, h3, h4, hq]
    · unfold write_pt_dev_cfg
      simp [h1, h2, h3, h4, hq]
  · intro r hr
    unfold read_pt_dev_cfg at hr
    simp only [ext_read, pci_pdev_read_cfg] at hr
    rcases Bool.eq_false_or_eq_true (cfg_header_access offset) with h1 | h1
    · simp only [h1, if_true, Bool.false_eq_true, if_false] at hr
      split at hr
      · cases hr
      · cases hr; exact ⟨Or.inl rfl, fun hc => absurd hc hne⟩
    · simp only [h1, Bool.false_eq_true, if_false] at hr
      rcases Bool.eq_false_or_eq_true (P.msicap_access (get_vdev s h) offset) with h2 | h2
      · simp only [h2, if_true, Bool.false_eq_true, if_false] at hr
        cases hr; exact ⟨Or.inl rfl, fun hc => absurd hc hne⟩
      · simp only [h2, Bool.false_eq_true, if_false] at hr
        rcases Bool.eq_false_or_eq_true (P.msixcap_access (get_vdev s h) offset) with h3 | h3
        · simp only [h3, if_true, Bool.false_eq_true, if_false] at hr
          cases hr; exact ⟨Or.inl rfl, fun hc => absurd hc hne⟩
        · simp only [h3, Bool.false_eq_true, if_false] at hr
          rcases Bool.eq_false_or_eq_true (P.sriovcap_access (get_vdev s h) offset) with h4 | h4
          · simp only [h4, if_true, Bool.false_eq_true, if_false] at hr
            cases hr; exact ⟨Or.inl rfl, fun hc => absurd hc hne⟩
          · simp only [h4, Bool.false_eq_true, if_false] at hr
            rcases Bool.eq_false_or_eq_true (P.is_quirk_ptdev (get_vdev s h)) with hq | hq
            · simp only [hq, Bool.not_true, Bool.false_eq_true, if_false] at hr
              cases hr
              refine ⟨Or.inr rfl, fun _ => ⟨⟨?_, ?_, ?_, ?_⟩, hq⟩⟩
              · exact h1
              · exact h2
              · exact h3
              · exact h4
            · simp only [hq, Bool.not_false, if_true, Bool.false_eq_true, if_false] at hr
              split at hr
              · cases hr
              · cases hr; exact ⟨Or.inl rfl, fun hc => absurd hc hne⟩
  · intro r hr
    unfold write_pt_dev_cfg at hr
    simp only [pci_pdev_write_cfg] at hr
    rcases Bool.eq_false_or_eq_true (cfg_header_access offset) with h1 | h1
    · simp only [h1, if_true, Bool.false_eq_true, if_false] at hr
      split at hr
      · cases hr
      · cases hr; exact ⟨Or.inl rfl, fun hc => absurd hc hne⟩
    · simp only [h1, Bool.false_eq_true, if_false] at hr
      rcases Bool.eq_false_or_eq_true (P.msicap_access (get_vdev s h) offset) with h2 | h2
      · simp only [h2, if_true, Bool.false_eq_true, if_false] at hr
        cases hr; exact ⟨Or.inl rfl, fun hc => absurd hc hne⟩
      · simp only [h2, Bool.false_eq_true, if_false] at hr
        rcases Bool.eq_false_or_eq_true (P.msixcap_access (get_vdev s h) offset) with h3 | h3
        · simp only [h3, if_true, Bool.false_eq_true, if_false] at hr
          cases hr; exact ⟨Or.inl rfl, fun hc => absurd hc hne⟩
        · simp only [h3, Bool.false_eq_true, if_false] at hr
          rcases Bool.eq_false_or_eq_true (P.sriovcap_access (get_vdev s h) offset) with h4 | h4
          · simp only [h4, if_true, Bool.false_eq_true, if_false] at hr
            cases hr; exact ⟨Or.inl rfl, fun hc => absurd hc hne⟩
          · simp only [h4, Bool.false_eq_true, if_false] at hr
            rcases Bool.eq_false_or_eq_true (P.is_quirk_ptdev (get_vdev s h)) with hq | hq
            · simp only [hq, Bool.not_true, Bool.false_eq_true, if_false] at hr
              cases hr
              refine ⟨Or.inr rfl, fun _ => ⟨⟨?_, ?_, ?_, ?_⟩, hq⟩⟩
              · exact h1
              · exact h2
              · exact h3
              · exact h4
            · simp only [hq, Bool.not_false, if_true, Bool.false_eq_true, if_false] at hr
              split at hr
              · cases hr
              · cases hr; exact ⟨Or.inl rfl, fun hc => absurd hc hne⟩

/-- C19 (witness): the 4-byte access at offset 0x100 of 01:00.0 in `s0`, on the platform
without quirk devices and on the platform where every device is one. -/
theorem C19_beyond_header_routing_witness :
    read_pt_dev_cfg P0 s0 ⟨0, 0⟩ 0x100 4 7 =
      Except.ok (0, u32 (P0.pci_pdev_read_cfg s0.trace pdev0.bdf 0x100 4),
        log s0 (Event.pci_pdev_read_cfg pdev0.bdf 0x100 4)) ∧
    read_pt_dev_cfg P0_quirk s0 ⟨0, 0⟩ 0x100 4 7 = Except.ok (-ENODEV, 7, s0) :=
  ⟨((C19_beyond_header_routing P0 s0 ⟨0, 0⟩ 0x100 4 7).1 (by decide) (by decide) pdev0
      (by decide)).1,
   ((C19_beyond_header_routing P0_quirk s0 ⟨0, 0⟩ 0x100 4 7).2.1 (by decide) (by decide)).1⟩

theorem vpci_assign_pcidev_rejected (P : Platform) (s : State) (tgt_vm : Nat)
    (pcidev : acrn_assign_pcidev)
    (hrej : ∀ h, pci_find_vdev s P.sos_vm_id (u16 pcidev.phys_bdf) = some h →
      ¬ ((get_vdev s h).vpci = some P.sos_vm_id ∧ (get_vdev s h).pdev ≠ none ∧
        P.has_sriov_cap (get_vdev s h) = false)) :
    vpci_assign_pcidev P s tgt_vm pcidev =
      Except.ok (-ENODEV,
        spinlock_release (log (spinlock_obtain s P.sos_vm_id) Event.pr_fatal) P.sos_vm_id) := by
  unfold vpci_assign_pcidev
  simp only [spinlock_obtain, pci_find_vdev_log, get_vdev_log]
  cases hfind : pci_find_vdev s P.sos_vm_id (u16 pcidev.phys_bdf) with
  | none => rfl
  | some h =>
    dsimp only
    cases hpd : (get_vdev s h).pdev with
    | none => rfl
    | some pdev =>
      dsimp only
      have hn := hrej h hfind
      rw [hpd] at hn
      have hc : ¬ (is_own_device P.sos_vm_id (get_vdev s h) = true ∧
          P.has_sriov_cap (get_vdev s h) = false) := by
        intro hc
        apply hn
        refine ⟨?_, by simp, hc.2⟩
        simpa [is_own_device] using hc.1
      rw [if_neg hc]

theorem assign_keeps_find (P : Platform) (s s1 : State) (tgt_vm : Nat)
    (pcidev : acrn_assign_pcidev)
    (ha : vpci_assign_pcidev P s tgt_vm pcidev = Except.ok (0, s1))
    (htgt : tgt_vm ≠ P.sos_vm_id) (bdf : Nat) :
    pci_find_vdev s1 P.sos_vm_id bdf = pci_find_vdev s P.sos_vm_id bdf := by
  obtain ⟨h, pdev, hfind, hown, hpdev, hsriov, hlt, hh, hfr, hcnt, hdoms⟩ :=
    vpci_assign_pcidev_ok P s s1 tgt_vm pcidev ha
  have hsos : ∀ i, (⟨P.sos_vm_id, i⟩ : vdev_ref) ≠ ⟨tgt_vm, (get_vpci s tgt_vm).pci_vdev_cnt⟩ := by
    intro i heq
    exact htgt (congrArg vdev_ref.vm heq).symm
  apply pci_find_vdev_congr
  · rw [hcnt, if_neg (Ne.symm htgt)]
  · intro i
    show (get_vdev s1 ⟨P.sos_vm_id, i⟩).bdf = (get_vdev s ⟨P.sos_vm_id, i⟩).bdf
    by_cases hi : (⟨P.sos_vm_id, i⟩ : vdev_ref) = h
    · rw [hi, hh]
    · rw [hfr _ hi (hsos i)]

theorem vpci_assign_pcidev_ret (P : Platform) (s : State) (tgt_vm : Nat)
    (pcidev : acrn_assign_pcidev) (h : vdev_ref) (pdev : pci_pdev)
    (hfind : pci_find_vdev s P.sos_vm_id (u16 pcidev.phys_bdf) = some h)
    (hown : (get_vdev s h).vpci = some P.sos_vm_id)
    (hpdev : (get_vdev s h).pdev = some pdev)
    (hsriov : P.has_sriov_cap (get_vdev s h) = false)
    (r : Int × State) (hr : vpci_assign_pcidev P s tgt_vm pcidev = Except.ok r) : r.1 = 0 := by
  rw [vpci_assign_pcidev_found P s tgt_vm pcidev h pdev hfind hown hpdev hsriov] at hr
  split at hr
  · cases hr
  · split at hr
    · cases hr
    · cases hr; rfl

theorem vpci_deassign_pcidev_rejected (P : Platform) (s : State) (tgt_vm : Nat)
    (pcidev : acrn_assign_pcidev)
    (hrej : ∀ h, pci_find_vdev s P.sos_vm_id (u16 pcidev.phys_bdf) = some h →
      ¬ ((get_vdev s h).vpci = some tgt_vm ∧ (get_vdev s h).pdev ≠ none)) :
    vpci_deassign_pcidev P s tgt_vm pcidev =
      Except.ok (-ENODEV,
        spinlock_release (log (spinlock_obtain s P.sos_vm_id) Event.pr_fatal) P.sos_vm_id) := by
  unfold vpci_deassign_pcidev
  simp only [spinlock_obtain, pci_find_vdev_log, get_vdev_log]
  cases hfind : pci_find_vdev s P.sos_vm_id (u16 pcidev.phys_bdf) with
  | none => rfl
  | some h =>
    dsimp only
    have hn := hrej h hfind
    have hc : ¬ (is_own_device tgt_vm (get_vdev s h) = true ∧ (get_vdev s h).pdev ≠ none) := by
      intro hc
      apply hn
      refine ⟨?_, hc.2⟩
      simpa [is_own_device] using hc.1
    rw [if_neg hc]

theorem vpci_deassign_pcidev_found (P : Platform) (s : State) (tgt_vm : Nat)
    (pcidev : acrn_assign_pcidev) (h : vdev_ref)
    (hfind : pci_find_vdev s P.sos_vm_id (u16 pcidev.phys_bdf) = some h)
    (hown : (get_vdev s h).vpci = some tgt_vm)
    (hpd : (get_vdev s h).pdev ≠ none) :
    vpci_deassign_pcidev P s tgt_vm pcidev =
      (match deassign_reclaim P (spinlock_obtain (spinlock_obtain s P.sos_vm_id) tgt_vm) tgt_vm
          pcidev (get_vdev s h).new_owner with
       | Except.error e => Except.error e
       | Except.ok s3 =>
         Except.ok (0, spinlock_release
           (set_vdev (set_vdev (spinlock_release s3 tgt_vm) h
               { get_vdev (spinlock_release s3 tgt_vm) h with vpci := some P.sos_vm_id }) h
             { get_vdev (set_vdev (spinlock_release s3 tgt_vm) h
                 { get_vdev (spinlock_release s3 tgt_vm) h with vpci := some P.sos_vm_id }) h
               with new_owner := none }) P.sos_vm_id)) := by
  unfold vpci_deassign_pcidev
  simp only [spinlock_obtain, pci_find_vdev_log, get_vdev_log, hfind, is_own_device, hown,
    decide_True, ne_eq, hpd, not_false_eq_true, and_self, if_true]

theorem assign_bar_cfgdata (P : Platform) (pcidev : acrn_assign_pcidev) (h n : vdev_ref)
    (s : State) (idx : Nat) :
    (get_vdev (assign_bar P pcidev h n s idx) n).cfgdata = (get_vdev s n).cfgdata := by
  unfold assign_bar
  dsimp only
  split
  · split <;> simp only [get_vdev_set_vdev_same]
  · simp only [get_vdev_set_vdev_same]

theorem assign_bar_foldl_cfgdata (P : Platform) (pcidev : acrn_assign_pcidev) (h n : vdev_ref)
    (l : List Nat) (s : State) :
    (get_vdev (l.foldl (assign_bar P pcidev h n) s) n).cfgdata = (get_vdev s n).cfgdata := by
  induction l generalizing s with
  | nil => rfl
  | cons i l ih =>
    simp only [List.foldl_cons]
    rw [ih, assign_bar_cfgdata]

theorem assign_configure_new (P : Platform) (s : State) (pcidev : acrn_assign_pcidev)
    (h n : vdev_ref) :
    (get_vdev (assign_configure P s pcidev h n) n).vpci = (get_vdev s n).vpci ∧
    (get_vdev (assign_configure P s pcidev h n) n).pdev = (get_vdev s n).pdev ∧
    (get_vdev (assign_configure P s pcidev h n) n).pci_dev_config =
      (get_vdev s n).pci_dev_config ∧
    (get_vdev (assign_configure P s pcidev h n) n).phyfun = (get_vdev s n).phyfun ∧
    (get_vdev (assign_configure P s pcidev h n) n).bdf = u16 pcidev.virt_bdf ∧
    (get_vdev (assign_configure P s pcidev h n) n).flags =
      u32 ((get_vdev s n).flags ||| pcidev.type) ∧
    (get_vdev (assign_configure P s pcidev h n) n).cfgdata PCIR_INTERRUPT_LINE =
      u8 pcidev.intr_line ∧
    (get_vdev (assign_configure P s pcidev h n) n).cfgdata PCIR_INTERRUPT_PIN =
      u8 pcidev.intr_pin := by
  unfold assign_configure
  dsimp only
  simp only [get_vdev_set_vdev_same]
  obtain ⟨hv, -, hp, hc, hf, -, -, hfl⟩ := (assign_bar_foldl_only P pcidev h n
    (List.range (pci_vdev_write_vcfg (pci_vdev_write_vcfg (get_vdev s n) PCIR_INTERRUPT_LINE 1
      (u8 pcidev.intr_line)) PCIR_INTERRUPT_PIN 1 (u8 pcidev.intr_pin)).nr_bars)
    (set_vdev (set_vdev s n (pci_vdev_write_vcfg (get_vdev s n) PCIR_INTERRUPT_LINE 1
      (u8 pcidev.intr_line))) n (pci_vdev_write_vcfg (pci_vdev_write_vcfg (get_vdev s n)
      PCIR_INTERRUPT_LINE 1 (u8 pcidev.intr_line)) PCIR_INTERRUPT_PIN 1 (u8 pcidev.intr_pin)))).2
  simp only [get_vdev_set_vdev_same] at hv hp hc hf hfl
  refine ⟨hv, hp, hc, hf, trivial, ?_, ?_, ?_⟩
  · rw [hfl]; rfl
  · rw [assign_bar_foldl_cfgdata, get_vdev_set_vdev_same]
    simp [pci_vdev_write_vcfg, PCIR_INTERRUPT_LINE, PCIR_INTERRUPT_PIN, u8]
  · rw [assign_bar_foldl_cfgdata, get_vdev_set_vdev_same]
    simp [pci_vdev_write_vcfg, PCIR_INTERRUPT_LINE, PCIR_INTERRUPT_PIN, u8]

theorem assign_transfer_new (P : Platform) (s s2 : State) (tgt_vm : Nat)
    (pcidev : acrn_assign_pcidev) (h : vdev_ref)
    (hne : h ≠ ⟨tgt_vm, (get_vpci s tgt_vm).pci_vdev_cnt⟩)
    (ht : assign_transfer P s tgt_vm pcidev h = Except.ok s2) :
    (get_vdev s2 ⟨tgt_vm, (get_vpci s tgt_vm).pci_vdev_cnt⟩).vpci = some tgt_vm ∧
    (get_vdev s2 ⟨tgt_vm, (get_vpci s tgt_vm).pci_vdev_cnt⟩).pdev =
      (get_vdev s h).pci_dev_config.pdev ∧
    (get_vdev s2 ⟨tgt_vm, (get_vpci s tgt_vm).pci_vdev_cnt⟩).pci_dev_config =
      (get_vdev s h).pci_dev_config ∧
    (get_vdev s2 ⟨tgt_vm, (get_vpci s tgt_vm).pci_vdev_cnt⟩).phyfun = (get_vdev s h).phyfun ∧
    (get_vdev s2 ⟨tgt_vm, (get_vpci s tgt_vm).pci_vdev_cnt⟩).bdf = u16 pcidev.virt_bdf ∧
    (∀ i, i < 32 → pcidev.type.testBit i = true →
      (get_vdev s2 ⟨tgt_vm, (get_vpci s tgt_vm).pci_vdev_cnt⟩).flags.testBit i = true) ∧
    (get_vdev s2 ⟨tgt_vm, (get_vpci s tgt_vm).pci_vdev_cnt⟩).cfgdata PCIR_INTERRUPT_LINE =
      u8 pcidev.intr_line ∧
    (get_vdev s2 ⟨tgt_vm, (get_vpci s tgt_vm).pci_vdev_cnt⟩).cfgdata PCIR_INTERRUPT_PIN =
      u8 pcidev.intr_pin := by
  unfold assign_transfer at ht
  dsimp only at ht
  split at ht
  · cases ht
  · rename_i r hr
    obtain ⟨n, s3⟩ := r
    cases ht
    obtain ⟨hn, -, -, -, -, hv, -, hp, hc, hf⟩ := vpci_init_vdev_ok _ _ _ _ _ _ _ hr
    simp only [spinlock_obtain, get_vpci_log, cnt_set_vdev, get_vdev_log,
      get_vdev_set_vdev_same] at hn hv hp hc hf
    subst hn
    obtain ⟨cv, cp, cc, cf, cb, cfl, cl, ci⟩ := assign_configure_new P s3 pcidev h
      ⟨tgt_vm, (get_vpci s tgt_vm).pci_vdev_cnt⟩
    simp only [spinlock_release, get_vdev_log]
    rw [get_vdev_set_vdev, if_neg (Ne.symm hne), get_vdev_log]
    refine ⟨cv.trans hv, cp.trans hp, cc.trans hc, cf.trans hf, cb, ?_, cl, ci⟩
    intro i hi hb
    rw [cfl]
    unfold u32
    rw [Nat.testBit_mod_two_pow, Nat.testBit_or, hb]
    simp [hi]

theorem vpci_assign_pcidev_new (P : Platform) (s s1 : State) (tgt_vm : Nat)
    (pcidev : acrn_assign_pcidev) (h : vdev_ref)
    (hfind : pci_find_vdev s P.sos_vm_id (u16 pcidev.phys_bdf) = some h)
    (ha : vpci_assign_pcidev P s tgt_vm pcidev = Except.ok (0, s1)) :
    (get_vdev s1 ⟨tgt_vm, (get_vpci s tgt_vm).pci_vdev_cnt⟩).vpci = some tgt_vm ∧
    (get_vdev s1 ⟨tgt_vm, (get_vpci s tgt_vm).pci_vdev_cnt⟩).pdev =
      (get_vdev s h).pci_dev_config.pdev ∧
    (get_vdev s1 ⟨tgt_vm, (get_vpci s tgt_vm).pci_vdev_cnt⟩).pci_dev_config =
      (get_vdev s h).pci_dev_config ∧
    (get_vdev s1 ⟨tgt_vm, (get_vpci s tgt_vm).pci_vdev_cnt⟩).phyfun = (get_vdev s h).phyfun ∧
    (get_vdev s1 ⟨tgt_vm, (get_vpci s tgt_vm).pci_vdev_cnt⟩).bdf = u16 pcidev.virt_bdf ∧
    (∀ i, i < 32 → pcidev.type.testBit i = true →
      (get_vdev s1 ⟨tgt_vm, (get_vpci s tgt_vm).pci_vdev_cnt⟩).flags.testBit i = true) ∧
    (get_vdev s1 ⟨tgt_vm, (get_vpci s tgt_vm).pci_vdev_cnt⟩).cfgdata PCIR_INTERRUPT_LINE =
      u8 pcidev.intr_line ∧
    (get_vdev s1 ⟨tgt_vm, (get_vpci s tgt_vm).pci_vdev_cnt⟩).cfgdata PCIR_INTERRUPT_PIN =
      u8 pcidev.intr_pin := by
  obtain ⟨h2, pdev, hfind2, hown, hpdev, hsriov⟩ :=
    vpci_assign_pcidev_zero P s s1 tgt_vm pcidev ha
  rw [hfind] at hfind2
  have he : h = h2 := Option.some.inj hfind2
  subst he
  rw [vpci_assign_pcidev_found P s tgt_vm pcidev h pdev hfind hown hpdev hsriov] at ha
  split at ha
  · cases ha
  · rename_i s3 hs3
    split at ha
    · cases ha
    · rename_i s4 hs4
      simp only [Except.ok.injEq, Prod.mk.injEq, true_and] at ha
      subst ha
      have hv3 : s3.vms = s.vms := by
        rw [remove_vdev_pt_iommu_domain_vms P _ s3 h hs3, assign_reset_check_vms]
        rfl
      have hg3 : ∀ k, get_vdev s3 k = get_vdev s k := fun k => get_vdev_of_vms hv3 k
      have hc3 : ∀ vm, get_vpci s3 vm = get_vpci s vm := by
        intro vm; unfold get_vpci; rw [hv3]
      have hne := found_ne_new s P.sos_vm_id (u16 pcidev.phys_bdf) tgt_vm h hfind
      have hnew := assign_transfer_new P s3 s4 tgt_vm pcidev h (by rw [hc3]; exact hne) hs4
      simp only [hc3, hg3, spinlock_release, get_vdev_log] at hnew ⊢
      exact hnew

theorem iommu_ext_call (P : Platform) (f : ext_fn) (s : State) (h : vdev_ref) (a : List Nat) :
    (ext_call P f s h a).iommu = s.iommu := rfl

theorem vm_iommu_ext_call (P : Platform) (f : ext_fn) (s : State) (h : vdev_ref) (a : List Nat)
    (vm : Nat) : ((ext_call P f s h a).vms vm).iommu = (s.vms vm).iommu := by
  unfold ext_call
  rw [vms_log, vm_iommu_set_vdev]

theorem move_pt_device_fails (P : Platform) (s : State) (f t : Option Nat) (b d : Nat)
    (hst : P.move_pt_status s.iommu f t b d ≠ 0) :
    (move_pt_device P s f t b d).1 ≠ 0 := by
  unfold move_pt_device
  simp only [hst, if_false]
  exact hst

theorem init_vdev_panic (P : Platform) (s : State) (n : vdev_ref) (vm : Nat) (pd : pci_pdev)
    (hops : (get_vdev s n).vdev_ops = pci_vdev_ops.pci_pt_dev_ops)
    (hv : (get_vdev s n).vpci = some vm) (hp : (get_vdev s n).pdev = some pd)
    (hst : P.move_pt_status s.iommu none (s.vms vm).iommu (u8 (pd.bdf >>> 8))
      (u8 (pd.bdf &&& 0xFF)) ≠ 0) :
    init_vdev P s n = Except.error Fault.panic := by
  unfold init_vdev
  rw [hops]
  dsimp only
  unfold vpci_init_pt_dev
  dsimp only
  have hid := same_identity_trans (same_identity_trans (same_identity_trans
      (same_identity_ext_call P ext_fn.init_vmsi s n [])
      (same_identity_ext_call P ext_fn.init_vmsix _ n []))
      (same_identity_ext_call P ext_fn.init_vsriov _ n []))
      (same_identity_ext_call P ext_fn.init_vdev_pt _ n [0])
  unfold assign_vdev_pt_iommu_domain
  rw [hid.1.trans hv, hid.2.2.1.trans hp]
  dsimp only
  rw [if_pos]
  apply move_pt_device_fails
  simp only [iommu_ext_call, vm_iommu_ext_call]
  exact hst

theorem vpci_init_vdev_panic (P : Platform) (s : State) (vpci : Nat)
    (cfg : acrn_vm_pci_dev_config) (pf : Option vdev_ref) (pd : pci_pdev)
    (hroom : (get_vpci s vpci).pci_vdev_cnt < P.CONFIG_MAX_PCI_DEV_NUM)
    (hops : cfg.vdev_ops = none) (hpd : cfg.pdev = some pd)
    (hbr : pd.hdr_type ≠ PCIM_HDRTYPE_BRIDGE)
    (hst : P.move_pt_status s.iommu none (s.vms vpci).iommu (u8 (pd.bdf >>> 8))
      (u8 (pd.bdf &&& 0xFF)) ≠ 0) :
    vpci_init_vdev P s vpci cfg pf = Except.error Fault.panic := by
  unfold vpci_init_vdev
  dsimp only
  rw [if_pos hroom]
  simp only [get_vdev_set_vdev_same]
  have hsel : select_vdev_ops cfg cfg.pdev = Except.ok pci_vdev_ops.pci_pt_dev_ops := by
    unfold select_vdev_ops
    rw [hops, hpd]
    dsimp only
    rw [if_neg hbr]
  rw [hsel]
  dsimp only
  rw [init_vdev_panic P _ _ vpci pd (by rw [get_vdev_set_vdev_same])
    (by rw [get_vdev_set_vdev_same]) (by rw [get_vdev_set_vdev_same]; exact hpd)
    (by simpa using hst)]

theorem deinit_postlaunched_loop_append (P : Platform) (vm : Nat) (l1 l2 : List Nat)
    (s : State) :
    deinit_postlaunched_loop P vm (l1 ++ l2) s =
      (match deinit_postlaunched_loop P vm l1 s with
       | Except.error e => Except.error e
       | Except.ok s1 => deinit_postlaunched_loop P vm l2 s1) := by
  induction l1 generalizing s with
  | nil => rfl
  | cons i l ih =>
    simp only [List.cons_append, deinit_postlaunched_loop]
    cases deinit_postlaunched_step P vm s i with
    | error e => rfl
    | ok s1 => exact ih s1

theorem range_split (i n : Nat) (h : i < n) :
    ∃ l, List.range n = List.range i ++ i :: l := by
  obtain ⟨d, rfl⟩ : ∃ d, n = i + (d + 1) := ⟨n - i - 1, by omega⟩
  refine ⟨(List.range d).map (fun k => i + (k + 1)), ?_⟩
  rw [List.range_add, List.range_succ_eq_map]
  simp [Function.comp_def]

theorem assign_reset_check_iommu (s : State) (pdev : pci_pdev) :
    (assign_reset_check s pdev).iommu = s.iommu := by
  unfold assign_reset_check
  split <;> rfl

theorem remove_vdev_pt_iommu_domain_panic (P : Platform) (s : State) (n : vdev_ref)
    (vm : Nat) (pd : pci_pdev) (hv : (get_vdev s n).vpci = some vm)
    (hp : (get_vdev s n).pdev = some pd)
    (hst : P.move_pt_status s.iommu (s.vms vm).iommu none (u8 (pd.bdf >>> 8))
      (u8 (pd.bdf &&& 0xFF)) ≠ 0) :
    remove_vdev_pt_iommu_domain P s n = Except.error Fault.panic := by
  unfold remove_vdev_pt_iommu_domain
  rw [hv, hp]
  dsimp only
  rw [if_pos (move_pt_device_fails _ _ _ _ _ _ hst)]

theorem remove_vdev_pt_iommu_domain_eq (P : Platform) (s : State) (n : vdev_ref)
    (vm : Nat) (pd : pci_pdev) (hv : (get_vdev s n).vpci = some vm)
    (hp : (get_vdev s n).pdev = some pd)
    (hst : P.move_pt_status s.iommu (s.vms vm).iommu none (u8 (pd.bdf >>> 8))
      (u8 (pd.bdf &&& 0xFF)) = 0) :
    remove_vdev_pt_iommu_domain P s n =
      Except.ok { log s (Event.move_pt_device (s.vms vm).iommu none (u8 (pd.bdf >>> 8))
          (u8 (pd.bdf &&& 0xFF))) with
        iommu := iommu_detach s.iommu (s.vms vm).iommu (u8 (pd.bdf >>> 8))
          (u8 (pd.bdf &&& 0xFF)) } := by
  unfold remove_vdev_pt_iommu_domain
  rw [hv, hp]
  dsimp only
  rw [move_pt_device_ok _ _ _ _ _ _ hst]
  simp only [ne_eq, not_true_eq_false, if_false]
  rfl

theorem assign_transfer_panic (P : Platform) (s : State) (tgt_vm : Nat)
    (pcidev : acrn_assign_pcidev) (h : vdev_ref) (pd : pci_pdev)
    (hroom : (get_vpci s tgt_vm).pci_vdev_cnt < P.CONFIG_MAX_PCI_DEV_NUM)
    (hops : (get_vdev s h).pci_dev_config.vdev_ops = none)
    (hpd : (get_vdev s h).pci_dev_config.pdev = some pd)
    (hbr : pd.hdr_type ≠ PCIM_HDRTYPE_BRIDGE)
    (hst : P.move_pt_status s.iommu none (s.vms tgt_vm).iommu (u8 (pd.bdf >>> 8))
      (u8 (pd.bdf &&& 0xFF)) ≠ 0) :
    assign_transfer P s tgt_vm pcidev h = Except.error Fault.panic := by
  unfold assign_transfer
  dsimp only
  rw [vpci_init_vdev_panic P _ tgt_vm _ _ pd
    (by simpa [spinlock_obtain] using hroom)
    (by simpa [spinlock_obtain] using hops)
    (by simpa [spinlock_obtain] using hpd) hbr
    (by simpa [spinlock_obtain] using hst)]

/-! ## Ownership transfer: rejection, post-state and fatal outcomes (claims) -/

/-- C13: `vpci_assign_pcidev` rejects atomically.  (1) When no instance at `phys_bdf` in the
service VM's table is owned by the service VM, has a physical device and lacks the SR-IOV
capability (so: not found, or not owned, or no physical device, or a physical function), the
call returns `-ENODEV` and leaves the VMs (every device table, entry and count) and the IOMMU
attachments as they were.  (2) After an assignment to a guest has returned 0, a further
assignment of the same device, to any VM, is rejected in the same way.  (3) In the other
cases the only value the call returns is 0, and it does return 0 when the target's table has
room, the device's configuration names an operation set or a physical device, and the IOMMU
accepts the moves. -/
theorem C13_assign_rejection_is_atomic (P : Platform) (s : State) (tgt_vm : Nat)
    (pcidev : acrn_assign_pcidev) :
    ((∀ h, pci_find_vdev s P.sos_vm_id (u16 pcidev.phys_bdf) = some h →
        ¬ ((get_vdev s h).vpci = some P.sos_vm_id ∧ (get_vdev s h).pdev ≠ none ∧
          P.has_sriov_cap (get_vdev s h) = false)) →
      ∃ s2, vpci_assign_pcidev P s tgt_vm pcidev = Except.ok (-ENODEV, s2) ∧
        s2.vms = s.vms ∧ s2.iommu = s.iommu) ∧
    (∀ s1, vpci_assign_pcidev P s tgt_vm pcidev = Except.ok (0, s1) →
      tgt_vm ≠ P.sos_vm_id →
      ∀ tgt2, ∃ s2, vpci_assign_pcidev P s1 tgt2 pcidev = Except.ok (-ENODEV, s2) ∧
        s2.vms = s1.vms ∧ s2.iommu = s1.iommu) ∧
    (∀ h pdev, pci_find_vdev s P.sos_vm_id (u16 pcidev.phys_bdf) = some h →
      (get_vdev s h).vpci = some P.sos_vm_id → (get_vdev s h).pdev = some pdev →
      P.has_sriov_cap (get_vdev s h) = false →
      (∀ r, vpci_assign_pcidev P s tgt_vm pcidev = Except.ok r → r.1 = 0) ∧
      ((get_vpci s tgt_vm).pci_vdev_cnt < P.CONFIG_MAX_PCI_DEV_NUM →
        ((get_vdev s h).pci_dev_config.vdev_ops ≠ none ∨
          (get_vdev s h).pci_dev_config.pdev ≠ none) →
        (∀ m f t b d, P.move_pt_status m f t b d = 0) →
        ∃ s1, vpci_assign_pcidev P s tgt_vm pcidev = Except.ok (0, s1))) := by
  refine ⟨?_, ?_, ?_⟩
  · intro hrej
    exact ⟨_, vpci_assign_pcidev_rejected P s tgt_vm pcidev hrej, rfl, rfl⟩
  · intro s1 ha htgt tgt2
    refine ⟨_, vpci_assign_pcidev_rejected P s1 tgt2 pcidev ?_, rfl, rfl⟩
    intro h hfind1 hc
    obtain ⟨h0, pdev, hfind, -, -, -, -, hh, -, -, -⟩ :=
      vpci_assign_pcidev_ok P s s1 tgt_vm pcidev ha
    rw [assign_keeps_find P s s1 tgt_vm pcidev ha htgt, hfind] at hfind1
    have he : h0 = h := Option.some.inj hfind1
    subst he
    rw [hh] at hc
    exact htgt (Option.some.inj hc.1)
  · intro h pdev hfind hown hpdev hsriov
    exact ⟨fun r hr => vpci_assign_pcidev_ret P s tgt_vm pcidev h pdev hfind hown hpdev hsriov r hr,
      fun hroom hcfg hmove =>
        vpci_assign_pcidev_returns P s tgt_vm pcidev h pdev hfind hown hpdev hsriov hroom hcfg
          hmove⟩

/-- C13 (witness): on `P0`, a device address absent from the table of `s0` is rejected; 01:00.0
of `s0` is assigned to VM 1 with result 0; the assignment of 01:00.0 to VM 2 after that is
rejected. -/
theorem C13_assign_rejection_is_atomic_witness :
    (∃ s2, vpci_assign_pcidev P0 s0 1 { pc0 with phys_bdf := 0x200 } = Except.ok (-ENODEV, s2) ∧
      s2.vms = s0.vms ∧ s2.iommu = s0.iommu) ∧
    (∃ s2, vpci_assign_pcidev P0 s0_assigned 2 pc0 = Except.ok (-ENODEV, s2) ∧
      s2.vms = s0_assigned.vms ∧ s2.iommu = s0_assigned.iommu) ∧
    (∃ s1, vpci_assign_pcidev P0 s0 1 pc0 = Except.ok (0, s1)) :=
  ⟨(C13_assign_rejection_is_atomic P0 s0 1 { pc0 with phys_bdf := 0x200 }).1
      (fun h hf => by
        have h0 : pci_find_vdev s0 P0.sos_vm_id
            (u16 ({ pc0 with phys_bdf := 0x200 } : acrn_assign_pcidev).phys_bdf) = none := by
          decide
        rw [h0] at hf
        cases hf),
    (C13_assign_rejection_is_atomic P0 s0 1 pc0).2.1 s0_assigned rfl (by decide) 2,
    ((C13_assign_rejection_is_atomic P0 s0 1 pc0).2.2 ⟨0, 0⟩ pdev0 (by decide) rfl rfl rfl).2
      (by decide) (Or.inr (by decide)) (fun _ _ _ _ _ => rfl)⟩

/-- C14: `vpci_deassign_pcidev` serves only the current owner.  (1) When no instance at
`phys_bdf` in the service VM's table is owned by `tgt_vm` and has a physical device, the call
returns `-ENODEV` and leaves the VMs (every device table) and the IOMMU attachments as they
were.  (2) When the instance found is owned by `tgt_vm` and has a physical device, every
result the call returns is 0 with the instance owned by the service VM and its new-owner link
null; and the call does return 0 when the link was null already or the IOMMU accepts the move
back to the service VM's domain. -/
theorem C14_deassign_isolation (P : Platform) (s : State) (tgt_vm : Nat)
    (pcidev : acrn_assign_pcidev) :
    ((∀ h, pci_find_vdev s P.sos_vm_id (u16 pcidev.phys_bdf) = some h →
        ¬ ((get_vdev s h).vpci = some tgt_vm ∧ (get_vdev s h).pdev ≠ none)) →
      ∃ s2, vpci_deassign_pcidev P s tgt_vm pcidev = Except.ok (-ENODEV, s2) ∧
        s2.vms = s.vms ∧ s2.iommu = s.iommu) ∧
    (∀ h, pci_find_vdev s P.sos_vm_id (u16 pcidev.phys_bdf) = some h →
      (get_vdev s h).vpci = some tgt_vm → (get_vdev s h).pdev ≠ none →
      (∀ r, vpci_deassign_pcidev P s tgt_vm pcidev = Except.ok r →
        r.1 = 0 ∧ (get_vdev r.2 h).vpci = some P.sos_vm_id ∧
        (get_vdev r.2 h).new_owner = none) ∧
      (((get_vdev s h).new_owner = none ∨
          P.move_pt_status s.iommu (s.vms tgt_vm).iommu (s.vms P.sos_vm_id).iommu
            (u8 (u16 pcidev.phys_bdf >>> 8)) (u8 (u16 pcidev.phys_bdf &&& 0xff)) = 0) →
        ∃ s2, vpci_deassign_pcidev P s tgt_vm pcidev = Except.ok (0, s2))) := by
  constructor
  · intro hrej
    exact ⟨_, vpci_deassign_pcidev_rejected P s tgt_vm pcidev hrej, rfl, rfl⟩
  · intro h hfind hown hpd
    rw [vpci_deassign_pcidev_found P s tgt_vm pcidev h hfind hown hpd]
    constructor
    · intro r hr
      split at hr
      · cases hr
      · cases hr
        refine ⟨rfl, ?_, ?_⟩
        · simp only [spinlock_release, get_vdev_log, get_vdev_set_vdev_same]
        · simp only [spinlock_release, get_vdev_log, get_vdev_set_vdev_same]
    · intro hok
      have hrec : ∃ s3, deassign_reclaim P (spinlock_obtain (spinlock_obtain s P.sos_vm_id) tgt_vm)
          tgt_vm pcidev (get_vdev s h).new_owner = Except.ok s3 := by
        unfold deassign_reclaim
        cases hno : (get_vdev s h).new_owner with
        | none => exact ⟨_, rfl⟩
        | some n =>
          dsimp only
          rcases hok with hnone | hst
          · rw [hno] at hnone; cases hnone
          · rw [move_pt_device_ok _ _ _ _ _ _ (by simpa [spinlock_obtain] using hst)]
            simp
      obtain ⟨s3, hs3⟩ := hrec
      rw [hs3]
      exact ⟨_, rfl⟩

/-- C14 (witness): on `P0`, VM 1 cannot deassign 01:00.0 while the service VM owns it (`s0`),
VM 2 cannot deassign it once VM 1 owns it (`s0_assigned`), and VM 1 then can. -/
theorem C14_deassign_isolation_witness :
    (∃ s2, vpci_deassign_pcidev P0 s0 1 pc0 = Except.ok (-ENODEV, s2) ∧
      s2.vms = s0.vms ∧ s2.iommu = s0.iommu) ∧
    (∃ s2, vpci_deassign_pcidev P0 s0_assigned 2 pc0 = Except.ok (-ENODEV, s2) ∧
      s2.vms = s0_assigned.vms ∧ s2.iommu = s0_assigned.iommu) ∧
    (∃ s2, vpci_deassign_pcidev P0 s0_assigned 1 pc0 = Except.ok (0, s2)) :=
  ⟨(C14_deassign_isolation P0 s0 1 pc0).1 (fun h hf hc => by
      have h0 : pci_find_vdev s0 P0.sos_vm_id (u16 pc0.phys_bdf) = some ⟨0, 0⟩ := by decide
      rw [h0] at hf
      cases hf
      exact absurd hc.1 (by decide)),
    (C14_deassign_isolation P0 s0_assigned 2 pc0).1 (fun h hf hc => by
      have h0 : pci_find_vdev s0_assigned P0.sos_vm_id (u16 pc0.phys_bdf) = some ⟨0, 0⟩ := by
        decide
      rw [h0] at hf
      cases hf
      exact absurd hc.1 (by decide)),
    ((C14_deassign_isolation P0 s0_assigned 1 pc0).2 ⟨0, 0⟩ (by decide) (by decide)
      (by decide)).2 (Or.inr rfl)⟩

/-- C18: the state after `vpci_assign_pcidev` has returned 0 for a target other than the
service VM, on a source instance whose physical device is the one of its configuration (as
`vpci_init_vdev` leaves it).  The target's count has grown by one; the entry at the old count
holds the source's physical device and PF link, the virtual BDF, interrupt line and interrupt
pin of the request (truncated to their field widths) and every flag bit of the request's
type; the source's new-owner link names that entry; the service VM's count is unchanged and
so is every instance other than the source and the new entry. -/
theorem C18_assign_post_state (P : Platform) (s s1 : State) (tgt_vm : Nat)
    (pcidev : acrn_assign_pcidev)
    (ha : vpci_assign_pcidev P s tgt_vm pcidev = Except.ok (0, s1))
    (htgt : tgt_vm ≠ P.sos_vm_id)
    (hinv : ∀ h, pci_find_vdev s P.sos_vm_id (u16 pcidev.phys_bdf) = some h →
      (get_vdev s h).pci_dev_config.pdev = (get_vdev s h).pdev) :
    ∃ h, pci_find_vdev s P.sos_vm_id (u16 pcidev.phys_bdf) = some h ∧
      (get_vpci s1 tgt_vm).pci_vdev_cnt = (get_vpci s tgt_vm).pci_vdev_cnt + 1 ∧
      (get_vdev s1 ⟨tgt_vm, (get_vpci s tgt_vm).pci_vdev_cnt⟩).pdev = (get_vdev s h).pdev ∧
      (get_vdev s1 ⟨tgt_vm, (get_vpci s tgt_vm).pci_vdev_cnt⟩).phyfun = (get_vdev s h).phyfun ∧
      (get_vdev s1 ⟨tgt_vm, (get_vpci s tgt_vm).pci_vdev_cnt⟩).bdf = u16 pcidev.virt_bdf ∧
      (get_vdev s1 ⟨tgt_vm, (get_vpci s tgt_vm).pci_vdev_cnt⟩).cfgdata PCIR_INTERRUPT_LINE =
        u8 pcidev.intr_line ∧
      (get_vdev s1 ⟨tgt_vm, (get_vpci s tgt_vm).pci_vdev_cnt⟩).cfgdata PCIR_INTERRUPT_PIN =
        u8 pcidev.intr_pin ∧
      (∀ i, i < 32 → pcidev.type.testBit i = true →
        (get_vdev s1 ⟨tgt_vm, (get_vpci s tgt_vm).pci_vdev_cnt⟩).flags.testBit i = true) ∧
      (get_vdev s1 h).new_owner = some ⟨tgt_vm, (get_vpci s tgt_vm).pci_vdev_cnt⟩ ∧
      (get_vpci s1 P.sos_vm_id).pci_vdev_cnt = (get_vpci s P.sos_vm_id).pci_vdev_cnt ∧
      (∀ k, k ≠ h → k ≠ ⟨tgt_vm, (get_vpci s tgt_vm).pci_vdev_cnt⟩ →
        get_vdev s1 k = get_vdev s k) := by
  obtain ⟨h, pdev, hfind, -, -, -, -, hh, hfr, hcnt, -⟩ :=
    vpci_assign_pcidev_ok P s s1 tgt_vm pcidev ha
  obtain ⟨-, np, -, nf, nb, nfl, nl, ni⟩ :=
    vpci_assign_pcidev_new P s s1 tgt_vm pcidev h hfind ha
  refine ⟨h, hfind, ?_, np.trans (hinv h hfind), nf, nb, nl, ni, nfl, ?_, ?_, hfr⟩
  · rw [hcnt, if_pos rfl]
  · rw [hh]
  · rw [hcnt, if_neg (Ne.symm htgt)]

/-- C18 (witness): 01:00.0 of `s0` assigned to VM 1 with the request `pc0` (virtual address
00:03.0, interrupt line 10, pin 1). -/
theorem C18_assign_post_state_witness :
    (get_vpci s0_assigned 1).pci_vdev_cnt = 1 ∧
    (get_vdev s0_assigned ⟨1, 0⟩).pdev = some pdev0 ∧
    (get_vdev s0_assigned ⟨1, 0⟩).bdf = 0x18 ∧
    (get_vdev s0_assigned ⟨1, 0⟩).cfgdata 0x3c = 10 ∧
    (get_vdev s0_assigned ⟨1, 0⟩).cfgdata 0x3d = 1 ∧
    (get_vdev s0_assigned ⟨0, 0⟩).new_owner = some ⟨1, 0⟩ ∧
    (get_vpci s0_assigned 0).pci_vdev_cnt = 1 := by
  have h0 : pci_find_vdev s0 P0.sos_vm_id (u16 pc0.phys_bdf) = some ⟨0, 0⟩ := by decide
  obtain ⟨h, hf, hcnt, hp, -, hb, hl, hi, -, hno, hsos, -⟩ :=
    C18_assign_post_state P0 s0 s0_assigned 1 pc0 rfl (by decide) (fun h hf => by
      rw [h0] at hf
      cases hf
      rfl)
  rw [h0] at hf
  cases hf
  exact ⟨hcnt, hp, hb, hl, hi, hno, hsos⟩

/-- C15: a failed IOMMU move ends the operation in the panic outcome, at each of the four
places vpci.c calls `move_pt_device`.  (1) `vpci_assign_pcidev`, detaching the device from
the service VM's domain.  (2) `vpci_assign_pcidev`, attaching it to the target's domain in
the init hook of the new pass-through instance (the detachment has succeeded, the target's
table has room, the configuration names no operation set and a physical device that is not a
bridge).  (3) `vpci_deassign_pcidev`, moving the device back when the new-owner link is set.
(4) `deinit_postlaunched_vm_vpci`, at the first index `i` of the service VM's table where
the move back fails, the iterations before `i` having led to the state `si`. -/
theorem C15_iommu_failure_is_fatal (P : Platform) (s : State) (tgt_vm : Nat)
    (pcidev : acrn_assign_pcidev) :
    (∀ h pdev, pci_find_vdev s P.sos_vm_id (u16 pcidev.phys_bdf) = some h →
      (get_vdev s h).vpci = some P.sos_vm_id → (get_vdev s h).pdev = some pdev →
      P.has_sriov_cap (get_vdev s h) = false →
      P.move_pt_status s.iommu (s.vms P.sos_vm_id).iommu none (u8 (pdev.bdf >>> 8))
        (u8 (pdev.bdf &&& 0xFF)) ≠ 0 →
      vpci_assign_pcidev P s tgt_vm pcidev = Except.error Fault.panic) ∧
    (∀ h pdev pd, pci_find_vdev s P.sos_vm_id (u16 pcidev.phys_bdf) = some h →
      (get_vdev s h).vpci = some P.sos_vm_id → (get_vdev s h).pdev = some pdev →
      P.has_sriov_cap (get_vdev s h) = false →
      P.move_pt_status s.iommu (s.vms P.sos_vm_id).iommu none (u8 (pdev.bdf >>> 8))
        (u8 (pdev.bdf &&& 0xFF)) = 0 →
      (get_vpci s tgt_vm).pci_vdev_cnt < P.CONFIG_MAX_PCI_DEV_NUM →
      (get_vdev s h).pci_dev_config.vdev_ops = none →
      (get_vdev s h).pci_dev_config.pdev = some pd →
      pd.hdr_type ≠ PCIM_HDRTYPE_BRIDGE →
      P.move_pt_status
        (iommu_detach s.iommu (s.vms P.sos_vm_id).iommu (u8 (pdev.bdf >>> 8))
          (u8 (pdev.bdf &&& 0xFF)))
        none (s.vms tgt_vm).iommu (u8 (pd.bdf >>> 8)) (u8 (pd.bdf &&& 0xFF)) ≠ 0 →
      vpci_assign_pcidev P s tgt_vm pcidev = Except.error Fault.panic) ∧
    (∀ h n, pci_find_vdev s P.sos_vm_id (u16 pcidev.phys_bdf) = some h →
      (get_vdev s h).vpci = some tgt_vm → (get_vdev s h).pdev ≠ none →
      (get_vdev s h).new_owner = some n →
      P.move_pt_status s.iommu (s.vms tgt_vm).iommu (s.vms P.sos_vm_id).iommu
        (u8 (u16 pcidev.phys_bdf >>> 8)) (u8 (u16 pcidev.phys_bdf &&& 0xff)) ≠ 0 →
      vpci_deassign_pcidev P s tgt_vm pcidev = Except.error Fault.panic) ∧
    (∀ i si t pd, i < (get_vpci s P.sos_vm_id).pci_vdev_cnt →
      deinit_postlaunched_loop P tgt_vm (List.range i) (spinlock_obtain s P.sos_vm_id) =
        Except.ok si →
      (get_vdev si ⟨P.sos_vm_id, i⟩).vpci = some tgt_vm →
      (get_vdev si ⟨P.sos_vm_id, i⟩).new_owner = some t →
      (get_vdev si t).pdev = some pd →
      P.move_pt_status si.iommu (si.vms tgt_vm).iommu (si.vms P.sos_vm_id).iommu
        (u8 (pd.bdf >>> 8)) (u8 (pd.bdf &&& 0xFF)) ≠ 0 →
      deinit_postlaunched_vm_vpci P s tgt_vm = Except.error Fault.panic) := by
  refine ⟨?_, ?_, ?_, ?_⟩
  · intro h pdev hfind hown hpdev hsriov hst
    rw [vpci_assign_pcidev_found P s tgt_vm pcidev h pdev hfind hown hpdev hsriov,
      remove_vdev_pt_iommu_domain_panic P _ h P.sos_vm_id pdev
        (by rw [get_vdev_of_vms (assign_reset_check_vms _ _)]; exact hown)
        (by rw [get_vdev_of_vms (assign_reset_check_vms _ _)]; exact hpdev)
        (by rw [assign_reset_check_iommu, assign_reset_check_vms]; exact hst)]
  · intro h pdev pd hfind hown hpdev hsriov hdet hroom hops hpd hbr hst
    rw [vpci_assign_pcidev_found P s tgt_vm pcidev h pdev hfind hown hpdev hsriov,
      remove_vdev_pt_iommu_domain_eq P _ h P.sos_vm_id pdev
        (by rw [get_vdev_of_vms (assign_reset_check_vms _ _)]; exact hown)
        (by rw [get_vdev_of_vms (assign_reset_check_vms _ _)]; exact hpdev)
        (by rw [assign_reset_check_iommu, assign_reset_check_vms]; exact hdet)]
    dsimp only
    rw [assign_transfer_panic P _ tgt_vm pcidev h pd ?_ ?_ ?_ hbr ?_]
    · show (get_vpci (assign_reset_check (spinlock_obtain s P.sos_vm_id) pdev) tgt_vm).pci_vdev_cnt
        < P.CONFIG_MAX_PCI_DEV_NUM
      unfold get_vpci
      rw [assign_reset_check_vms]
      exact hroom
    · show (get_vdev (assign_reset_check (spinlock_obtain s P.sos_vm_id) pdev) h
        ).pci_dev_config.vdev_ops = none
      rw [get_vdev_of_vms (assign_reset_check_vms _ _)]
      exact hops
    · show (get_vdev (assign_reset_check (spinlock_obtain s P.sos_vm_id) pdev) h
        ).pci_dev_config.pdev = some pd
      rw [get_vdev_of_vms (assign_reset_check_vms _ _)]
      exact hpd
    · show P.move_pt_status (iommu_detach
          (assign_reset_check (spinlock_obtain s P.sos_vm_id) pdev).iommu
          (((assign_reset_check (spinlock_obtain s P.sos_vm_id) pdev).vms P.sos_vm_id).iommu)
          (u8 (pdev.bdf >>> 8)) (u8 (pdev.bdf &&& 0xFF))) none
        (((assign_reset_check (spinlock_obtain s P.sos_vm_id) pdev).vms tgt_vm).iommu)
        (u8 (pd.bdf >>> 8)) (u8 (pd.bdf &&& 0xFF)) ≠ 0
      rw [assign_reset_check_iommu, assign_reset_check_vms]
      exact hst
  · intro h n hfind hown hpd hno hst
    rw [vpci_deassign_pcidev_found P s tgt_vm pcidev h hfind hown hpd, hno]
    unfold deassign_reclaim
    dsimp only
    rw [if_pos (move_pt_device_fails _ _ _ _ _ _ (by simpa [spinlock_obtain] using hst))]
  · intro i si t pd hi hloop hown hno hpd hst
    unfold deinit_postlaunched_vm_vpci
    dsimp only
    obtain ⟨l, hl⟩ := range_split i (get_vpci (spinlock_obtain s P.sos_vm_id)
      P.sos_vm_id).pci_vdev_cnt (by simpa [spinlock_obtain] using hi)
    rw [hl, deinit_postlaunched_loop_append, hloop]
    have hstep : deinit_postlaunched_step P tgt_vm si i = Except.error Fault.panic := by
      unfold deinit_postlaunched_step
      simp only [is_own_device, hown, decide_True, if_true, spinlock_obtain, get_vdev_log, hno,
        hpd]
      rw [if_pos (move_pt_device_fails _ _ _ _ _ _ (by simpa using hst))]
    simp only [deinit_postlaunched_loop, hstep]

/-- C15 (witness): with an IOMMU that refuses every move (`P0_iommu_fails`), the assignment
of 01:00.0 of `s0` to VM 1, its deassignment from VM 1 in `s0_assigned` and the deinit of
VM 1 in `s0_assigned` all panic; with an IOMMU that refuses the attachments only
(`P0_attach_fails`), the assignment panics in the init hook. -/
theorem C15_iommu_failure_is_fatal_witness :
    vpci_assign_pcidev P0_iommu_fails s0 1 pc0 = Except.error Fault.panic ∧
    vpci_assign_pcidev P0_attach_fails s0 1 pc0 = Except.error Fault.panic ∧
    vpci_deassign_pcidev P0_iommu_fails s0_assigned 1 pc0 = Except.error Fault.panic ∧
    deinit_postlaunched_vm_vpci P0_iommu_fails s0_assigned 1 = Except.error Fault.panic :=
  ⟨(C15_iommu_failure_is_fatal P0_iommu_fails s0 1 pc0).1 ⟨0, 0⟩ pdev0 (by decide) rfl rfl rfl
      (by decide),
    (C15_iommu_failure_is_fatal P0_attach_fails s0 1 pc0).2.1 ⟨0, 0⟩ pdev0 pdev0 (by decide)
      rfl rfl rfl rfl (by decide) rfl rfl (by decide) (by decide),
    (C15_iommu_failure_is_fatal P0_iommu_fails s0_assigned 1 pc0).2.2.1 ⟨0, 0⟩ ⟨1, 0⟩
      (by decide) (by decide) (by decide) (by decide) (by decide),
    (C15_iommu_failure_is_fatal P0_iommu_fails s0_assigned 1 pc0).2.2.2 0
      (spinlock_obtain s0_assigned 0) ⟨1, 0⟩ pdev0 (by decide) rfl (by decide) (by decide)
      (by decide) (by decide)⟩

/-! ## Header reads: claim -/

theorem or_memen_testBit (x i : Nat) :
    (x ||| PCIM_CMD_MEMEN).testBit i = if i = 1 then true else x.testBit i := by
  rw [Nat.testBit_or]
  unfold PCIM_CMD_MEMEN
  by_cases hi : i = 1
  · subst hi
    rw [if_pos rfl]
    have : (2 : Nat).testBit 1 = true := by decide
    rw [this, Bool.or_true]
  · rw [if_neg hi]
    have : (2 : Nat).testBit i = false := by
      have := Nat.testBit_two_pow_of_ne (n := 1) (m := i) (Ne.symm hi)
      simpa using this
    rw [this, Bool.or_false]

/-- C21: header read policy.  With pt_mask = 0x0002 the pass-through bit of slot offset / 4 is
set exactly for the offsets 4..7.  For `read_cfg_header` at a header offset that is not a BAR
access: if the pass-through bit is set (and the instance has its physical device), the call
records one physical config read at (offset, width) and its result is the physical value,
except that for an instance with a physical function whose owner differs from its own, read
at offset 0x04, bit 1 (Memory Space Enable) of the result is set and every other bit is the
physical value's; if the pass-through bit is clear the result is the virtual config buffer's
value and the state, trace included, is as before. -/
theorem C21_header_read_policy (P : Platform) (s : State) (h : vdev_ref) (offset bytes : Nat)
    (hhdr : offset < PCI_CFG_HEADER_LENGTH)
    (hnb : P.vbar_access (get_vdev s h) offset = false) :
    (cfg_hdr_perm_pt_mask.testBit (offset / 4) = true ↔ (4 ≤ offset ∧ offset < 8)) ∧
    (cfg_hdr_perm_pt_mask.testBit (offset / 4) = true →
      ∀ pd, (get_vdev s h).pdev = some pd →
      ∃ v, read_cfg_header P s h offset bytes =
          Except.ok (v, log s (Event.pci_pdev_read_cfg pd.bdf offset bytes)) ∧
        (∀ pf, (get_vdev s h).phyfun = some pf → offset = PCIR_COMMAND →
          (get_vdev s h).vpci ≠ (get_vdev s pf).vpci →
          v.testBit 1 = true ∧
          ∀ i, i ≠ 1 →
            v.testBit i = (u32 (P.pci_pdev_read_cfg s.trace pd.bdf offset bytes)).testBit i) ∧
        (((get_vdev s h).phyfun = none ∨ offset ≠ PCIR_COMMAND ∨
            ∀ pf, (get_vdev s h).phyfun = some pf →
              (get_vdev s h).vpci = (get_vdev s pf).vpci) →
          v = u32 (P.pci_pdev_read_cfg s.trace pd.bdf offset bytes))) ∧
    (cfg_hdr_perm_pt_mask.testBit (offset / 4) = false →
      read_cfg_header P s h offset bytes =
        Except.ok (u32 (pci_vdev_read_vcfg (get_vdev s h) offset bytes), s)) := by
  have hk : offset / 4 < 16 := by
    unfold PCI_CFG_HEADER_LENGTH at hhdr; omega
  have hpt := pt_mask_slots (offset / 4) hk
  refine ⟨?_, ?_, ?_⟩
  · rw [hpt, decide_eq_true_eq]
    omega
  · intro hbit pd hpd
    unfold read_cfg_header
    simp only [hnb, Bool.false_eq_true, if_false, bitmap32_test_slot _ _ hhdr, hbit, if_true, hpd,
      pci_pdev_read_cfg]
    cases hpf : (get_vdev s h).phyfun with
    | none =>
      refine ⟨_, rfl, ?_, fun _ => rfl⟩
      intro pf hc
      cases hc
    | some pf =>
      dsimp only
      by_cases hc : offset = PCIR_COMMAND ∧ (get_vdev s h).vpci ≠ (get_vdev s pf).vpci
      · rw [if_pos hc]
        refine ⟨_, rfl, ?_, ?_⟩
        · intro pf2 hpf2 _ _
          refine ⟨?_, ?_⟩
          · rw [or_memen_testBit, if_pos rfl]
          · intro i hi
            rw [or_memen_testBit, if_neg hi]
        · intro hor
          rcases hor with h1 | h1 | h1
          · cases h1
          · exact absurd hc.1 h1
          · exact absurd (h1 pf rfl) hc.2
      · rw [if_neg hc]
        refine ⟨_, rfl, ?_, fun _ => rfl⟩
        intro pf2 hpf2 ho hv
        cases hpf2
        exact absurd ⟨ho, hv⟩ hc
  · intro hbit
    unfold read_cfg_header
    simp only [hnb, Bool.false_eq_true, if_false, bitmap32_test_slot _ _ hhdr, hbit]

/-- C21 (witness): a 2-byte read at 0x04 of the virtual function of `s0_vf` on `P0` (physical
value 0: only bit 1 of the result is set); a 2-byte read at 0x06 of 01:00.0 of `s0` on
`P0_phys_ids` (the physical value); a 4-byte read at 0x00 of 01:00.0 of `s0_ids` (the
virtual config buffer, no physical read). -/
theorem C21_header_read_policy_witness :
    (∃ v, read_cfg_header P0 s0_vf ⟨1, 0⟩ 0x04 2 =
        Except.ok (v, log s0_vf (Event.pci_pdev_read_cfg 0x100 0x04 2)) ∧
      v.testBit 1 = true ∧ ∀ i, i ≠ 1 → v.testBit i = false) ∧
    read_cfg_header P0_phys_ids s0 ⟨0, 0⟩ 0x06 2 =
      Except.ok (0x56788086, log s0 (Event.pci_pdev_read_cfg 0x100 0x06 2)) ∧
    read_cfg_header P0_phys_ids s0_ids ⟨0, 0⟩ 0x00 4 = Except.ok (0x12348086, s0_ids) := by
  obtain ⟨-, hpt, -⟩ := C21_header_read_policy P0 s0_vf ⟨1, 0⟩ 0x04 2 (by decide) rfl
  obtain ⟨v, hv, hvf, -⟩ := hpt (by decide) pdev0 rfl
  obtain ⟨hv1, hvi⟩ := hvf ⟨0, 0⟩ rfl rfl (by decide)
  obtain ⟨-, hpt2, -⟩ := C21_header_read_policy P0_phys_ids s0 ⟨0, 0⟩ 0x06 2 (by decide) rfl
  obtain ⟨w, hw, -, hphys⟩ := hpt2 (by decide) pdev0 rfl
  obtain ⟨-, -, hvirt⟩ := C21_header_read_policy P0_phys_ids s0_ids ⟨0, 0⟩ 0x00 4 (by decide) rfl
  refine ⟨⟨v, hv, hv1, fun i hi => ?_⟩, ?_, ?_⟩
  · rw [hvi i hi]
    exact Nat.zero_testBit i
  · rw [hw, hphys (Or.inl rfl)]
    rfl
  · rw [hvirt (by decide)]
    rfl

/-! ## Lock order: lemmas and claim -/

theorem lock_ops_append (a b : List Event) : lock_ops (a ++ b) = lock_ops a ++ lock_ops b := by
  induction a with
  | nil => rfl
  | cons e a ih =>
    cases e <;> simp [lock_ops, ih]

theorem performs_refl (s : State) : performs s s [] := ⟨[], by simp, rfl⟩

theorem performs_of_trace {s s2 : State} (h : s2.trace = s.trace) : performs s s2 [] :=
  ⟨[], by simp [h], rfl⟩

theorem performs_trans {s s2 s3 : State} {a b : List lock_op} (h1 : performs s s2 a)
    (h2 : performs s2 s3 b) : performs s s3 (a ++ b) := by
  obtain ⟨e1, ht1, hl1⟩ := h1
  obtain ⟨e2, ht2, hl2⟩ := h2
  exact ⟨e1 ++ e2, by rw [ht2, ht1, List.append_assoc], by rw [lock_ops_append, hl1, hl2]⟩

theorem performs_log (s : State) (e : Event) : performs s (log s e) (lock_ops [e]) :=
  ⟨[e], rfl, rfl⟩

theorem performs_ext_call (P : Platform) (f : ext_fn) (s : State) (h : vdev_ref)
    (a : List Nat) : performs s (ext_call P f s h a) [] :=
  ⟨[Event.ext f h a], rfl, rfl⟩

theorem performs_move_pt_device (P : Platform) (s : State) (f t : Option Nat) (b d : Nat) :
    performs s (move_pt_device P s f t b d).2 [] := by
  unfold move_pt_device
  dsimp only
  split
  · exact ⟨[Event.move_pt_device f t b d], rfl, rfl⟩
  · exact ⟨[Event.move_pt_device f t b d], rfl, rfl⟩

theorem performs_nil_trans {s s2 s3 : State} (h1 : performs s s2 []) (h2 : performs s2 s3 []) :
    performs s s3 [] := performs_trans h1 h2

theorem assign_vdev_pt_iommu_domain_performs (P : Platform) (s s2 : State) (n : vdev_ref)
    (h : assign_vdev_pt_iommu_domain P s n = Except.ok s2) : performs s s2 [] := by
  unfold assign_vdev_pt_iommu_domain at h
  split at h
  · dsimp only at h
    split at h
    · cases h
    · cases h
      exact performs_move_pt_device _ _ _ _ _ _
  · cases h

theorem remove_vdev_pt_iommu_domain_performs (P : Platform) (s s2 : State) (n : vdev_ref)
    (h : remove_vdev_pt_iommu_domain P s n = Except.ok s2) : performs s s2 [] := by
  unfold remove_vdev_pt_iommu_domain at h
  split at h
  · dsimp only at h
    split at h
    · cases h
    · cases h
      exact performs_move_pt_device _ _ _ _ _ _
  · cases h

theorem init_vdev_performs (P : Platform) (s s2 : State) (n : vdev_ref)
    (h : init_vdev P s n = Except.ok s2) : performs s s2 [] := by
  unfold init_vdev at h
  split at h
  · unfold vpci_init_pt_dev at h
    simp only at h
    exact performs_nil_trans (performs_nil_trans (performs_nil_trans (performs_nil_trans
      (performs_ext_call _ _ _ _ _) (performs_ext_call _ _ _ _ _))
      (performs_ext_call _ _ _ _ _)) (performs_ext_call _ _ _ _ _))
      (assign_vdev_pt_iommu_domain_performs _ _ _ _ h)
  · cases h
    exact performs_ext_call _ _ _ _ _

theorem vpci_init_vdev_performs (P : Platform) (s s2 : State) (vpci : Nat)
    (cfg : acrn_vm_pci_dev_config) (pf : Option vdev_ref) (n : vdev_ref)
    (h : vpci_init_vdev P s vpci cfg pf = Except.ok (n, s2)) : performs s s2 [] := by
  unfold vpci_init_vdev at h
  dsimp only at h
  split at h
  · split at h
    · cases h
    · split at h
      · cases h
      · rename_i s4 hinit
        cases h
        obtain ⟨evs, ht, hl⟩ := init_vdev_performs _ _ _ _ hinit
        exact ⟨evs, ht, hl⟩
  · cases h

theorem assign_bar_trace (P : Platform) (pcidev : acrn_assign_pcidev) (h n : vdev_ref)
    (s : State) (idx : Nat) : (assign_bar P pcidev h n s idx).trace = s.trace := by
  unfold assign_bar
  dsimp only
  split
  · split <;> rfl
  · rfl

theorem assign_bar_foldl_trace (P : Platform) (pcidev : acrn_assign_pcidev) (h n : vdev_ref)
    (l : List Nat) (s : State) : (l.foldl (assign_bar P pcidev h n) s).trace = s.trace := by
  induction l generalizing s with
  | nil => rfl
  | cons i l ih =>
    simp only [List.foldl_cons]
    rw [ih, assign_bar_trace]

theorem assign_configure_trace (P : Platform) (s : State) (pcidev : acrn_assign_pcidev)
    (h n : vdev_ref) : (assign_configure P s pcidev h n).trace = s.trace := by
  unfold assign_configure
  dsimp only
  simp only [trace_set_vdev, assign_bar_foldl_trace]

theorem assign_transfer_performs (P : Platform) (s s2 : State) (tgt_vm : Nat)
    (pcidev : acrn_assign_pcidev) (h : vdev_ref)
    (ht : assign_transfer P s tgt_vm pcidev h = Except.ok s2) :
    performs s s2 [lock_op.obtain tgt_vm, lock_op.release tgt_vm] := by
  unfold assign_transfer at ht
  dsimp only at ht
  split at ht
  · cases ht
  · rename_i r hr
    obtain ⟨n, s3⟩ := r
    cases ht
    have h1 : performs s (spinlock_obtain (set_vdev s h { get_vdev s h with vpci := some tgt_vm })
        tgt_vm) [lock_op.obtain tgt_vm] := ⟨[Event.spinlock_obtain tgt_vm], rfl, rfl⟩
    have h2 := vpci_init_vdev_performs _ _ _ _ _ _ _ hr
    have h3 : performs s3 (assign_configure P s3 pcidev h n) [] :=
      performs_of_trace (assign_configure_trace _ _ _ _ _)
    have h4 : performs (assign_configure P s3 pcidev h n)
        (set_vdev (spinlock_release (assign_configure P s3 pcidev h n) tgt_vm) h
          { get_vdev (spinlock_release (assign_configure P s3 pcidev h n) tgt_vm) h with
            new_owner := some n })
        [lock_op.release tgt_vm] := ⟨[Event.spinlock_release tgt_vm], rfl, rfl⟩
    exact performs_trans (performs_trans (performs_trans h1 h2) h3) h4

theorem assign_reset_check_performs (s : State) (pdev : pci_pdev) :
    performs s (assign_reset_check s pdev) [] := by
  unfold assign_reset_check
  split
  · exact performs_log _ _
  · exact performs_log _ _

theorem lock_order_pairs (sos vm : Nat) (hvm : vm ≠ sos) (k : Nat) (rest : List lock_op) :
    lock_order_run sos (lock_pairs vm k ++ rest) [sos] = lock_order_run sos rest [sos] := by
  induction k with
  | zero => rfl
  | succ k ih =>
    simp only [lock_pairs, List.cons_append, lock_order_run]
    simp [hvm, ih]


theorem vpci_assign_pcidev_performs (P : Platform) (s : State) (tgt_vm : Nat)
    (pcidev : acrn_assign_pcidev) (r : Int × State)
    (ha : vpci_assign_pcidev P s tgt_vm pcidev = Except.ok r) :
    (r.1 = 0 ∧ performs s r.2 [lock_op.obtain P.sos_vm_id, lock_op.obtain tgt_vm,
      lock_op.release tgt_vm, lock_op.release P.sos_vm_id]) ∨
    (r.1 = -ENODEV ∧ performs s r.2 [lock_op.obtain P.sos_vm_id,
      lock_op.release P.sos_vm_id]) := by
  have hrej : performs s (spinlock_release (log (spinlock_obtain s P.sos_vm_id) Event.pr_fatal)
      P.sos_vm_id) [lock_op.obtain P.sos_vm_id, lock_op.release P.sos_vm_id] :=
    ⟨[Event.spinlock_obtain P.sos_vm_id, Event.pr_fatal, Event.spinlock_release P.sos_vm_id],
      by simp [spinlock_release, spinlock_obtain], rfl⟩
  unfold vpci_assign_pcidev at ha
  dsimp only at ha
  split at ha
  · cases ha
    exact Or.inr ⟨rfl, hrej⟩
  · rename_i h hfind
    split at ha
    · cases ha
      exact Or.inr ⟨rfl, hrej⟩
    · rename_i pdev hpdev
      split at ha
      · split at ha
        · cases ha
        · rename_i s3 hs3
          simp only [if_true] at ha
          split at ha
          · cases ha
          · rename_i s4 hs4
            cases ha
            refine Or.inl ⟨rfl, ?_⟩
            have h1 : performs s (spinlock_obtain s P.sos_vm_id) [lock_op.obtain P.sos_vm_id] :=
              performs_log _ _
            have h2 := assign_reset_check_performs (spinlock_obtain s P.sos_vm_id) pdev
            have h3 := remove_vdev_pt_iommu_domain_performs _ _ _ _ hs3
            have h4 := assign_transfer_performs _ _ _ _ _ _ hs4
            have h5 : performs s4 (spinlock_release s4 P.sos_vm_id)
                [lock_op.release P.sos_vm_id] := performs_log _ _
            exact performs_trans (performs_trans (performs_trans (performs_trans h1 h2) h3) h4) h5
      · cases ha
        exact Or.inr ⟨rfl, hrej⟩

theorem deassign_reclaim_performs (P : Platform) (s s2 : State) (tgt_vm : Nat)
    (pcidev : acrn_assign_pcidev) (vdev : Option vdev_ref)
    (h : deassign_reclaim P s tgt_vm pcidev vdev = Except.ok s2) : performs s s2 [] := by
  unfold deassign_reclaim at h
  split at h
  · cases h
    exact performs_refl _
  · dsimp only at h
    split at h
    · cases h
    · cases h
      exact performs_nil_trans (performs_nil_trans (performs_move_pt_device _ _ _ _ _ _)
        (performs_ext_call _ _ _ _ _)) (performs_ext_call _ _ _ _ _)

theorem vpci_deassign_pcidev_performs (P : Platform) (s : State) (tgt_vm : Nat)
    (pcidev : acrn_assign_pcidev) (r : Int × State)
    (ha : vpci_deassign_pcidev P s tgt_vm pcidev = Except.ok r) :
    (r.1 = 0 ∧ performs s r.2 [lock_op.obtain P.sos_vm_id, lock_op.obtain tgt_vm,
      lock_op.release tgt_vm, lock_op.release P.sos_vm_id]) ∨
    (r.1 = -ENODEV ∧ performs s r.2 [lock_op.obtain P.sos_vm_id,
      lock_op.release P.sos_vm_id]) := by
  have hrej : performs s (spinlock_release (log (spinlock_obtain s P.sos_vm_id) Event.pr_fatal)
      P.sos_vm_id) [lock_op.obtain P.sos_vm_id, lock_op.release P.sos_vm_id] :=
    ⟨[Event.spinlock_obtain P.sos_vm_id, Event.pr_fatal, Event.spinlock_release P.sos_vm_id],
      by simp [spinlock_release, spinlock_obtain], rfl⟩
  unfold vpci_deassign_pcidev at ha
  dsimp only at ha
  split at ha
  · cases ha
    exact Or.inr ⟨rfl, hrej⟩
  · rename_i h hfind
    split at ha
    · split at ha
      · cases ha
      · rename_i s3 hs3
        cases ha
        refine Or.inl ⟨rfl, ?_⟩
        have h1 : performs s (spinlock_obtain (spinlock_obtain s P.sos_vm_id) tgt_vm)
            [lock_op.obtain P.sos_vm_id, lock_op.obtain tgt_vm] :=
          ⟨[Event.spinlock_obtain P.sos_vm_id, Event.spinlock_obtain tgt_vm],
            by simp [spinlock_obtain], rfl⟩
        have h2 := deassign_reclaim_performs _ _ _ _ _ _ hs3
        have h3 : performs s3 (spinlock_release s3 tgt_vm) [lock_op.release tgt_vm] :=
          performs_log _ _
        have h4 : performs (spinlock_release s3 tgt_vm)
            (spinlock_release
              (set_vdev (set_vdev (spinlock_release s3 tgt_vm) h
                { get_vdev (spinlock_release s3 tgt_vm) h with vpci := some P.sos_vm_id }) h
                { get_vdev (set_vdev (spinlock_release s3 tgt_vm) h
                    { get_vdev (spinlock_release s3 tgt_vm) h with vpci := some P.sos_vm_id }) h
                  with new_owner := none }) P.sos_vm_id)
            [lock_op.release P.sos_vm_id] := ⟨[Event.spinlock_release P.sos_vm_id], rfl, rfl⟩
        exact performs_trans (performs_trans (performs_trans h1 h2) h3) h4
    · cases ha
      exact Or.inr ⟨rfl, hrej⟩

theorem deinit_postlaunched_step_performs (P : Platform) (vm : Nat) (s s1 : State) (i : Nat)
    (h : deinit_postlaunched_step P vm s i = Except.ok s1) :
    performs s s1 [] ∨ performs s s1 [lock_op.obtain vm, lock_op.release vm] := by
  unfold deinit_postlaunched_step at h
  dsimp only at h
  split at h
  · split at h
    · cases h
    · rename_i t ht
      split at h
      · cases h
      · rename_i pd hpd
        split at h
        · cases h
        · cases h
          right
          have h1 : performs s (spinlock_obtain s vm) [lock_op.obtain vm] := performs_log _ _
          have h2 := performs_move_pt_device P (spinlock_obtain s vm)
            ((spinlock_obtain s vm).vms vm).iommu ((spinlock_obtain s vm).vms P.sos_vm_id).iommu
            (u8 (pd.bdf >>> 8)) (u8 (pd.bdf &&& 0xFF))
          have h3 := performs_ext_call P ext_fn.deinit_vmsi
            (move_pt_device P (spinlock_obtain s vm) ((spinlock_obtain s vm).vms vm).iommu
              ((spinlock_obtain s vm).vms P.sos_vm_id).iommu (u8 (pd.bdf >>> 8))
              (u8 (pd.bdf &&& 0xFF))).2 t []
          have h4 := performs_ext_call P ext_fn.deinit_vmsix (ext_call P ext_fn.deinit_vmsi
            (move_pt_device P (spinlock_obtain s vm) ((spinlock_obtain s vm).vms vm).iommu
              ((spinlock_obtain s vm).vms P.sos_vm_id).iommu (u8 (pd.bdf >>> 8))
              (u8 (pd.bdf &&& 0xFF))).2 t []) t []
          obtain ⟨evs, hev, hlo⟩ := performs_trans (performs_trans (performs_trans h1 h2) h3) h4
          refine ⟨evs ++ [Event.spinlock_release vm], ?_, ?_⟩
          · simp only [spinlock_release, trace_log, trace_set_vdev]
            rw [hev, List.append_assoc]
          · rw [lock_ops_append, hlo]
            rfl
  · cases h
    exact Or.inl (performs_refl _)

theorem deinit_postlaunched_loop_performs (P : Platform) (vm : Nat) (l : List Nat)
    (s s2 : State) (h : deinit_postlaunched_loop P vm l s = Except.ok s2) :
    ∃ k, k ≤ l.length ∧ performs s s2 (lock_pairs vm k) := by
  induction l generalizing s with
  | nil =>
    cases h
    exact ⟨0, Nat.le_refl _, performs_refl _⟩
  | cons i l ih =>
    simp only [deinit_postlaunched_loop] at h
    split at h
    · cases h
    · rename_i s1 hs1
      obtain ⟨k, hk, hp⟩ := ih s1 h
      rcases deinit_postlaunched_step_performs P vm s s1 i hs1 with h0 | h0
      · exact ⟨k, Nat.le_succ_of_le hk, performs_trans h0 hp⟩
      · exact ⟨k + 1, Nat.succ_le_succ hk, performs_trans h0 hp⟩

theorem deinit_postlaunched_vm_vpci_performs (P : Platform) (s s2 : State) (vm : Nat)
    (h : deinit_postlaunched_vm_vpci P s vm = Except.ok s2) :
    ∃ k, k ≤ (get_vpci s P.sos_vm_id).pci_vdev_cnt ∧
      performs s s2
        (lock_op.obtain P.sos_vm_id :: lock_pairs vm k ++ [lock_op.release P.sos_vm_id]) := by
  unfold deinit_postlaunched_vm_vpci at h
  dsimp only at h
  split at h
  · cases h
  · rename_i s3 hs3
    cases h
    obtain ⟨k, hk, hp⟩ := deinit_postlaunched_loop_performs P vm _ _ _ hs3
    refine ⟨k, by simpa [spinlock_obtain] using hk, ?_⟩
    have h1 : performs s (spinlock_obtain s P.sos_vm_id) [lock_op.obtain P.sos_vm_id] :=
      performs_log _ _
    have h3 : performs s3 (spinlock_release s3 P.sos_vm_id) [lock_op.release P.sos_vm_id] :=
      performs_log _ _
    exact performs_trans (performs_trans h1 hp) h3

/-- C23: lock order of the cross-VM operations, for a guest `tgt_vm` (not the service VM).
Whenever `vpci_assign_pcidev` or `vpci_deassign_pcidev` returns, the lock operations it has
added to the trace are: acquire service VM, acquire guest, release guest, release service VM
when it returns 0, and acquire service VM, release service VM when it returns `-ENODEV`.
Whenever `deinit_postlaunched_vm_vpci` returns, they are: acquire service VM, then `k`
rounds of acquire guest, release guest (at most one per entry of the service VM's table),
then release service VM.  Each of these sequences keeps the lock order (`lock_order_run`):
the guest's lock is acquired only while the service VM's is held, the service VM's is released
last, and no lock is held at the return. -/
theorem C23_lock_order (P : Platform) (s : State) (tgt_vm : Nat) (pcidev : acrn_assign_pcidev)
    (htgt : tgt_vm ≠ P.sos_vm_id) :
    (∀ r, vpci_assign_pcidev P s tgt_vm pcidev = Except.ok r →
      ∃ lo, performs s r.2 lo ∧ lock_order_run P.sos_vm_id lo [] = some [] ∧
        ((r.1 = 0 ∧ lo = [lock_op.obtain P.sos_vm_id, lock_op.obtain tgt_vm,
            lock_op.release tgt_vm, lock_op.release P.sos_vm_id]) ∨
          (r.1 = -ENODEV ∧ lo = [lock_op.obtain P.sos_vm_id, lock_op.release P.sos_vm_id]))) ∧
    (∀ r, vpci_deassign_pcidev P s tgt_vm pcidev = Except.ok r →
      ∃ lo, performs s r.2 lo ∧ lock_order_run P.sos_vm_id lo [] = some [] ∧
        ((r.1 = 0 ∧ lo = [lock_op.obtain P.sos_vm_id, lock_op.obtain tgt_vm,
            lock_op.release tgt_vm, lock_op.release P.sos_vm_id]) ∨
          (r.1 = -ENODEV ∧ lo = [lock_op.obtain P.sos_vm_id, lock_op.release P.sos_vm_id]))) ∧
    (∀ s2, deinit_postlaunched_vm_vpci P s tgt_vm = Except.ok s2 →
      ∃ lo k, performs s s2 lo ∧ lock_order_run P.sos_vm_id lo [] = some [] ∧
        k ≤ (get_vpci s P.sos_vm_id).pci_vdev_cnt ∧
        lo = lock_op.obtain P.sos_vm_id :: lock_pairs tgt_vm k ++
          [lock_op.release P.sos_vm_id]) := by
  have h4 : lock_order_run P.sos_vm_id [lock_op.obtain P.sos_vm_id, lock_op.obtain tgt_vm,
      lock_op.release tgt_vm, lock_op.release P.sos_vm_id] [] = some [] := by
    simp [lock_order_run, htgt, Ne.symm htgt]
  have h2 : lock_order_run P.sos_vm_id [lock_op.obtain P.sos_vm_id,
      lock_op.release P.sos_vm_id] [] = some [] := by
    simp [lock_order_run]
  refine ⟨?_, ?_, ?_⟩
  · intro r hr
    rcases vpci_assign_pcidev_performs P s tgt_vm pcidev r hr with ⟨h0, hp⟩ | ⟨h0, hp⟩
    · exact ⟨_, hp, h4, Or.inl ⟨h0, rfl⟩⟩
    · exact ⟨_, hp, h2, Or.inr ⟨h0, rfl⟩⟩
  · intro r hr
    rcases vpci_deassign_pcidev_performs P s tgt_vm pcidev r hr with ⟨h0, hp⟩ | ⟨h0, hp⟩
    · exact ⟨_, hp, h4, Or.inl ⟨h0, rfl⟩⟩
    · exact ⟨_, hp, h2, Or.inr ⟨h0, rfl⟩⟩
  · intro s2 hs2
    obtain ⟨k, hk, hp⟩ := deinit_postlaunched_vm_vpci_performs P s s2 tgt_vm hs2
    refine ⟨_, k, hp, ?_, hk, rfl⟩
    have := lock_order_pairs P.sos_vm_id tgt_vm htgt k [lock_op.release P.sos_vm_id]
    simp only [List.cons_append, lock_order_run, List.not_mem_nil, if_false, ne_eq,
      not_true_eq_false, false_and]
    exact this.trans (by simp [lock_order_run])

/-- C23 (witness): on `P0`, the assignment of 01:00.0 of `s0` to VM 1, its deassignment from
VM 1 in `s0_assigned` and the deinit of VM 1 in `s0_assigned`. -/
theorem C23_lock_order_witness :
    (∃ lo, performs s0 s0_assigned lo ∧ lock_order_run 0 lo [] = some [] ∧
      lo = [lock_op.obtain 0, lock_op.obtain 1, lock_op.release 1, lock_op.release 0]) ∧
    (∃ r lo, vpci_deassign_pcidev P0 s0_assigned 1 pc0 = Except.ok r ∧
      performs s0_assigned r.2 lo ∧ lock_order_run 0 lo [] = some []) ∧
    (∃ s2 lo, deinit_postlaunched_vm_vpci P0 s0_assigned 1 = Except.ok s2 ∧
      performs s0_assigned s2 lo ∧ lock_order_run 0 lo [] = some []) := by
  obtain ⟨lo, hp, hr, hlo⟩ := (C23_lock_order P0 s0 1 pc0 (by decide)).1 (0, s0_assigned) rfl
  obtain ⟨r, hr2⟩ : ∃ r, vpci_deassign_pcidev P0 s0_assigned 1 pc0 = Except.ok r := ⟨_, rfl⟩
  obtain ⟨lo2, hp2, hrun2, -⟩ := (C23_lock_order P0 s0_assigned 1 pc0 (by decide)).2.1 r hr2
  obtain ⟨s2, hs2⟩ : ∃ s2, deinit_postlaunched_vm_vpci P0 s0_assigned 1 = Except.ok s2 :=
    ⟨_, rfl⟩
  obtain ⟨lo3, k, hp3, hrun3, -, -⟩ :=
    (C23_lock_order P0 s0_assigned 1 pc0 (by decide)).2.2 s2 hs2
  refine ⟨⟨lo, hp, hr, ?_⟩, ⟨r, lo2, hr2, hp2, hrun2⟩, ⟨s2, lo3, hs2, hp3, hrun3⟩⟩
  rcases hlo with ⟨-, h⟩ | ⟨h, -⟩
  · exact h
  · exact absurd h (by decide)

/-! ## Ownership links and reclaim: lemmas -/

theorem reclaimed_refl (P : Platform) (vm : Nat) (s : State) : reclaimed P vm s s :=
  ⟨same_regs_refl s, fun _ => Or.inl rfl, fun _ _ => same_identity_refl _⟩

theorem reclaimed_of_vms (P : Platform) (vm : Nat) {s s2 : State} (h : s2.vms = s.vms) :
    reclaimed P vm s s2 :=
  ⟨same_regs_of_vms h, fun _ => Or.inl (get_vdev_of_vms h _),
    fun k _ => by rw [get_vdev_of_vms h k]; exact same_identity_refl _⟩

theorem reclaimed_trans (P : Platform) (vm : Nat) (hvm : vm ≠ P.sos_vm_id) {s s2 s3 : State}
    (h1 : reclaimed P vm s s2) (h2 : reclaimed P vm s2 s3) : reclaimed P vm s s3 := by
  obtain ⟨r1, e1, k1⟩ := h1
  obtain ⟨r2, e2, k2⟩ := h2
  refine ⟨same_regs_trans r1 r2, ?_, fun k hk => same_identity_trans (k1 k hk) (k2 k hk)⟩
  intro i
  rcases e1 i with a | ⟨a1, a2⟩
  · rcases e2 i with b | ⟨b1, b2⟩
    · exact Or.inl (b.trans a)
    · rw [a] at b1 b2
      exact Or.inr ⟨b1, b2⟩
  · rcases e2 i with b | ⟨b1, b2⟩
    · exact Or.inr ⟨a1, b.trans a2⟩
    · rw [a2] at b1
      exact absurd (Option.some.inj b1).symm hvm

theorem inv_of_reclaimed (P : Platform) (vm : Nat) {s s2 : State}
    (hl : link_inv P s) (hw : table_wf P s) (h : reclaimed P vm s s2) :
    link_inv P s2 ∧ table_wf P s2 := by
  obtain ⟨hr, he, hk⟩ := h
  constructor
  · intro i hi
    rw [(hr P.sos_vm_id).2.2.1] at hi
    rcases he i with a | ⟨-, a⟩
    · rw [a]
      refine ⟨(hl i hi).1, ?_⟩
      intro t ht
      obtain ⟨h1, h2⟩ := (hl i hi).2 t ht
      obtain ⟨htv, -, -⟩ := (hw i hi).2 t ht
      obtain ⟨q1, -, q3, -⟩ := hk t htv
      exact ⟨q1.trans h1, q3.trans h2⟩
    · rw [a]
      exact ⟨by simp, fun t ht => by cases ht⟩
  · intro i hi
    rw [(hr P.sos_vm_id).2.2.1] at hi
    rcases he i with a | ⟨-, a⟩
    · rw [a]
      refine ⟨(hw i hi).1, ?_⟩
      intro t ht
      obtain ⟨h1, h2, h3⟩ := (hw i hi).2 t ht
      exact ⟨h1, by rw [(hr t.vm).2.2.1]; exact h2, h3⟩
    · rw [a]
      exact ⟨(hw i hi).1, fun t ht => by cases ht⟩

theorem move_pt_device_zero (P : Platform) (s : State) (f t : Option Nat) (b d : Nat)
    (h : ¬ (move_pt_device P s f t b d).1 ≠ 0) : P.move_pt_status s.iommu f t b d = 0 := by
  by_contra hne
  exact h (move_pt_device_fails P s f t b d hne)

theorem deinit_step_other (P : Platform) (vm : Nat) (s : State) (i : Nat)
    (hown : (get_vdev s ⟨P.sos_vm_id, i⟩).vpci ≠ some vm) :
    deinit_postlaunched_step P vm s i = Except.ok s := by
  unfold deinit_postlaunched_step
  simp [is_own_device, hown]

theorem deinit_step_cases (P : Platform) (vm : Nat) (s : State) (i : Nat) (t : vdev_ref)
    (pd : pci_pdev)
    (hown : (get_vdev s ⟨P.sos_vm_id, i⟩).vpci = some vm)
    (hlink : (get_vdev s ⟨P.sos_vm_id, i⟩).new_owner = some t)
    (hpd : (get_vdev s t).pdev = some pd) :
    (P.move_pt_status s.iommu (s.vms vm).iommu (s.vms P.sos_vm_id).iommu
        (u8 (pd.bdf >>> 8)) (u8 (pd.bdf &&& 0xFF)) ≠ 0 ∧
      deinit_postlaunched_step P vm s i = Except.error Fault.panic) ∨
    (P.move_pt_status s.iommu (s.vms vm).iommu (s.vms P.sos_vm_id).iommu
        (u8 (pd.bdf >>> 8)) (u8 (pd.bdf &&& 0xFF)) = 0 ∧
      ∃ s1, deinit_postlaunched_step P vm s i = Except.ok s1) := by
  unfold deinit_postlaunched_step
  simp only [is_own_device, hown, decide_True, if_true, spinlock_obtain, get_vdev_log, hlink, hpd]
  by_cases hst : P.move_pt_status s.iommu (s.vms vm).iommu (s.vms P.sos_vm_id).iommu
      (u8 (pd.bdf >>> 8)) (u8 (pd.bdf &&& 0xFF)) = 0
  · right
    refine ⟨hst, ?_⟩
    rw [if_neg]
    · exact ⟨_, rfl⟩
    · rw [move_pt_device_ok _ _ _ _ _ _ (by simpa using hst)]
      simp
  · left
    exact ⟨hst, by rw [if_pos (move_pt_device_fails _ _ _ _ _ _ (by simpa using hst))]⟩

theorem reclaim_tail (P : Platform) (vm : Nat) (s sM : State) (e t : vdev_ref)
    (hv : sM.vms = s.vms) (hne : e ≠ t) :
    get_vdev (spinlock_release
        (set_vdev
          (set_vdev (ext_call P ext_fn.deinit_vmsix (ext_call P ext_fn.deinit_vmsi sM t []) t []) e
            { get_vdev (ext_call P ext_fn.deinit_vmsix (ext_call P ext_fn.deinit_vmsi sM t []) t [])
                e with vpci := some P.sos_vm_id }) e
          { get_vdev (set_vdev (ext_call P ext_fn.deinit_vmsix
                (ext_call P ext_fn.deinit_vmsi sM t []) t []) e
              { get_vdev (ext_call P ext_fn.deinit_vmsix (ext_call P ext_fn.deinit_vmsi sM t []) t [])
                  e with vpci := some P.sos_vm_id }) e with new_owner := none }) vm) e =
      { get_vdev s e with vpci := some P.sos_vm_id, new_owner := none } ∧
    (∀ k, k ≠ e → k ≠ t →
      get_vdev (spinlock_release
        (set_vdev
          (set_vdev (ext_call P ext_fn.deinit_vmsix (ext_call P ext_fn.deinit_vmsi sM t []) t []) e
            { get_vdev (ext_call P ext_fn.deinit_vmsix (ext_call P ext_fn.deinit_vmsi sM t []) t [])
                e with vpci := some P.sos_vm_id }) e
          { get_vdev (set_vdev (ext_call P ext_fn.deinit_vmsix
                (ext_call P ext_fn.deinit_vmsi sM t []) t []) e
              { get_vdev (ext_call P ext_fn.deinit_vmsix (ext_call P ext_fn.deinit_vmsi sM t []) t [])
                  e with vpci := some P.sos_vm_id }) e with new_owner := none }) vm) k =
      get_vdev s k) ∧
    same_identity (get_vdev s t)
      (get_vdev (spinlock_release
        (set_vdev
          (set_vdev (ext_call P ext_fn.deinit_vmsix (ext_call P ext_fn.deinit_vmsi sM t []) t []) e
            { get_vdev (ext_call P ext_fn.deinit_vmsix (ext_call P ext_fn.deinit_vmsi sM t []) t [])
                e with vpci := some P.sos_vm_id }) e
          { get_vdev (set_vdev (ext_call P ext_fn.deinit_vmsix
                (ext_call P ext_fn.deinit_vmsi sM t []) t []) e
              { get_vdev (ext_call P ext_fn.deinit_vmsix (ext_call P ext_fn.deinit_vmsi sM t []) t [])
                  e with vpci := some P.sos_vm_id }) e with new_owner := none }) vm) t) ∧
    same_regs s
      (spinlock_release
        (set_vdev
          (set_vdev (ext_call P ext_fn.deinit_vmsix (ext_call P ext_fn.deinit_vmsi sM t []) t []) e
            { get_vdev (ext_call P ext_fn.deinit_vmsix (ext_call P ext_fn.deinit_vmsi sM t []) t [])
                e with vpci := some P.sos_vm_id }) e
          { get_vdev (set_vdev (ext_call P ext_fn.deinit_vmsix
                (ext_call P ext_fn.deinit_vmsi sM t []) t []) e
              { get_vdev (ext_call P ext_fn.deinit_vmsix (ext_call P ext_fn.deinit_vmsi sM t []) t [])
                  e with vpci := some P.sos_vm_id }) e with new_owner := none }) vm) := by
  have hg : ∀ k, get_vdev sM k = get_vdev s k := fun k => get_vdev_of_vms hv k
  refine ⟨?_, ?_, ?_, ?_⟩
  · simp only [spinlock_release, get_vdev_log, get_vdev_set_vdev_same]
    rw [(only_vdev_ext_call P ext_fn.deinit_vmsix _ t []).2 _ hne,
      (only_vdev_ext_call P ext_fn.deinit_vmsi _ t []).2 _ hne, hg]
  · intro k hk1 hk2
    simp only [spinlock_release, get_vdev_log]
    rw [get_vdev_set_vdev, if_neg hk1, get_vdev_set_vdev, if_neg hk1,
      (only_vdev_ext_call P ext_fn.deinit_vmsix _ t []).2 _ hk2,
      (only_vdev_ext_call P ext_fn.deinit_vmsi _ t []).2 _ hk2, hg]
  · simp only [spinlock_release, get_vdev_log]
    rw [get_vdev_set_vdev, if_neg (Ne.symm hne), get_vdev_set_vdev, if_neg (Ne.symm hne),
      ← hg t]
    exact same_identity_trans (same_identity_ext_call P ext_fn.deinit_vmsi sM t [])
      (same_identity_ext_call P ext_fn.deinit_vmsix _ t [])
  · exact same_regs_trans (same_regs_trans (same_regs_trans (same_regs_trans
      (same_regs_of_vms hv)
      (same_regs_ext_call P ext_fn.deinit_vmsi _ t []))
      (same_regs_ext_call P ext_fn.deinit_vmsix _ t []))
      (same_regs_set_vdev _ _ _)) (same_regs_trans (same_regs_set_vdev _ _ _)
      (same_regs_log _ _))

theorem deinit_step_owned (P : Platform) (vm : Nat) (s s1 : State) (i : Nat) (t : vdev_ref)
    (hown : (get_vdev s ⟨P.sos_vm_id, i⟩).vpci = some vm)
    (hlink : (get_vdev s ⟨P.sos_vm_id, i⟩).new_owner = some t)
    (htv : t.vm ≠ P.sos_vm_id)
    (h : deinit_postlaunched_step P vm s i = Except.ok s1) :
    ∃ pd, (get_vdev s t).pdev = some pd ∧
      s1.iommu = iommu_attach (iommu_detach s.iommu (s.vms vm).iommu (u8 (pd.bdf >>> 8))
          (u8 (pd.bdf &&& 0xFF))) (s.vms P.sos_vm_id).iommu (u8 (pd.bdf >>> 8))
          (u8 (pd.bdf &&& 0xFF)) ∧
      get_vdev s1 ⟨P.sos_vm_id, i⟩ =
        { get_vdev s ⟨P.sos_vm_id, i⟩ with vpci := some P.sos_vm_id, new_owner := none } ∧
      (∀ k, k ≠ ⟨P.sos_vm_id, i⟩ → k ≠ t → get_vdev s1 k = get_vdev s k) ∧
      same_identity (get_vdev s t) (get_vdev s1 t) ∧ same_regs s s1 := by
  have hne : (⟨P.sos_vm_id, i⟩ : vdev_ref) ≠ t := by
    intro heq
    exact htv (congrArg vdev_ref.vm heq).symm
  unfold deinit_postlaunched_step at h
  simp only [is_own_device, hown, decide_True, if_true, spinlock_obtain, get_vdev_log, hlink]
    at h
  split at h
  · cases h
  · rename_i pd hpd
    split at h
    · cases h
    · rename_i hz
      have hst := move_pt_device_zero _ _ _ _ _ _ hz
      rw [move_pt_device_ok _ _ _ _ _ _ hst] at h
      cases h
      exact ⟨pd, hpd, rfl, reclaim_tail P vm s _ ⟨P.sos_vm_id, i⟩ t rfl hne⟩


theorem reclaim_iommu_at (m : Nat → Nat → Option Nat) (dv : Option Nat) (d b0 f0 : Nat) :
    iommu_attach (iommu_detach m dv b0 f0) (some d) b0 f0 b0 f0 = some d := by
  unfold iommu_attach
  simp

theorem reclaim_iommu_keep (m : Nat → Nat → Option Nat) (dv : Option Nat) (d b0 f0 b f : Nat)
    (h : m b f = some d) :
    iommu_attach (iommu_detach m dv b0 f0) (some d) b0 f0 b f = some d := by
  unfold iommu_attach
  dsimp only
  by_cases hc : b = b0 ∧ f = f0
  · rw [if_pos hc]
  · rw [if_neg hc]
    unfold iommu_detach
    cases dv with
    | none => exact h
    | some x =>
      dsimp only
      rw [if_neg (fun hh => hc ⟨hh.1, hh.2.1⟩)]
      exact h

theorem deinit_step_spec (P : Platform) (vm : Nat) (d : Nat) (s s1 : State) (i : Nat)
    (hl : link_inv P s) (hw : table_wf P s)
    (hi : i < (get_vpci s P.sos_vm_id).pci_vdev_cnt)
    (h : deinit_postlaunched_step P vm s i = Except.ok s1) :
    reclaimed P vm s s1 ∧
    (∀ j, j ≠ i → get_vdev s1 ⟨P.sos_vm_id, j⟩ = get_vdev s ⟨P.sos_vm_id, j⟩) ∧
    ((get_vdev s ⟨P.sos_vm_id, i⟩).vpci = some vm →
      get_vdev s1 ⟨P.sos_vm_id, i⟩ =
        { get_vdev s ⟨P.sos_vm_id, i⟩ with vpci := some P.sos_vm_id, new_owner := none } ∧
      ((s.vms P.sos_vm_id).iommu = some d →
        ∀ pd, (get_vdev s ⟨P.sos_vm_id, i⟩).pdev = some pd →
          s1.iommu (u8 (pd.bdf >>> 8)) (u8 (pd.bdf &&& 0xFF)) = some d)) ∧
    ((s.vms P.sos_vm_id).iommu = some d → ∀ b f, s.iommu b f = some d → s1.iommu b f = some d) := by
  by_cases hown : (get_vdev s ⟨P.sos_vm_id, i⟩).vpci = some vm
  · cases hlink : (get_vdev s ⟨P.sos_vm_id, i⟩).new_owner with
    | none =>
      unfold deinit_postlaunched_step at h
      simp [is_own_device, hown, spinlock_obtain, hlink] at h
    | some t =>
      obtain ⟨htv, -, -⟩ := (hw i hi).2 t hlink
      obtain ⟨-, hsame⟩ := (hl i hi).2 t hlink
      obtain ⟨pd, hpd, hio, he, hfr, hid, hregs⟩ :=
        deinit_step_owned P vm s s1 i t hown hlink htv h
      have hsos : ∀ j, (⟨P.sos_vm_id, j⟩ : vdev_ref) ≠ t := by
        intro j heq
        exact htv (congrArg vdev_ref.vm heq).symm
      refine ⟨⟨hregs, ?_, ?_⟩, ?_, ?_, ?_⟩
      · intro j
        by_cases hj : j = i
        · subst hj
          exact Or.inr ⟨hown, he⟩
        · left
          apply hfr _ _ (hsos j)
          intro heq
          exact hj (congrArg vdev_ref.idx heq)
      · intro k hk
        by_cases hkt : k = t
        · subst hkt
          exact hid
        · rw [hfr k (fun heq => hk (by rw [heq])) hkt]
          exact same_identity_refl _
      · intro j hj
        apply hfr _ _ (hsos j)
        intro heq
        exact hj (congrArg vdev_ref.idx heq)
      · intro _
        refine ⟨he, ?_⟩
        intro hdom pd2 hpd2
        rw [hsame, hpd2] at hpd
        cases hpd
        rw [hio, hdom]
        exact reclaim_iommu_at _ _ _ _ _
      · intro hdom b f hbf
        rw [hio, hdom]
        exact reclaim_iommu_keep _ _ _ _ _ _ _ hbf
  · rw [deinit_step_other P vm s i hown] at h
    cases h
    exact ⟨reclaimed_refl P vm _, fun _ _ => rfl, fun hc => absurd hc hown, fun _ _ _ hh => hh⟩

theorem deinit_loop_spec (P : Platform) (vm : Nat) (hvm : vm ≠ P.sos_vm_id) (d : Nat)
    (l : List Nat) (s s2 : State)
    (hl : link_inv P s) (hw : table_wf P s)
    (hlt : ∀ i, i ∈ l → i < (get_vpci s P.sos_vm_id).pci_vdev_cnt)
    (h : deinit_postlaunched_loop P vm l s = Except.ok s2) :
    reclaimed P vm s s2 ∧
    (∀ i, i ∈ l → (get_vdev s ⟨P.sos_vm_id, i⟩).vpci = some vm →
      get_vdev s2 ⟨P.sos_vm_id, i⟩ =
        { get_vdev s ⟨P.sos_vm_id, i⟩ with vpci := some P.sos_vm_id, new_owner := none } ∧
      ((s.vms P.sos_vm_id).iommu = some d →
        ∀ pd, (get_vdev s ⟨P.sos_vm_id, i⟩).pdev = some pd →
          s2.iommu (u8 (pd.bdf >>> 8)) (u8 (pd.bdf &&& 0xFF)) = some d)) ∧
    (∀ i, i ∉ l → get_vdev s2 ⟨P.sos_vm_id, i⟩ = get_vdev s ⟨P.sos_vm_id, i⟩) ∧
    ((s.vms P.sos_vm_id).iommu = some d → ∀ b f, s.iommu b f = some d → s2.iommu b f = some d) := by
  induction l generalizing s with
  | nil =>
    cases h
    exact ⟨reclaimed_refl P vm _, fun i hi => absurd hi (List.not_mem_nil i), fun _ _ => rfl,
      fun _ _ _ hh => hh⟩
  | cons i0 l ih =>
    simp only [deinit_postlaunched_loop] at h
    split at h
    · cases h
    · rename_i s1 hs1
      obtain ⟨hrec1, hfr1, hown1, hio1⟩ := deinit_step_spec P vm d s s1 i0 hl hw
        (hlt i0 (List.mem_cons_self _ _)) hs1
      obtain ⟨hl1, hw1⟩ := inv_of_reclaimed P vm hl hw hrec1
      have hdom1 : (s.vms P.sos_vm_id).iommu = some d → (s1.vms P.sos_vm_id).iommu = some d := by
        intro hdom
        rw [(hrec1.1 P.sos_vm_id).2.2.2]; exact hdom
      have hlt1 : ∀ i, i ∈ l → i < (get_vpci s1 P.sos_vm_id).pci_vdev_cnt := by
        intro i hi
        rw [(hrec1.1 P.sos_vm_id).2.2.1]
        exact hlt i (List.mem_cons_of_mem _ hi)
      obtain ⟨hrec2, hown2, hfr2, hio2⟩ := ih s1 hl1 hw1 hlt1 h
      refine ⟨reclaimed_trans P vm hvm hrec1 hrec2, ?_, ?_,
        fun hdom b f hh => hio2 (hdom1 hdom) b f (hio1 hdom b f hh)⟩
      · intro i hi hown
        by_cases hii : i = i0
        · subst hii
          obtain ⟨he, hmv⟩ := hown1 hown
          have hkeep : get_vdev s2 ⟨P.sos_vm_id, i⟩ = get_vdev s1 ⟨P.sos_vm_id, i⟩ := by
            rcases hrec2.2.1 i with a | ⟨a, -⟩
            · exact a
            · rw [he] at a
              exact absurd (Option.some.inj a).symm hvm
          refine ⟨hkeep.trans he, ?_⟩
          intro hdom pd hpd
          exact hio2 (hdom1 hdom) _ _ (hmv hdom pd hpd)
        · have hmem : i ∈ l := by
            rcases List.mem_cons.mp hi with a | a
            · exact absurd a hii
            · exact a
          have hsame := hfr1 i hii
          obtain ⟨he, hmv⟩ := hown2 i hmem (by rw [hsame]; exact hown)
          rw [hsame] at he hmv
          exact ⟨he, fun hdom => hmv (hdom1 hdom)⟩
      · intro i hi
        have h1 : i ≠ i0 := fun heq => hi (by rw [heq]; exact List.mem_cons_self _ _)
        have h2 : i ∉ l := fun hm => hi (List.mem_cons_of_mem _ hm)
        rw [hfr2 i h2, hfr1 i h1]

theorem deinit_step_total (P : Platform) (vm : Nat) (hvm : vm ≠ P.sos_vm_id) (s : State)
    (i : Nat) (hl : link_inv P s) (hw : table_wf P s)
    (hi : i < (get_vpci s P.sos_vm_id).pci_vdev_cnt) :
    (∀ e, deinit_postlaunched_step P vm s i = Except.error e → e = Fault.panic) ∧
    ((∀ m f t b d, P.move_pt_status m f t b d = 0) →
      ∃ s1, deinit_postlaunched_step P vm s i = Except.ok s1) := by
  by_cases hown : (get_vdev s ⟨P.sos_vm_id, i⟩).vpci = some vm
  · have hne : (get_vdev s ⟨P.sos_vm_id, i⟩).new_owner ≠ none := by
      rw [(hl i hi).1, hown]
      exact fun hh => hvm (Option.some.inj hh)
    obtain ⟨t, ht⟩ := Option.ne_none_iff_exists'.mp hne
    obtain ⟨-, -, hpn⟩ := (hw i hi).2 t ht
    obtain ⟨-, hsame⟩ := (hl i hi).2 t ht
    rw [← hsame] at hpn
    obtain ⟨pd, hpd⟩ := Option.ne_none_iff_exists'.mp hpn
    rcases deinit_step_cases P vm s i t pd hown ht hpd with ⟨hst, hp⟩ | ⟨-, s1, hok⟩
    · rw [hp]
      exact ⟨fun e he => (by cases he; rfl), fun hmove => absurd (hmove _ _ _ _ _) hst⟩
    · rw [hok]
      exact ⟨fun e he => (by cases he), fun _ => ⟨_, rfl⟩⟩
  · rw [deinit_step_other P vm s i hown]
    exact ⟨fun e he => (by cases he), fun _ => ⟨_, rfl⟩⟩

theorem deinit_loop_total (P : Platform) (vm : Nat) (hvm : vm ≠ P.sos_vm_id)
    (l : List Nat) (s : State)
    (hl : link_inv P s) (hw : table_wf P s)
    (hlt : ∀ i, i ∈ l → i < (get_vpci s P.sos_vm_id).pci_vdev_cnt) :
    (∀ e, deinit_postlaunched_loop P vm l s = Except.error e → e = Fault.panic) ∧
    ((∀ m f t b d, P.move_pt_status m f t b d = 0) →
      ∃ s2, deinit_postlaunched_loop P vm l s = Except.ok s2) := by
  induction l generalizing s with
  | nil => exact ⟨fun e h => (by cases h), fun _ => ⟨_, rfl⟩⟩
  | cons i0 l ih =>
    have hi0 := hlt i0 (List.mem_cons_self _ _)
    obtain ⟨hf, hr⟩ := deinit_step_total P vm hvm s i0 hl hw hi0
    simp only [deinit_postlaunched_loop]
    cases hstep : deinit_postlaunched_step P vm s i0 with
    | error e =>
      dsimp only
      refine ⟨fun e2 he2 => ?_, fun hmove => ?_⟩
      · cases he2
        exact hf e hstep
      · obtain ⟨s1, hs1⟩ := hr hmove
        rw [hstep] at hs1
        cases hs1
    | ok s1 =>
      dsimp only
      obtain ⟨hrec1, -, -, -⟩ := deinit_step_spec P vm 0 s s1 i0 hl hw hi0 hstep
      obtain ⟨hl1, hw1⟩ := inv_of_reclaimed P vm hl hw hrec1
      apply ih s1 hl1 hw1
      intro i hi
      rw [(hrec1.1 P.sos_vm_id).2.2.1]
      exact hlt i (List.mem_cons_of_mem _ hi)

theorem link_inv_s0_assigned : link_inv P0 s0_assigned := by
  intro i hi
  have hc : (get_vpci s0_assigned P0.sos_vm_id).pci_vdev_cnt = 1 := by decide
  rw [hc] at hi
  have h0 : i = 0 := by omega
  subst h0
  have e : (get_vdev s0_assigned ⟨P0.sos_vm_id, 0⟩).new_owner = some ⟨1, 0⟩ := by decide
  refine ⟨⟨fun _ => by decide, fun _ => by decide⟩, ?_⟩
  intro t ht
  rw [e] at ht
  cases ht
  exact ⟨by decide, by decide⟩

theorem table_wf_s0_assigned : table_wf P0 s0_assigned := by
  intro i hi
  have hc : (get_vpci s0_assigned P0.sos_vm_id).pci_vdev_cnt = 1 := by decide
  rw [hc] at hi
  have h0 : i = 0 := by omega
  subst h0
  have e : (get_vdev s0_assigned ⟨P0.sos_vm_id, 0⟩).new_owner = some ⟨1, 0⟩ := by decide
  refine ⟨by decide, ?_⟩
  intro t ht
  rw [e] at ht
  cases ht
  exact ⟨by decide, by decide, by decide⟩

/-! ## Guest-deinit reclaim: claim -/

/-- C22: guest-deinit reclaim.  For a guest `vm`, in a state where the ownership links of the
service VM's table are consistent (`link_inv`, `table_wf`) and the service VM has an IOMMU
domain `d`: whenever `deinit_postlaunched_vm_vpci` returns, every registered entry of the
service VM's table that was owned by `vm` is as before but owned by the service VM and with a
null new-owner link, and its physical device is attached to the domain `d`; every entry not
owned by `vm` (and every slot past the count) is unchanged; the count is unchanged; no
registered entry is owned by `vm`.  The call returns when the IOMMU accepts the moves. -/
theorem C22_guest_deinit_reclaim (P : Platform) (s : State) (vm d : Nat)
    (hvm : vm ≠ P.sos_vm_id) (hl : link_inv P s) (hw : table_wf P s)
    (hdom : (s.vms P.sos_vm_id).iommu = some d) :
    (∀ s2, deinit_postlaunched_vm_vpci P s vm = Except.ok s2 →
      (∀ i, i < (get_vpci s P.sos_vm_id).pci_vdev_cnt →
        (get_vdev s ⟨P.sos_vm_id, i⟩).vpci = some vm →
        get_vdev s2 ⟨P.sos_vm_id, i⟩ =
          { get_vdev s ⟨P.sos_vm_id, i⟩ with vpci := some P.sos_vm_id, new_owner := none } ∧
        ∀ pd, (get_vdev s ⟨P.sos_vm_id, i⟩).pdev = some pd →
          s2.iommu (u8 (pd.bdf >>> 8)) (u8 (pd.bdf &&& 0xFF)) = some d) ∧
      (∀ i, (get_vdev s ⟨P.sos_vm_id, i⟩).vpci ≠ some vm ∨
          (get_vpci s P.sos_vm_id).pci_vdev_cnt ≤ i →
        get_vdev s2 ⟨P.sos_vm_id, i⟩ = get_vdev s ⟨P.sos_vm_id, i⟩) ∧
      (get_vpci s2 P.sos_vm_id).pci_vdev_cnt = (get_vpci s P.sos_vm_id).pci_vdev_cnt ∧
      (∀ i, i < (get_vpci s2 P.sos_vm_id).pci_vdev_cnt →
        (get_vdev s2 ⟨P.sos_vm_id, i⟩).vpci ≠ some vm)) ∧
    ((∀ m f t b d, P.move_pt_status m f t b d = 0) →
      ∃ s2, deinit_postlaunched_vm_vpci P s vm = Except.ok s2) := by
  have hl0 : link_inv P (spinlock_obtain s P.sos_vm_id) := hl
  have hw0 : table_wf P (spinlock_obtain s P.sos_vm_id) := hw
  have hlt : ∀ i, i ∈ List.range (get_vpci (spinlock_obtain s P.sos_vm_id) P.sos_vm_id).pci_vdev_cnt →
      i < (get_vpci (spinlock_obtain s P.sos_vm_id) P.sos_vm_id).pci_vdev_cnt :=
    fun i hi => List.mem_range.mp hi
  constructor
  · intro s2 h
    unfold deinit_postlaunched_vm_vpci at h
    dsimp only at h
    split at h
    · cases h
    · rename_i s3 hs3
      cases h
      obtain ⟨hrec, hown, hfr, -⟩ := deinit_loop_spec P vm hvm d _ _ _ hl0 hw0 hlt hs3
      have hcnt : (get_vpci s3 P.sos_vm_id).pci_vdev_cnt = (get_vpci s P.sos_vm_id).pci_vdev_cnt :=
        (hrec.1 P.sos_vm_id).2.2.1
      simp only [spinlock_release, get_vdev_log, iommu_log, get_vpci_log]
      refine ⟨?_, ?_, hcnt, ?_⟩
      · intro i hi hv
        obtain ⟨he, hmv⟩ := hown i (List.mem_range.mpr hi) hv
        exact ⟨he, hmv hdom⟩
      · intro i hor
        rcases hor with hv | hge
        · rcases hrec.2.1 i with a | ⟨a, -⟩
          · exact a
          · exact absurd a hv
        · exact hfr i (fun hm => Nat.not_lt.mpr hge (List.mem_range.mp hm))
      · intro i hi
        rw [hcnt] at hi
        by_cases hv : (get_vdev s ⟨P.sos_vm_id, i⟩).vpci = some vm
        · rw [(hown i (List.mem_range.mpr hi) hv).1]
          exact fun hh => hvm (Option.some.inj hh).symm
        · rcases hrec.2.1 i with a | ⟨a, -⟩
          · rw [a]; exact hv
          · exact absurd a hv
  · intro hmove
    unfold deinit_postlaunched_vm_vpci
    dsimp only
    obtain ⟨s2, hs2⟩ := (deinit_loop_total P vm hvm _ _ hl0 hw0 hlt).2 hmove
    rw [hs2]
    exact ⟨_, rfl⟩

/-- C22 (witness): the deinit of VM 1 in `s0_assigned` on `P0` gives 01:00.0 back to the
service VM. -/
theorem C22_guest_deinit_reclaim_witness :
    ∃ s2, deinit_postlaunched_vm_vpci P0 s0_assigned 1 = Except.ok s2 ∧
      (get_vdev s2 ⟨0, 0⟩).vpci = some 0 ∧ (get_vdev s2 ⟨0, 0⟩).new_owner = none ∧
      s2.iommu 1 0 = some 0 ∧
      (∀ i, i < (get_vpci s2 0).pci_vdev_cnt → (get_vdev s2 ⟨0, i⟩).vpci ≠ some 1) := by
  obtain ⟨hpost, hret⟩ := C22_guest_deinit_reclaim P0 s0_assigned 1 0 (by decide)
    link_inv_s0_assigned table_wf_s0_assigned (by decide)
  obtain ⟨s2, hs2⟩ := hret (fun _ _ _ _ _ => rfl)
  obtain ⟨hown, -, -, hnone⟩ := hpost s2 hs2
  obtain ⟨he, hmv⟩ := hown 0 (by decide) (by decide)
  refine ⟨s2, hs2, ?_, ?_, hmv pdev0 (by decide), hnone⟩
  · exact (congrArg pci_vdev.vpci he).trans rfl
  · exact (congrArg pci_vdev.new_owner he).trans rfl

/-! ## Ownership-link invariant: lemmas and claim -/

theorem inv_of_vms (P : Platform) {s s2 : State} (h : s2.vms = s.vms)
    (hl : link_inv P s) (hw : table_wf P s) : link_inv P s2 ∧ table_wf P s2 :=
  inv_of_reclaimed P 0 hl hw (reclaimed_of_vms P 0 h)

theorem vpci_init_vdev_new_owner (P : Platform) (s s2 : State) (vpci : Nat)
    (cfg : acrn_vm_pci_dev_config) (pf : Option vdev_ref) (n : vdev_ref)
    (h : vpci_init_vdev P s vpci cfg pf = Except.ok (n, s2)) :
    (get_vdev s2 n).new_owner = (get_vdev s n).new_owner := by
  unfold vpci_init_vdev at h
  dsimp only at h
  split at h
  · split at h
    · cases h
    · split at h
      · cases h
      · rename_i s4 hinit
        cases h
        obtain ⟨-, hid⟩ := init_vdev_only _ _ _ _ hinit
        rw [hid.2.2.2.2.2.1]
        simp only [get_vdev_set_vdev_same]
        rw [get_vdev_set_cnt]
  · cases h

theorem vpci_init_vdev_inv (P : Platform) (s s2 : State) (vm : Nat)
    (cfg : acrn_vm_pci_dev_config) (n : vdev_ref)
    (hl : link_inv P s) (hw : table_wf P s)
    (hfree : vm = P.sos_vm_id → ∀ i, (get_vpci s P.sos_vm_id).pci_vdev_cnt ≤ i →
      (get_vdev s ⟨P.sos_vm_id, i⟩).new_owner = none)
    (h : vpci_init_vdev P s vm cfg none = Except.ok (n, s2)) :
    link_inv P s2 ∧ table_wf P s2 ∧
    (vm = P.sos_vm_id → ∀ i, (get_vpci s2 P.sos_vm_id).pci_vdev_cnt ≤ i →
      (get_vdev s2 ⟨P.sos_vm_id, i⟩).new_owner = none) := by
  obtain ⟨hn, -, hcnt, -, hfr, hv, -, hp, hc, -⟩ := vpci_init_vdev_ok P s s2 vm cfg none n h
  have hno := vpci_init_vdev_new_owner P s s2 vm cfg none n h
  subst hn
  have hcnt_ge : ∀ v, (get_vpci s v).pci_vdev_cnt ≤ (get_vpci s2 v).pci_vdev_cnt := by
    intro v
    rw [hcnt v]
    split <;> omega
  -- link targets of existing entries are not the new entry
  have htgt : ∀ i, i < (get_vpci s P.sos_vm_id).pci_vdev_cnt →
      ∀ t, (get_vdev s ⟨P.sos_vm_id, i⟩).new_owner = some t →
        get_vdev s2 t = get_vdev s t := by
    intro i hi t ht
    obtain ⟨-, h2, -⟩ := (hw i hi).2 t ht
    apply hfr
    intro heq
    rw [heq] at h2
    exact Nat.lt_irrefl _ h2
  have hold : ∀ i, i < (get_vpci s P.sos_vm_id).pci_vdev_cnt →
      get_vdev s2 ⟨P.sos_vm_id, i⟩ = get_vdev s ⟨P.sos_vm_id, i⟩ := by
    intro i hi
    apply hfr
    intro heq
    have h1 := congrArg vdev_ref.vm heq
    have h2 := congrArg vdev_ref.idx heq
    simp only at h1 h2
    subst h1
    rw [h2] at hi
    exact Nat.lt_irrefl _ hi
  by_cases hvm : vm = P.sos_vm_id
  · subst hvm
    have hc2 : (get_vpci s2 P.sos_vm_id).pci_vdev_cnt =
        (get_vpci s P.sos_vm_id).pci_vdev_cnt + 1 := by
      rw [hcnt, if_pos rfl]
    have hnew : (get_vdev s2 ⟨P.sos_vm_id, (get_vpci s P.sos_vm_id).pci_vdev_cnt⟩).new_owner =
        none := by
      rw [hno]
      exact hfree rfl _ (Nat.le_refl _)
    refine ⟨?_, ?_, ?_⟩
    · intro i hi
      rw [hc2] at hi
      by_cases hlt : i < (get_vpci s P.sos_vm_id).pci_vdev_cnt
      · rw [hold i hlt]
        refine ⟨(hl i hlt).1, ?_⟩
        intro t ht
        rw [htgt i hlt t ht]
        exact (hl i hlt).2 t ht
      · have hi2 : i = (get_vpci s P.sos_vm_id).pci_vdev_cnt := by omega
        subst hi2
        rw [hnew, hv]
        exact ⟨by simp, fun t ht => by cases ht⟩
    · intro i hi
      rw [hc2] at hi
      by_cases hlt : i < (get_vpci s P.sos_vm_id).pci_vdev_cnt
      · rw [hold i hlt]
        refine ⟨(hw i hlt).1, ?_⟩
        intro t ht
        obtain ⟨h1, h2, h3⟩ := (hw i hlt).2 t ht
        exact ⟨h1, Nat.lt_of_lt_of_le h2 (hcnt_ge _), h3⟩
      · have hi2 : i = (get_vpci s P.sos_vm_id).pci_vdev_cnt := by omega
        subst hi2
        rw [hnew, hp, hc]
        exact ⟨rfl, fun t ht => by cases ht⟩
    · intro _ i hi
      rw [hc2] at hi
      rw [hfr _ (by
        intro heq
        have h2 := congrArg vdev_ref.idx heq
        simp only at h2
        omega)]
      exact hfree rfl i (by omega)
  · have hc2 : (get_vpci s2 P.sos_vm_id).pci_vdev_cnt = (get_vpci s P.sos_vm_id).pci_vdev_cnt := by
      rw [hcnt, if_neg (Ne.symm hvm)]
    refine ⟨?_, ?_, fun hh => absurd hh hvm⟩
    · intro i hi
      rw [hc2] at hi
      rw [hold i hi]
      refine ⟨(hl i hi).1, ?_⟩
      intro t ht
      rw [htgt i hi t ht]
      exact (hl i hi).2 t ht
    · intro i hi
      rw [hc2] at hi
      rw [hold i hi]
      refine ⟨(hw i hi).1, ?_⟩
      intro t ht
      obtain ⟨h1, h2, h3⟩ := (hw i hi).2 t ht
      exact ⟨h1, Nat.lt_of_lt_of_le h2 (hcnt_ge _), h3⟩

theorem vpci_init_vdevs_loop_inv (P : Platform) (vm : Nat) (cs : List acrn_vm_pci_dev_config)
    (s s2 : State) (hl : link_inv P s) (hw : table_wf P s)
    (hfree : vm = P.sos_vm_id → ∀ i, (get_vpci s P.sos_vm_id).pci_vdev_cnt ≤ i →
      (get_vdev s ⟨P.sos_vm_id, i⟩).new_owner = none)
    (h : vpci_init_vdevs_loop P vm cs s = Except.ok s2) :
    link_inv P s2 ∧ table_wf P s2 := by
  induction cs generalizing s with
  | nil =>
    cases h
    exact ⟨hl, hw⟩
  | cons c cs ih =>
    simp only [vpci_init_vdevs_loop] at h
    split at h
    · cases h
    · rename_i r hr
      obtain ⟨n, s1⟩ := r
      obtain ⟨hl1, hw1, hfree1⟩ := vpci_init_vdev_inv P s s1 vm c n hl hw hfree hr
      exact ih s1 hl1 hw1 hfree1 h


theorem vpci_assign_pcidev_cases (P : Platform) (s : State) (tgt_vm : Nat)
    (pcidev : acrn_assign_pcidev) (r : Int × State)
    (ha : vpci_assign_pcidev P s tgt_vm pcidev = Except.ok r) :
    r.1 = 0 ∨ r.2.vms = s.vms := by
  by_cases hrej : ∀ h, pci_find_vdev s P.sos_vm_id (u16 pcidev.phys_bdf) = some h →
      ¬ ((get_vdev s h).vpci = some P.sos_vm_id ∧ (get_vdev s h).pdev ≠ none ∧
        P.has_sriov_cap (get_vdev s h) = false)
  · rw [vpci_assign_pcidev_rejected P s tgt_vm pcidev hrej] at ha
    cases ha
    exact Or.inr rfl
  · left
    push_neg at hrej
    obtain ⟨h, hfind, hown, hpd, hsr⟩ := hrej
    obtain ⟨pdev, hpdev⟩ := Option.ne_none_iff_exists'.mp hpd
    exact vpci_assign_pcidev_ret P s tgt_vm pcidev h pdev hfind hown hpdev hsr r ha

theorem vpci_assign_pcidev_inv (P : Platform) (s : State) (tgt_vm : Nat)
    (pcidev : acrn_assign_pcidev) (r : Int × State) (htgt : tgt_vm ≠ P.sos_vm_id)
    (hl : link_inv P s) (hw : table_wf P s)
    (ha : vpci_assign_pcidev P s tgt_vm pcidev = Except.ok r) :
    link_inv P r.2 ∧ table_wf P r.2 := by
  rcases vpci_assign_pcidev_cases P s tgt_vm pcidev r ha with h0 | hv
  · obtain ⟨r1, s1⟩ := r
    simp only at h0
    subst h0
    show link_inv P s1 ∧ table_wf P s1
    obtain ⟨h, pdev, hfind, hown, hpdev, -, -, hh, hfr, hcnt, -⟩ :=
      vpci_assign_pcidev_ok P s s1 tgt_vm pcidev ha
    obtain ⟨nv, np, -, -, -, -, -, -⟩ := vpci_assign_pcidev_new P s s1 tgt_vm pcidev h hfind ha
    obtain ⟨hhvm, hhidx, -⟩ := pci_find_vdev_some s P.sos_vm_id _ h hfind
    obtain ⟨hvm0, hidx0⟩ := h
    simp only at hhvm hhidx
    subst hhvm
    have hc2 : (get_vpci s1 P.sos_vm_id).pci_vdev_cnt = (get_vpci s P.sos_vm_id).pci_vdev_cnt := by
      rw [hcnt, if_neg (Ne.symm htgt)]
    have hcnt_ge : ∀ v, (get_vpci s v).pci_vdev_cnt ≤ (get_vpci s1 v).pci_vdev_cnt := by
      intro v
      rw [hcnt v]
      split <;> omega
    have hsosn : ∀ j, (⟨P.sos_vm_id, j⟩ : vdev_ref) ≠ ⟨tgt_vm, (get_vpci s tgt_vm).pci_vdev_cnt⟩ := by
      intro j heq
      exact htgt (congrArg vdev_ref.vm heq).symm
    have hold : ∀ i, i ≠ hidx0 →
        get_vdev s1 ⟨P.sos_vm_id, i⟩ = get_vdev s ⟨P.sos_vm_id, i⟩ := by
      intro i hi
      apply hfr _ _ (hsosn i)
      intro heq
      exact hi (congrArg vdev_ref.idx heq)
    have htgt_same : ∀ i, i < (get_vpci s P.sos_vm_id).pci_vdev_cnt →
        ∀ t, (get_vdev s ⟨P.sos_vm_id, i⟩).new_owner = some t →
          get_vdev s1 t = get_vdev s t := by
      intro i hi t ht
      obtain ⟨h1, h2, -⟩ := (hw i hi).2 t ht
      apply hfr
      · intro heq
        rw [heq] at h1
        exact h1 rfl
      · intro heq
        rw [heq] at h2
        exact Nat.lt_irrefl _ h2
    constructor
    · intro i hi
      rw [hc2] at hi
      by_cases hih : i = hidx0
      · subst hih
        rw [hh]
        refine ⟨⟨fun _ hc => htgt (Option.some.inj hc), fun _ => by simp⟩, ?_⟩
        intro t ht
        cases ht
        exact ⟨nv, np.trans (hw i hi).1⟩
      · rw [hold i hih]
        refine ⟨(hl i hi).1, ?_⟩
        intro t ht
        rw [htgt_same i hi t ht]
        exact (hl i hi).2 t ht
    · intro i hi
      rw [hc2] at hi
      by_cases hih : i = hidx0
      · subst hih
        rw [hh]
        refine ⟨(hw i hi).1, ?_⟩
        intro t ht
        cases ht
        refine ⟨htgt, ?_, ?_⟩
        · show (get_vpci s tgt_vm).pci_vdev_cnt < (get_vpci s1 tgt_vm).pci_vdev_cnt
          rw [hcnt, if_pos rfl]
          exact Nat.lt_succ_self _
        · show (get_vdev s ⟨P.sos_vm_id, i⟩).pdev ≠ none
          rw [hpdev]
          simp
      · rw [hold i hih]
        refine ⟨(hw i hi).1, ?_⟩
        intro t ht
        obtain ⟨h1, h2, h3⟩ := (hw i hi).2 t ht
        exact ⟨h1, Nat.lt_of_lt_of_le h2 (hcnt_ge _), h3⟩
  · exact inv_of_vms P hv hl hw

theorem deassign_reclaim_spec (P : Platform) (s s3 : State) (tgt_vm : Nat)
    (pcidev : acrn_assign_pcidev) (link : Option vdev_ref)
    (h : deassign_reclaim P s tgt_vm pcidev link = Except.ok s3) :
    same_regs s s3 ∧ (∀ k, link ≠ some k → get_vdev s3 k = get_vdev s k) ∧
    (∀ n, link = some n → same_identity (get_vdev s n) (get_vdev s3 n)) := by
  unfold deassign_reclaim at h
  split at h
  · cases h
    exact ⟨same_regs_refl _, fun _ _ => rfl, fun n hn => by cases hn⟩
  · rename_i n
    dsimp only at h
    split at h
    · cases h
    · cases h
      have hv := move_pt_device_vms P s (s.vms tgt_vm).iommu (s.vms P.sos_vm_id).iommu
        (u8 (u16 pcidev.phys_bdf >>> 8)) (u8 (u16 pcidev.phys_bdf &&& 0xff))
      refine ⟨?_, ?_, ?_⟩
      · exact same_regs_trans (same_regs_trans (same_regs_of_vms hv)
          (same_regs_ext_call P ext_fn.deinit_vmsi _ n []))
          (same_regs_ext_call P ext_fn.deinit_vmsix _ n [])
      · intro k hk
        have hkn : k ≠ n := fun heq => hk (by rw [heq])
        rw [(only_vdev_ext_call P ext_fn.deinit_vmsix _ n []).2 _ hkn,
          (only_vdev_ext_call P ext_fn.deinit_vmsi _ n []).2 _ hkn, get_vdev_of_vms hv]
      · intro n2 hn2
        cases hn2
        rw [← get_vdev_of_vms hv n]
        exact same_identity_trans (same_identity_ext_call P ext_fn.deinit_vmsi _ n [])
          (same_identity_ext_call P ext_fn.deinit_vmsix _ n [])

theorem vpci_deassign_pcidev_reclaimed (P : Platform) (s : State) (tgt_vm : Nat)
    (pcidev : acrn_assign_pcidev) (r : Int × State) (hw : table_wf P s)
    (ha : vpci_deassign_pcidev P s tgt_vm pcidev = Except.ok r) :
    reclaimed P tgt_vm s r.2 := by
  by_cases hrej : ∀ h, pci_find_vdev s P.sos_vm_id (u16 pcidev.phys_bdf) = some h →
      ¬ ((get_vdev s h).vpci = some tgt_vm ∧ (get_vdev s h).pdev ≠ none)
  · rw [vpci_deassign_pcidev_rejected P s tgt_vm pcidev hrej] at ha
    cases ha
    exact reclaimed_of_vms P tgt_vm rfl
  · push_neg at hrej
    obtain ⟨h, hfind, hown, hpd⟩ := hrej
    rw [vpci_deassign_pcidev_found P s tgt_vm pcidev h hfind hown hpd] at ha
    split at ha
    · cases ha
    · rename_i s3 hs3
      cases ha
      obtain ⟨hregs, hfr, hid⟩ := deassign_reclaim_spec P _ s3 tgt_vm pcidev _ hs3
      simp only [spinlock_obtain, get_vdev_log] at hfr hid
      obtain ⟨hhvm, hhidx, -⟩ := pci_find_vdev_some s P.sos_vm_id _ h hfind
      obtain ⟨hvm0, hidx0⟩ := h
      simp only at hhvm hhidx
      subst hhvm
      have hlink_sos : ∀ j, (get_vdev s ⟨P.sos_vm_id, hidx0⟩).new_owner ≠
          some ⟨P.sos_vm_id, j⟩ := by
        intro j hj
        exact ((hw hidx0 hhidx).2 _ hj).1 rfl
      refine ⟨?_, ?_, ?_⟩
      · refine same_regs_trans (same_regs_trans ?_ hregs) (same_regs_trans (same_regs_log _ _)
          (same_regs_trans (same_regs_set_vdev _ _ _) (same_regs_trans (same_regs_set_vdev _ _ _)
          (same_regs_log _ _))))
        exact fun _ => ⟨rfl, rfl, rfl, rfl⟩
      · intro i
        simp only [spinlock_release, get_vdev_log]
        by_cases hi : i = hidx0
        · subst hi
          right
          refine ⟨hown, ?_⟩
          simp only [get_vdev_set_vdev_same]
          rw [hfr _ (hlink_sos i)]
        · left
          have hne : (⟨P.sos_vm_id, i⟩ : vdev_ref) ≠ ⟨P.sos_vm_id, hidx0⟩ :=
            fun heq => hi (congrArg vdev_ref.idx heq)
          rw [get_vdev_set_vdev, if_neg hne, get_vdev_set_vdev, if_neg hne, get_vdev_log,
            hfr _ (hlink_sos i)]
      · intro k hk
        have hne : k ≠ ⟨P.sos_vm_id, hidx0⟩ := fun heq => hk (by rw [heq])
        simp only [spinlock_release, get_vdev_log]
        rw [get_vdev_set_vdev, if_neg hne, get_vdev_set_vdev, if_neg hne, get_vdev_log]
        by_cases hkl : (get_vdev s ⟨P.sos_vm_id, hidx0⟩).new_owner = some k
        · exact hid k hkl
        · rw [hfr k hkl]
          exact same_identity_refl _

theorem deinit_postlaunched_vm_vpci_reclaimed (P : Platform) (s s2 : State) (vm : Nat)
    (hvm : vm ≠ P.sos_vm_id) (hl : link_inv P s) (hw : table_wf P s)
    (h : deinit_postlaunched_vm_vpci P s vm = Except.ok s2) : reclaimed P vm s s2 := by
  unfold deinit_postlaunched_vm_vpci at h
  dsimp only at h
  split at h
  · cases h
  · rename_i s3 hs3
    cases h
    obtain ⟨hrec, -, -, -⟩ := deinit_loop_spec P vm hvm 0 _ (spinlock_obtain s P.sos_vm_id) s3
      hl hw (fun i hi => List.mem_range.mp hi) hs3
    exact reclaimed_trans P vm hvm hrec (reclaimed_of_vms P vm rfl)

theorem deinit_postlaunched_vm_vpci_total (P : Platform) (s : State) (vm : Nat)
    (hvm : vm ≠ P.sos_vm_id) (hl : link_inv P s) (hw : table_wf P s) :
    (∀ e, deinit_postlaunched_vm_vpci P s vm = Except.error e → e = Fault.panic) ∧
    ((∀ m f t b d, P.move_pt_status m f t b d = 0) →
      ∃ s2, deinit_postlaunched_vm_vpci P s vm = Except.ok s2) := by
  obtain ⟨hf, hr⟩ := deinit_loop_total P vm hvm
    (List.range (get_vpci (spinlock_obtain s P.sos_vm_id) P.sos_vm_id).pci_vdev_cnt)
    (spinlock_obtain s P.sos_vm_id) hl hw (fun i hi => List.mem_range.mp hi)
  unfold deinit_postlaunched_vm_vpci
  dsimp only
  constructor
  · intro e he
    split at he
    · rename_i e2 he2
      cases he
      exact hf _ he2
    · cases he
  · intro hmove
    obtain ⟨s2, hs2⟩ := hr hmove
    rw [hs2]
    exact ⟨_, rfl⟩

theorem inv_of_empty (P : Platform) (s : State)
    (h : (get_vpci s P.sos_vm_id).pci_vdev_cnt = 0) : link_inv P s ∧ table_wf P s := by
  constructor
  · intro i hi
    rw [h] at hi
    exact absurd hi (Nat.not_lt_zero i)
  · intro i hi
    rw [h] at hi
    exact absurd hi (Nat.not_lt_zero i)

theorem link_inv_s0 : link_inv P0 s0 := by
  intro i hi
  have hc : (get_vpci s0 P0.sos_vm_id).pci_vdev_cnt = 1 := by decide
  rw [hc] at hi
  have h0 : i = 0 := by omega
  subst h0
  have e : (get_vdev s0 ⟨P0.sos_vm_id, 0⟩).new_owner = none := by decide
  refine ⟨⟨fun hn => absurd e hn, fun hn => absurd (by decide) hn⟩, ?_⟩
  intro t ht
  rw [e] at ht
  cases ht

theorem table_wf_s0 : table_wf P0 s0 := by
  intro i hi
  have hc : (get_vpci s0 P0.sos_vm_id).pci_vdev_cnt = 1 := by decide
  rw [hc] at hi
  have h0 : i = 0 := by omega
  subst h0
  have e : (get_vdev s0 ⟨P0.sos_vm_id, 0⟩).new_owner = none := by decide
  refine ⟨by decide, ?_⟩
  intro t ht
  rw [e] at ht
  cases ht

/-- C24: the ownership-link invariant `link_inv` of the service VM's table, together with
the registry facts `table_wf` that make it inductive.  (1) Both hold of a state whose service
VM table is empty, as before the bulk init.  (2) From a state where both hold: they hold
after the bulk init `vpci_init_vdevs` of any VM (for the service VM, the slots past the count
being zeroed, with a null new-owner link), after `vpci_assign_pcidev` to a guest, after
`vpci_deassign_pcidev`, and after `deinit_postlaunched_vm_vpci` of a guest, whenever the call
returns; and `deinit_postlaunched_vm_vpci` of a guest ends in no fault but the IOMMU panic
(so it dereferences no null new-owner link), and returns when the IOMMU accepts the moves. -/
theorem C24_ownership_link_invariant (P : Platform) (s : State) (vm : Nat)
    (pcidev : acrn_assign_pcidev) :
    ((get_vpci s P.sos_vm_id).pci_vdev_cnt = 0 → link_inv P s ∧ table_wf P s) ∧
    (link_inv P s → table_wf P s →
      (∀ s2, (vm = P.sos_vm_id → ∀ i, (get_vpci s P.sos_vm_id).pci_vdev_cnt ≤ i →
          (get_vdev s ⟨P.sos_vm_id, i⟩).new_owner = none) →
        vpci_init_vdevs P s vm = Except.ok s2 → link_inv P s2 ∧ table_wf P s2) ∧
      (vm ≠ P.sos_vm_id → ∀ r, vpci_assign_pcidev P s vm pcidev = Except.ok r →
        link_inv P r.2 ∧ table_wf P r.2) ∧
      (∀ r, vpci_deassign_pcidev P s vm pcidev = Except.ok r →
        link_inv P r.2 ∧ table_wf P r.2) ∧
      (vm ≠ P.sos_vm_id →
        (∀ s2, deinit_postlaunched_vm_vpci P s vm = Except.ok s2 →
          link_inv P s2 ∧ table_wf P s2) ∧
        (∀ e, deinit_postlaunched_vm_vpci P s vm = Except.error e → e = Fault.panic) ∧
        ((∀ m f t b d, P.move_pt_status m f t b d = 0) →
          ∃ s2, deinit_postlaunched_vm_vpci P s vm = Except.ok s2))) := by
  refine ⟨fun h0 => inv_of_empty P s h0, fun hl hw => ⟨?_, ?_, ?_, ?_⟩⟩
  · intro s2 hfree h
    exact vpci_init_vdevs_loop_inv P vm _ s s2 hl hw hfree h
  · intro hvm r hr
    exact vpci_assign_pcidev_inv P s vm pcidev r hvm hl hw hr
  · intro r hr
    exact inv_of_reclaimed P vm hl hw (vpci_deassign_pcidev_reclaimed P s vm pcidev r hw hr)
  · intro hvm
    obtain ⟨hf, hr⟩ := deinit_postlaunched_vm_vpci_total P s vm hvm hl hw
    exact ⟨fun s2 h => inv_of_reclaimed P vm hl hw
      (deinit_postlaunched_vm_vpci_reclaimed P s s2 vm hvm hl hw h), hf, hr⟩

/-- C24 (witness): on `P0_boot` the invariant holds of the empty `s_boot` and after the bulk
init of the service VM; on `P0` it holds of `s0` and after the assignment of 01:00.0 to VM 1
(`s0_assigned`), and from there after the deassignment from VM 1 and after the deinit of
VM 1. -/
theorem C24_ownership_link_invariant_witness :
    (link_inv P0_boot s_boot ∧ table_wf P0_boot s_boot) ∧
    (∃ s2, vpci_init_vdevs P0_boot s_boot 0 = Except.ok s2 ∧
      link_inv P0_boot s2 ∧ table_wf P0_boot s2) ∧
    (link_inv P0 s0_assigned ∧ table_wf P0 s0_assigned) ∧
    (∃ r, vpci_deassign_pcidev P0 s0_assigned 1 pc0 = Except.ok r ∧
      link_inv P0 r.2 ∧ table_wf P0 r.2) ∧
    (∃ s2, deinit_postlaunched_vm_vpci P0 s0_assigned 1 = Except.ok s2 ∧
      link_inv P0 s2 ∧ table_wf P0 s2) := by
  have hb := (C24_ownership_link_invariant P0_boot s_boot 0 pc0).1 rfl
  obtain ⟨s2, hs2⟩ : ∃ s2, vpci_init_vdevs P0_boot s_boot 0 = Except.ok s2 := ⟨_, rfl⟩
  have hi := ((C24_ownership_link_invariant P0_boot s_boot 0 pc0).2 hb.1 hb.2).1 s2
    (fun _ _ _ => rfl) hs2
  have ha := ((C24_ownership_link_invariant P0 s0 1 pc0).2 link_inv_s0 table_wf_s0).2.1
    (by decide) (0, s0_assigned) rfl
  obtain ⟨r, hr⟩ : ∃ r, vpci_deassign_pcidev P0 s0_assigned 1 pc0 = Except.ok r := ⟨_, rfl⟩
  have hd := ((C24_ownership_link_invariant P0 s0_assigned 1 pc0).2 ha.1 ha.2).2.2.1 r hr
  obtain ⟨-, -, hret⟩ := ((C24_ownership_link_invariant P0 s0_assigned 1 pc0).2 ha.1
    ha.2).2.2.2 (by decide)
  obtain ⟨s3, hs3⟩ := hret (fun _ _ _ _ _ => rfl)
  have hq := (((C24_ownership_link_invariant P0 s0_assigned 1 pc0).2 ha.1 ha.2).2.2.2
    (by decide)).1 s3 hs3
  exact ⟨hb, ⟨s2, hs2, hi⟩, ha, ⟨r, hr, hd⟩, ⟨s3, hs3, hq⟩⟩

end Vpci
